import Mathlib

/-!
gpt-load: key lifecycle, policy engine and request executor

A shallow embedding of

* `internal/models/key_state_machine.go` (the pure state machine and the
  backoff function),
* `internal/services/key_state_service.go` (the persisted transitions and the
  manual overrides),
* `internal/services/incremental_validation_service.go` (`validateSingleKey`
  and the worker pool of `validateKeysBatch`),
* `internal/handler/incremental_validation_handler.go` (the configuration a
  validation request stands for),
* `internal/models/policy.go` and `internal/policy/policy_engine.go` (policy
  records, rule and policy selection, model filters),
* `internal/policy/policy_service.go` (the default policies),
* `internal/services/key_policy_handler.go` (`HandleKeyFailure`),
* `internal/proxy/request_executor.go` (the retry loop of `ExecuteWithRetry`,
  `buildHTTPRequest` and `cleanAuthHeaders`),

followed by the properties proved about them.

Conventions of the embedding:

* Go `int64` / `int` values are integers (`Int`); a Go addition or
  multiplication on them goes through `wrapInt64`, the two's complement
  wrap-around of a 64-bit machine word. The one exception is the increment
  `RetryCount++` of the executor, which the code reaches only below
  `MaxRetries` and which therefore cannot wrap around; it is the plain
  successor, so that the recursion of `ExecuteWithRetry` is well founded.
* `time.Time` is an integer number of nanoseconds on an absolute axis and
  `time.Duration` an integer number of nanoseconds. `time.Now()` is an
  explicit argument `now` of every operation that reads the clock.
* The `api_keys` table is a list of rows; a query by primary key reads the
  first row with that id and an update by primary key rewrites every row with
  that id.
* Library code (`encoding/json`, `regexp`, `strconv.ParseFloat`, `sort.Slice`)
  is an argument `lib : StdLib`; what the upstream and the other collaborators
  of the executor answer is an argument `upstream`. A Go pair `(value, err)`
  is a pair whose second component is the error, if any.
* Goroutines are a state and a step function; a schedule, a list of steps,
  stands for the interleaving the Go runtime chooses.
-/

namespace GptLoad

/-! ## Machine integers and time -/

/-- Two's complement wrap-around of a mathematical integer into the range of a
Go `int64` (and of `int` on a 64-bit platform). -/
def wrapInt64 (x : Int) : Int := (x + 2 ^ 63) % 2 ^ 64 - 2 ^ 63

/-- Go `a + b` on `int64` / `int`. -/
def int64Add (a b : Int) : Int := wrapInt64 (a + b)

/-- Go `a * b` on `int64` / `int`. -/
def int64Mul (a b : Int) : Int := wrapInt64 (a * b)

/-- Go `time.Time`, as nanoseconds on an absolute axis. -/
abbrev Time := Int

/-- Go `time.Duration`: a count of nanoseconds. -/
abbrev Duration := Int

/-- Go `time.Minute`. -/
def Minute : Duration := 60 * 1000000000

/-- Go `t.Add(d)`. -/
def Time.Add (t : Time) (d : Duration) : Time := t + d

/-! ## `internal/models/key_state_machine.go` -/

abbrev KeyStatusPending : String := "pending"
abbrev KeyStatusActive : String := "active"
abbrev KeyStatusDegraded : String := "degraded"
abbrev KeyStatusDisabled : String := "disabled"
abbrev KeyStatusInvalid : String := "invalid"

/-- `GetValidStates`. -/
def GetValidStates : List String :=
  [KeyStatusPending, KeyStatusActive, KeyStatusDegraded, KeyStatusDisabled, KeyStatusInvalid]

/-- `IsValidState`: linear scan of `GetValidStates`. -/
def IsValidState (status : String) : Bool :=
  GetValidStates.any (fun validStatus => status == validStatus)

/-- `shouldDisable`. -/
def shouldDisable (consecutiveFailures : Int) : Bool :=
  decide (consecutiveFailures ≥ 3)

/-- `TransitionState`: the `switch currentStatus` of the source, one branch per
`case`, in the order of the source. -/
def TransitionState (currentStatus : String) (isSuccess : Bool)
    (consecutiveFailures : Int) : String :=
  if currentStatus = KeyStatusPending then
    if isSuccess then KeyStatusActive
    else if consecutiveFailures ≥ 3 then KeyStatusDisabled
    else KeyStatusPending
  else if currentStatus = KeyStatusActive then
    if isSuccess then KeyStatusActive
    else KeyStatusDegraded
  else if currentStatus = KeyStatusDegraded then
    if isSuccess then KeyStatusActive
    else if shouldDisable consecutiveFailures then KeyStatusDisabled
    else KeyStatusDegraded
  else if currentStatus = KeyStatusDisabled then
    if isSuccess then KeyStatusDegraded
    else KeyStatusDisabled
  else if currentStatus = KeyStatusInvalid then
    KeyStatusInvalid
  else
    KeyStatusPending

/-- The values `math.Pow(2, float64(n))` takes for an integer `n ≥ 1`: powers
of two are exactly representable in a float64 up to `2 ^ 1023`, and beyond that
the result is `+Inf`. -/
inductive PowValue where
  | finite (v : Nat)
  | posInf
  deriving DecidableEq, Repr

/-- `math.Pow(2, float64(n))` for `n ≥ 1`. -/
def mathPow2 (n : Int) : PowValue :=
  if n ≤ 1023 then PowValue.finite (2 ^ n.toNat) else PowValue.posInf

/-- The float comparison `minutes > 30`. -/
def PowValue.gt30 : PowValue → Bool
  | PowValue.finite v => decide (v > 30)
  | PowValue.posInf => true

/-- The conversion `time.Duration(minutes)` of a float64 holding an integer;
for `+Inf` the amd64 result of the out-of-range conversion. -/
def PowValue.toDuration : PowValue → Duration
  | PowValue.finite v => (v : Int)
  | PowValue.posInf => -(2 ^ 63)

/-- `CalculateBackoffDuration`. -/
def CalculateBackoffDuration (backoffLevel : Int) : Duration :=
  if backoffLevel ≤ 0 then Minute
  else
    let minutes := mathPow2 backoffLevel
    let minutes := if minutes.gt30 then PowValue.finite 30 else minutes
    int64Mul minutes.toDuration Minute

/-- The transition table of the specification, written row by row:
`(current, success?, ≥3 failures) ↦ next`. -/
def transitionTable (current : String) (success : Bool) (n : Int) : String :=
  match decide (current = "pending"), decide (current = "active"),
      decide (current = "degraded"), decide (current = "disabled"),
      decide (current = "invalid"), success, decide (n ≥ 3) with
  | true, _, _, _, _, true, _ => "active"
  | true, _, _, _, _, false, true => "disabled"
  | true, _, _, _, _, false, false => "pending"
  | _, true, _, _, _, true, _ => "active"
  | _, true, _, _, _, false, _ => "degraded"
  | _, _, true, _, _, true, _ => "active"
  | _, _, true, _, _, false, true => "disabled"
  | _, _, true, _, _, false, false => "degraded"
  | _, _, _, true, _, true, _ => "degraded"
  | _, _, _, true, _, false, _ => "disabled"
  | _, _, _, _, true, _, _ => "invalid"
  | _, _, _, _, _, _, _ => "pending"

/-! ## The `api_keys` table -/

/-- Modelled from the spec: the `APIKey` row type of `internal/models/types.go`,
which is not among the sources. The fields are the essential attributes the
specification lists for an APIKey, with the Go types the tests use for them
(`uint` ids, `int64` counters, `int` backoff level, nullable `*time.Time`
stamps). The bookkeeping columns `created_at` / `updated_at` maintained by the
ORM are left out. -/
structure APIKey where
  ID : Nat
  KeyValue : String
  KeyHash : String
  GroupID : Nat
  Status : String
  RequestCount : Int
  FailureCount : Int
  ConsecutiveFailures : Int
  BackoffLevel : Int
  LastUsedAt : Option Time
  LastFailureAt : Option Time
  LastSuccessAt : Option Time
  LastValidatedAt : Option Time
  DisabledUntil : Option Time
  LastErrorMessage : String
  deriving DecidableEq, Repr

/-- The `api_keys` table. -/
abbrev DB := List APIKey

/-- One entry `"column": value` of the `updates` map handed to the ORM. -/
inductive Assignment where
  | status (v : String)
  | lastSuccessAt (v : Option Time)
  | lastFailureAt (v : Option Time)
  | lastValidatedAt (v : Option Time)
  | consecutiveFailures (v : Int)
  | backoffLevel (v : Int)
  | disabledUntil (v : Option Time)
  | lastErrorMessage (v : String)
  deriving DecidableEq, Repr

/-- Writing one column of a row. -/
def Assignment.apply : Assignment → APIKey → APIKey
  | Assignment.status v, row => { row with Status := v }
  | Assignment.lastSuccessAt v, row => { row with LastSuccessAt := v }
  | Assignment.lastFailureAt v, row => { row with LastFailureAt := v }
  | Assignment.lastValidatedAt v, row => { row with LastValidatedAt := v }
  | Assignment.consecutiveFailures v, row => { row with ConsecutiveFailures := v }
  | Assignment.backoffLevel v, row => { row with BackoffLevel := v }
  | Assignment.disabledUntil v, row => { row with DisabledUntil := v }
  | Assignment.lastErrorMessage v, row => { row with LastErrorMessage := v }

/-- Writing all columns of an `updates` map to a row. -/
def applyUpdates (updates : List Assignment) (row : APIKey) : APIKey :=
  updates.foldl (fun r u => u.apply r) row

/-- The query `First(&key, keyID)`: the row with primary key `keyID`, if any. -/
def DB.first (db : DB) (keyID : Nat) : Option APIKey :=
  db.find? (fun row => row.ID == keyID)

/-- The statement `Model(..).Where("id = ?", keyID).Updates(updates)`: every
row with primary key `keyID` gets the columns of `updates`; no row matching is
not an error. -/
def DB.updates (db : DB) (keyID : Nat) (updates : List Assignment) : DB :=
  db.map (fun row => if row.ID = keyID then applyUpdates updates row else row)

/-! ## `internal/services/key_state_service.go` -/

/-- `HandleSuccess`. The transaction either commits the update or, when the key
is not found, returns the error and leaves the table as it was. -/
def HandleSuccess (db : DB) (now : Time) (keyID : Nat) : Except String DB :=
  match db.first keyID with
  | none => Except.error ("failed to find key " ++ toString keyID ++ ": record not found")
  | some key =>
    let newStatus := TransitionState key.Status true key.ConsecutiveFailures
    let updates := [
      Assignment.status newStatus,
      Assignment.lastSuccessAt (some now),
      Assignment.consecutiveFailures 0,
      Assignment.backoffLevel 0,
      Assignment.disabledUntil none,
      Assignment.lastErrorMessage ""]
    Except.ok (db.updates key.ID updates)

/-- `HandleFailure`. -/
def HandleFailure (db : DB) (now : Time) (keyID : Nat) (errorMessage : String) :
    Except String DB :=
  match db.first keyID with
  | none => Except.error ("failed to find key " ++ toString keyID ++ ": record not found")
  | some key =>
    let consecutiveFailures := int64Add key.ConsecutiveFailures 1
    let newStatus := TransitionState key.Status false consecutiveFailures
    let updates := [
      Assignment.status newStatus,
      Assignment.lastFailureAt (some now),
      Assignment.consecutiveFailures consecutiveFailures,
      Assignment.lastErrorMessage errorMessage]
    let updates :=
      if newStatus = KeyStatusDisabled then
        let backoffLevel := int64Add key.BackoffLevel 1
        let disabledUntil := Time.Add now (CalculateBackoffDuration backoffLevel)
        updates ++ [Assignment.backoffLevel backoffLevel,
          Assignment.disabledUntil (some disabledUntil)]
      else updates
    Except.ok (db.updates key.ID updates)

/-- `ManuallyInvalidateKey`. -/
def ManuallyInvalidateKey (db : DB) (now : Time) (keyID : Nat) (reason : String) :
    Except String DB :=
  let updates := [
    Assignment.status KeyStatusInvalid,
    Assignment.lastErrorMessage ("Manually invalidated: " ++ reason),
    Assignment.lastFailureAt (some now)]
  Except.ok (db.updates keyID updates)

/-- `ManuallyDisableKey`. -/
def ManuallyDisableKey (db : DB) (now : Time) (keyID : Nat) (reason : String) :
    Except String DB :=
  let disabledUntil := Time.Add now (int64Mul 30 Minute)
  let updates := [
    Assignment.status KeyStatusDisabled,
    Assignment.disabledUntil (some disabledUntil),
    Assignment.lastErrorMessage ("Manually disabled: " ++ reason),
    Assignment.lastFailureAt (some now)]
  Except.ok (db.updates keyID updates)

/-- `ManuallyEnableKey`. -/
def ManuallyEnableKey (db : DB) (keyID : Nat) : Except String DB :=
  let updates := [
    Assignment.status KeyStatusDegraded,
    Assignment.disabledUntil none,
    Assignment.consecutiveFailures 0,
    Assignment.backoffLevel 0,
    Assignment.lastErrorMessage ""]
  Except.ok (db.updates keyID updates)

/-- `UpdateKeyStatus`. -/
def UpdateKeyStatus (db : DB) (keyID : Nat) (newStatus : String) : Except String DB :=
  if !IsValidState newStatus then
    Except.error ("invalid status: " ++ newStatus)
  else
    Except.ok (db.updates keyID [Assignment.status newStatus])

/-! ## `internal/services/incremental_validation_service.go` -/

/-- `IncrementalKeyValidationResult`, without the measured `Duration`. -/
structure IncrementalKeyValidationResult where
  KeyID : Nat
  KeyHash : String
  OldStatus : String
  NewStatus : String
  IsValid : Bool
  Error : String
  ValidatedAt : Time
  deriving DecidableEq, Repr

/-- `validateSingleKey`. The probe `ivs.validator.ValidateSingleKey(&key, group)`
is an external call; its outcome `(isValid, err)` is an argument, `err` being
the error text if there is one. `key` is the row as the batch query loaded it;
the update is by primary key. -/
def validateSingleKey (db : DB) (startTime : Time) (key : APIKey) (isValid : Bool)
    (err : Option String) : IncrementalKeyValidationResult × DB :=
  let result : IncrementalKeyValidationResult := {
    KeyID := key.ID
    KeyHash := key.KeyHash
    OldStatus := key.Status
    NewStatus := ""
    IsValid := isValid
    Error := match err with
      | some e => e
      | none => ""
    ValidatedAt := startTime }
  let updates := [Assignment.lastValidatedAt (some startTime)]
  let (updates, result) :=
    if isValid then
      if key.Status = KeyStatusPending ∨ key.Status = KeyStatusInvalid then
        (updates ++ [Assignment.status KeyStatusActive],
          { result with NewStatus := KeyStatusActive })
      else
        (updates, { result with NewStatus := key.Status })
    else
      if key.Status ≠ KeyStatusInvalid then
        (updates ++ [Assignment.status KeyStatusInvalid],
          { result with NewStatus := KeyStatusInvalid })
      else
        (updates, { result with NewStatus := key.Status })
  (result, db.updates key.ID updates)

/-! ## Sequences of success / failure signals on one key -/

/-- One call on the key state service driven by an upstream outcome. -/
inductive KeyEvent where
  | success (now : Time)
  | failure (now : Time) (errorMessage : String)
  deriving DecidableEq, Repr

/-- The table after one call; a call that returns an error has rolled back and
leaves the table as it was. -/
def KeyEvent.run (db : DB) (keyID : Nat) : KeyEvent → DB
  | KeyEvent.success now =>
    match HandleSuccess db now keyID with
    | Except.ok db' => db'
    | Except.error _ => db
  | KeyEvent.failure now errorMessage =>
    match HandleFailure db now keyID errorMessage with
    | Except.ok db' => db'
    | Except.error _ => db

/-- The table after a sequence of calls, first call first. -/
def runEvents (db : DB) (keyID : Nat) (events : List KeyEvent) : DB :=
  events.foldl (fun d e => e.run d keyID) db

/-- The invariant of the data model: an active key has no consecutive failures. -/
def ActiveHasNoFailures (row : APIKey) : Prop :=
  row.Status = KeyStatusActive → row.ConsecutiveFailures = 0

instance (row : APIKey) : Decidable (ActiveHasNoFailures row) := by
  unfold ActiveHasNoFailures; infer_instance

/-- A sample row: a fresh pending key with id 1. -/
def sampleKey : APIKey := {
  ID := 1, KeyValue := "sk-test", KeyHash := "hash", GroupID := 1,
  Status := KeyStatusPending, RequestCount := 0, FailureCount := 0,
  ConsecutiveFailures := 0, BackoffLevel := 0, LastUsedAt := none,
  LastFailureAt := none, LastSuccessAt := none, LastValidatedAt := none,
  DisabledUntil := none, LastErrorMessage := "" }

/-- The row `HandleFailure` writes for a key it loaded as `key`. -/
def failureRow (key : APIKey) (now : Time) (errorMessage : String) : APIKey :=
  if TransitionState key.Status false (int64Add key.ConsecutiveFailures 1)
      = KeyStatusDisabled then
    { key with
      Status := TransitionState key.Status false (int64Add key.ConsecutiveFailures 1)
      LastFailureAt := some now
      ConsecutiveFailures := int64Add key.ConsecutiveFailures 1
      LastErrorMessage := errorMessage
      BackoffLevel := int64Add key.BackoffLevel 1
      DisabledUntil := some (Time.Add now
        (CalculateBackoffDuration (int64Add key.BackoffLevel 1))) }
  else
    { key with
      Status := TransitionState key.Status false (int64Add key.ConsecutiveFailures 1)
      LastFailureAt := some now
      ConsecutiveFailures := int64Add key.ConsecutiveFailures 1
      LastErrorMessage := errorMessage }

/-- The row `HandleSuccess` writes for a key it loaded as `key`. -/
def successRow (key : APIKey) (now : Time) : APIKey :=
  { key with
    Status := TransitionState key.Status true key.ConsecutiveFailures
    LastSuccessAt := some now
    ConsecutiveFailures := 0
    BackoffLevel := 0
    DisabledUntil := none
    LastErrorMessage := "" }

/-- A sample row: a degraded key with one consecutive failure, as an active
key is after its first failure. -/
def degradedKey : APIKey :=
  { sampleKey with Status := KeyStatusDegraded, ConsecutiveFailures := 1 }

/-- A sample row: a degraded key with two consecutive failures. -/
def degradedKey2 : APIKey :=
  { sampleKey with Status := KeyStatusDegraded, ConsecutiveFailures := 2 }

/-- A sample row: a pending key with two consecutive failures, as a new key is
after two failed requests. -/
def pendingKey2 : APIKey :=
  { sampleKey with ConsecutiveFailures := 2 }

/-- A sample row: an invalid key. -/
def invalidKey : APIKey :=
  { sampleKey with Status := KeyStatusInvalid }

/-- A sample row: an active key. -/
def activeKey : APIKey :=
  { sampleKey with Status := KeyStatusActive }

/-! ## Library functions the policy engine calls -/

/-- The float64 values that `strconv.ParseFloat` can return, as far as the
comparisons `<`, `>`, `<=`, `>=` distinguish them: a finite value (a rational;
the two zeros compare equal), an infinity, or NaN. -/
inductive Float64 where
  | finite (q : ℚ)
  | posInf
  | negInf
  | nan
  deriving DecidableEq

/-- The float64 comparison `a < b`: false whenever an operand is NaN. -/
def Float64.lt : Float64 → Float64 → Bool
  | Float64.nan, _ => false
  | _, Float64.nan => false
  | Float64.finite a, Float64.finite b => decide (a < b)
  | Float64.finite _, Float64.posInf => true
  | Float64.finite _, Float64.negInf => false
  | Float64.posInf, _ => false
  | Float64.negInf, Float64.negInf => false
  | Float64.negInf, _ => true

/-- The float64 comparison `a <= b`: false whenever an operand is NaN. -/
def Float64.le : Float64 → Float64 → Bool
  | Float64.nan, _ => false
  | _, Float64.nan => false
  | Float64.finite a, Float64.finite b => decide (a ≤ b)
  | Float64.finite _, Float64.posInf => true
  | Float64.finite _, Float64.negInf => false
  | Float64.posInf, Float64.posInf => true
  | Float64.posInf, _ => false
  | Float64.negInf, _ => true

/-- The float64 comparison `a > b`. -/
def Float64.gt (a b : Float64) : Bool := Float64.lt b a

/-- The float64 comparison `a >= b`. -/
def Float64.ge (a b : Float64) : Bool := Float64.le b a

/-- `strconv.Itoa` and `strconv.FormatInt(_, 10)`: the decimal text of an
integer, with a leading minus sign for a negative one. -/
def strconvItoa (n : Int) : String := toString n

/-- `strings.Contains(s, substr)`. -/
def stringsContains (s substr : String) : Bool := decide (substr.data <:+: s.data)

/-! ## `internal/models/policy.go` -/

abbrev PolicyTypeRetry : String := "retry"
abbrev PolicyTypeDegradation : String := "degradation"
abbrev PolicyTypeModelFilter : String := "model_filter"
abbrev PolicyTypeRateLimit : String := "rate_limit"

abbrev RetryActionRetry : String := "retry"
abbrev RetryActionDegrade : String := "degrade"
abbrev RetryActionDisable : String := "disable"
abbrev RetryActionInvalidate : String := "invalidate"

/-- `Policy`; the field `Type` of the source is `Typ` here, and the
bookkeeping stamps are left out. `Config` is the stored JSON text. -/
structure Policy where
  ID : Nat
  Name : String
  Description : String
  Typ : String
  Config : String
  Priority : Int
  IsActive : Bool
  deriving DecidableEq, Repr

/-- `GroupPolicy`, with its `Policy` preloaded. -/
structure GroupPolicy where
  GroupID : Nat
  PolicyID : Nat
  Policy : Policy
  Priority : Int
  IsActive : Bool
  deriving DecidableEq, Repr

/-- `RetryCondition`; the field `Type` of the source is `Typ` here. -/
structure RetryCondition where
  Typ : String
  Operator : String
  Value : String
  Values : List String
  deriving DecidableEq, Repr

/-- `RetryRule`. -/
structure RetryRule where
  Name : String
  Priority : Int
  Conditions : List RetryCondition
  Action : String
  MaxRetries : Int
  BackoffMs : Int
  deriving DecidableEq, Repr

/-- `RetryPolicyConfig`. -/
structure RetryPolicyConfig where
  Rules : List RetryRule
  deriving DecidableEq, Repr

/-- `DegradationRule`. -/
structure DegradationRule where
  Name : String
  Priority : Int
  Conditions : List RetryCondition
  Action : String
  Duration : String
  deriving DecidableEq, Repr

/-- `DegradationPolicyConfig`. -/
structure DegradationPolicyConfig where
  Rules : List DegradationRule
  deriving DecidableEq, Repr

/-- `ModelFilterPolicyConfig`; the field `Type` of the source is `Typ` here. -/
structure ModelFilterPolicyConfig where
  Typ : String
  Patterns : List String
  deriving DecidableEq, Repr

/-- `PolicyEvaluationContext`. -/
structure PolicyEvaluationContext where
  GroupID : Nat
  KeyID : Nat
  Model : String
  StatusCode : Int
  ErrorMessage : String
  ErrorType : String
  FailureCount : Int
  RequestCount : Int
  deriving DecidableEq, Repr

/-- `PolicyEvaluationResult`. -/
structure PolicyEvaluationResult where
  PolicyID : Nat
  PolicyName : String
  RuleName : String
  Action : String
  MaxRetries : Int
  BackoffMs : Int
  Duration : String
  Priority : Int
  Reason : String
  Matched : Bool
  deriving DecidableEq, Repr

/-- The Go standard library as the policy engine uses it. The decoders, the
regular expression matcher and the float parser are external code and are
taken as they come. `sort.Slice` with a comparison of an integer key is any
procedure that returns the elements it was given, reordered so that the keys
ascend; what it does with equal keys is not fixed (`sort.Slice` is not a stable
sort). -/
structure StdLib where
  /-- `json.Unmarshal` of a policy's `Config` into a `RetryPolicyConfig`. -/
  jsonUnmarshalRetry : String → Except String RetryPolicyConfig
  /-- `json.Unmarshal` of a policy's `Config` into a `ModelFilterPolicyConfig`. -/
  jsonUnmarshalModelFilter : String → Except String ModelFilterPolicyConfig
  /-- `json.Unmarshal` of a policy's `Config` into a `DegradationPolicyConfig`. -/
  jsonUnmarshalDegradation : String → Except String DegradationPolicyConfig
  /-- `json.Marshal` of a `RetryPolicyConfig`. -/
  jsonMarshalRetry : RetryPolicyConfig → String
  /-- `json.Marshal` of a `DegradationPolicyConfig`. -/
  jsonMarshalDegradation : DegradationPolicyConfig → String
  /-- `regexp.MatchString(pattern, s)`; an error is a pattern that does not compile. -/
  regexpMatchString : String → String → Except String Bool
  /-- `strconv.ParseFloat(s, 64)`. -/
  parseFloat : String → Except String Float64
  /-- `sort.Slice(xs, func(i, j) bool { return key(xs[i]) < key(xs[j]) })`. -/
  sortSlice : {α : Type} → (α → Int) → List α → List α
  sortSlice_perm : ∀ {α : Type} (key : α → Int) (xs : List α), (sortSlice key xs).Perm xs
  sortSlice_sorted : ∀ {α : Type} (key : α → Int) (xs : List α),
    (sortSlice key xs).Pairwise (fun a b => key a ≤ key b)

/-- `Policy.GetRetryConfig`. -/
def Policy.GetRetryConfig (lib : StdLib) (p : Policy) : Except String RetryPolicyConfig :=
  if p.Typ ≠ PolicyTypeRetry then
    Except.error "policy is not of type 'retry'"
  else
    lib.jsonUnmarshalRetry p.Config

/-- `Policy.GetModelFilterConfig`. -/
def Policy.GetModelFilterConfig (lib : StdLib) (p : Policy) :
    Except String ModelFilterPolicyConfig :=
  if p.Typ ≠ PolicyTypeModelFilter then
    Except.error "policy is not of type 'model_filter'"
  else
    lib.jsonUnmarshalModelFilter p.Config

/-- `Policy.GetDegradationConfig`. -/
def Policy.GetDegradationConfig (lib : StdLib) (p : Policy) :
    Except String DegradationPolicyConfig :=
  if p.Typ ≠ PolicyTypeDegradation then
    Except.error "policy is not of type 'degradation'"
  else
    lib.jsonUnmarshalDegradation p.Config

/-! ## `internal/policy/policy_engine.go` -/

/-- The `group_policies` table joined with `policies`, or the error of a store
that fails. -/
abbrev PolicyStore := Except String (List GroupPolicy)

/-- `GetGroupPoliciesByType`: the rows of the group that are active, of the
given type, and whose policy is active. -/
def GetGroupPoliciesByType (store : PolicyStore) (groupID : Nat) (policyType : String) :
    Except String (List GroupPolicy) :=
  match store with
  | Except.error e => Except.error ("failed to query group policies by type: " ++ e)
  | Except.ok rows =>
    Except.ok (rows.filter (fun gp =>
      gp.GroupID == groupID && gp.IsActive && gp.Policy.Typ == policyType && gp.Policy.IsActive))

/-- `evaluateCondition`. -/
def evaluateCondition (lib : StdLib) (condition : RetryCondition)
    (context : PolicyEvaluationContext) : Bool :=
  let actual : Option String :=
    if condition.Typ = "status_code" then some (strconvItoa context.StatusCode)
    else if condition.Typ = "error_message" then some context.ErrorMessage
    else if condition.Typ = "error_type" then some context.ErrorType
    else if condition.Typ = "model" then some context.Model
    else if condition.Typ = "failure_count" then some (strconvItoa context.FailureCount)
    else if condition.Typ = "request_count" then some (strconvItoa context.RequestCount)
    else none
  match actual with
  | none => false
  | some actualValue =>
    if condition.Operator = "equals" then
      actualValue == condition.Value
    else if condition.Operator = "contains" then
      stringsContains actualValue condition.Value
    else if condition.Operator = "regex" then
      match lib.regexpMatchString condition.Value actualValue with
      | Except.error _ => false
      | Except.ok matched => matched
    else if condition.Operator = "in" then
      condition.Values.any (fun value => actualValue == value)
    else if condition.Operator = "not_in" then
      !condition.Values.any (fun value => actualValue == value)
    else if condition.Operator = "gt" then
      match lib.parseFloat actualValue, lib.parseFloat condition.Value with
      | Except.ok actual, Except.ok expected => Float64.gt actual expected
      | _, _ => false
    else if condition.Operator = "lt" then
      match lib.parseFloat actualValue, lib.parseFloat condition.Value with
      | Except.ok actual, Except.ok expected => Float64.lt actual expected
      | _, _ => false
    else if condition.Operator = "gte" then
      match lib.parseFloat actualValue, lib.parseFloat condition.Value with
      | Except.ok actual, Except.ok expected => Float64.ge actual expected
      | _, _ => false
    else if condition.Operator = "lte" then
      match lib.parseFloat actualValue, lib.parseFloat condition.Value with
      | Except.ok actual, Except.ok expected => Float64.le actual expected
      | _, _ => false
    else
      false

/-- `evaluateConditions`: no condition is a match; otherwise the first
condition that fails makes the result false. -/
def evaluateConditions (lib : StdLib) (conditions : List RetryCondition)
    (context : PolicyEvaluationContext) : Bool :=
  if conditions.length = 0 then true
  else conditions.all (fun condition => evaluateCondition lib condition context)

/-- `evaluateRetryPolicy`: the rules are sorted by priority and the first one
whose conditions hold makes the result. -/
def evaluateRetryPolicy (lib : StdLib) (policy : Policy) (context : PolicyEvaluationContext) :
    Except String PolicyEvaluationResult :=
  match policy.GetRetryConfig lib with
  | Except.error err => Except.error err
  | Except.ok config =>
    let rules := lib.sortSlice (fun rule => rule.Priority) config.Rules
    match rules.find? (fun rule => evaluateConditions lib rule.Conditions context) with
    | some rule =>
      Except.ok {
        PolicyID := policy.ID
        PolicyName := policy.Name
        RuleName := rule.Name
        Action := rule.Action
        MaxRetries := rule.MaxRetries
        BackoffMs := rule.BackoffMs
        Duration := ""
        Priority := rule.Priority
        Reason := "Matched rule: " ++ rule.Name
        Matched := true }
    | none =>
      Except.ok {
        PolicyID := policy.ID
        PolicyName := policy.Name
        RuleName := ""
        Action := ""
        MaxRetries := 0
        BackoffMs := 0
        Duration := ""
        Priority := 0
        Reason := ""
        Matched := false }

/-- The loop of `EvaluateRetryPolicies` over the sorted policies. -/
def EvaluateRetryPolicies.loop (lib : StdLib) (context : PolicyEvaluationContext) :
    List GroupPolicy → Option PolicyEvaluationResult
  | [] => none
  | groupPolicy :: rest =>
    if !groupPolicy.IsActive || !groupPolicy.Policy.IsActive then
      EvaluateRetryPolicies.loop lib context rest
    else
      match evaluateRetryPolicy lib groupPolicy.Policy context with
      | Except.error _ => EvaluateRetryPolicies.loop lib context rest
      | Except.ok result =>
        if result.Matched then some { result with Priority := groupPolicy.Priority }
        else EvaluateRetryPolicies.loop lib context rest

/-- `EvaluateRetryPolicies`: the Go pair `(result, err)`. -/
def EvaluateRetryPolicies (lib : StdLib) (store : PolicyStore) (groupID : Nat)
    (context : PolicyEvaluationContext) : Option PolicyEvaluationResult × Option String :=
  match GetGroupPoliciesByType store groupID PolicyTypeRetry with
  | Except.error err => (none, some ("failed to get retry policies: " ++ err))
  | Except.ok policies =>
    let policies := lib.sortSlice (fun gp => gp.Priority) policies
    (EvaluateRetryPolicies.loop lib context policies, none)

/-- The loop of `evaluateModelFilterPolicy` over the patterns. -/
def evaluateModelFilterPolicy.loop (lib : StdLib) (config : ModelFilterPolicyConfig)
    (model : String) : List String → Bool
  | [] => config.Typ != "include"
  | pattern :: rest =>
    match lib.regexpMatchString pattern model with
    | Except.error _ => evaluateModelFilterPolicy.loop lib config model rest
    | Except.ok matched =>
      if matched then config.Typ == "include"
      else evaluateModelFilterPolicy.loop lib config model rest

/-- `evaluateModelFilterPolicy`: the Go pair `(allowed, err)`. -/
def evaluateModelFilterPolicy (lib : StdLib) (policy : Policy) (model : String) :
    Bool × Option String :=
  match policy.GetModelFilterConfig lib with
  | Except.error err => (true, some err)
  | Except.ok config => (evaluateModelFilterPolicy.loop lib config model config.Patterns, none)

/-- The loop of `EvaluateModelFilterPolicies` over the sorted policies. -/
def EvaluateModelFilterPolicies.loop (lib : StdLib) (model : String) :
    List GroupPolicy → Bool
  | [] => true
  | groupPolicy :: rest =>
    if !groupPolicy.IsActive || !groupPolicy.Policy.IsActive then
      EvaluateModelFilterPolicies.loop lib model rest
    else
      match evaluateModelFilterPolicy lib groupPolicy.Policy model with
      | (_, some _) => EvaluateModelFilterPolicies.loop lib model rest
      | (allowed, none) =>
        if !allowed then false
        else EvaluateModelFilterPolicies.loop lib model rest

/-- `EvaluateModelFilterPolicies`: the Go pair `(allowed, err)`. -/
def EvaluateModelFilterPolicies (lib : StdLib) (store : PolicyStore) (groupID : Nat)
    (model : String) : Bool × Option String :=
  match GetGroupPoliciesByType store groupID PolicyTypeModelFilter with
  | Except.error err => (true, some ("failed to get model filter policies: " ++ err))
  | Except.ok policies =>
    let policies := lib.sortSlice (fun gp => gp.Priority) policies
    (EvaluateModelFilterPolicies.loop lib model policies, none)

/-! ## `internal/services/key_policy_handler.go` -/

/-- Modelled from the spec: the `SystemSettings` record of a group's effective
configuration, which is not among the sources; only the two settings the
request executor reads. -/
structure SystemSettings where
  MaxRetries : Int
  RequestTimeout : Int
  deriving DecidableEq, Repr

/-- Modelled from the spec: the `Group` type of `internal/models/types.go`,
which is not among the sources; only the fields the policy handler and the
request executor read. -/
structure Group where
  ID : Nat
  Name : String
  EffectiveConfig : SystemSettings
  deriving DecidableEq, Repr

/-- One call on the `KeyStateServiceInterface`. -/
inductive ServiceCall where
  | HandleSuccess (keyID : Nat)
  | HandleFailure (keyID : Nat) (errorMessage : String)
  | ManuallyInvalidateKey (keyID : Nat) (reason : String)
  | ManuallyDisableKey (keyID : Nat) (reason : String)
  | ManuallyEnableKey (keyID : Nat)
  deriving DecidableEq, Repr

/-- The evaluation context `HandleKeyFailure` builds; the fields it does not
set have their Go zero values. -/
def HandleKeyFailure.context (apiKey : APIKey) (group : Group) (errorMessage : String) :
    PolicyEvaluationContext :=
  { GroupID := group.ID
    KeyID := apiKey.ID
    Model := ""
    StatusCode := 0
    ErrorMessage := errorMessage
    ErrorType := ""
    FailureCount := apiKey.FailureCount
    RequestCount := apiKey.RequestCount }

/-- `HandleKeyFailure`, as the list of calls it makes on the key state service,
in order. `policyEngine` is the `EvaluateRetryPolicies` method of the
`PolicyEngineInterface` it was built with, returning the Go pair
`(result, err)`; an error of the engine or of the service is logged only. -/
def HandleKeyFailure
    (policyEngine : Nat → PolicyEvaluationContext →
      Option PolicyEvaluationResult × Option String)
    (apiKey : APIKey) (group : Group) (errorMessage : String) : List ServiceCall :=
  let context := HandleKeyFailure.context apiKey group errorMessage
  let (retryResult, _) := policyEngine group.ID context
  match retryResult with
  | some result =>
    if result.Matched then
      if result.Action = RetryActionInvalidate then
        [ServiceCall.ManuallyInvalidateKey apiKey.ID result.Reason]
      else if result.Action = RetryActionDisable then
        [ServiceCall.ManuallyDisableKey apiKey.ID result.Reason]
      else
        [ServiceCall.HandleFailure apiKey.ID errorMessage]
    else
      [ServiceCall.HandleFailure apiKey.ID errorMessage]
  | none =>
    [ServiceCall.HandleFailure apiKey.ID errorMessage]

/-! ## `internal/proxy/request_executor.go` -/

/-- Modelled from the spec: a Go `error` value as the executor sees it, its
message and what `app_errors.IsIgnorableError` (not among the sources) answers
for it: true for a client disconnect or a context cancelled by the client. -/
structure GoError where
  Message : String
  IsIgnorable : Bool
  deriving DecidableEq, Repr

/-- An upstream `http.Response`: its status code and whether its body has been
closed. -/
structure HTTPResponse where
  StatusCode : Int
  BodyClosed : Bool
  deriving DecidableEq, Repr

/-- `RequestResult`. -/
structure RequestResult where
  Response : Option HTTPResponse
  Error : Option GoError
  StatusCode : Int
  ErrorBody : String
  ParsedError : String
  deriving DecidableEq, Repr

/-- `RequestContext`, without the handles to the web framework and the channel
and without the request body and start time. -/
structure RequestContext where
  Group : Group
  IsStream : Bool
  RetryCount : Int
  APIKey : Option APIKey
  UpstreamURL : String
  deriving DecidableEq, Repr

/-- What `client.Do` returns for one attempt: a transport error, or a response
with its status code and, for a status of 400 and above, the error body read
from it and the text `ParseUpstreamError` extracts from that body. -/
inductive DoOutcome where
  | transportError (err : GoError)
  | response (statusCode : Int) (errorBody parsedError : String)
  deriving DecidableEq, Repr

/-- What the collaborators of the executor answer during one attempt:
`keyProvider.SelectKey`, `ChannelHandler.BuildUpstreamURL`,
`http.NewRequestWithContext` and `client.Do`. -/
structure Attempt where
  selectKey : Except GoError APIKey
  buildUpstreamURL : Except GoError String
  newRequest : Option GoError
  clientDo : DoOutcome

abbrev RequestTypeRetry : String := "retry"
abbrev RequestTypeFinal : String := "final"

/-- What one run of the executor does to the outside, in order. -/
inductive ExecEvent where
  | executeRequest (keyID : Nat) (upstreamURL : String)
  | updateStatus (keyID : Nat) (isSuccess : Bool) (errorMessage : String)
  | logRequest (keyID : Option Nat) (statusCode : Int) (errorMessage : Option String)
      (requestType : String)
  | respondError (status : Int) (message : String)
  | respondUpstreamError (statusCode : Int) (errorBody : String)
  | respondSuccess (statusCode : Int) (isStream : Bool) (bodyClosed : Bool)
  deriving DecidableEq, Repr

/-- `executeRequest`: the deferred `resp.Body.Close()` has run when the result
is returned. -/
def executeRequest (attempt : Attempt) : RequestResult :=
  match attempt.newRequest with
  | some err =>
    { Response := none
      Error := some { err with Message := "failed to create HTTP request: " ++ err.Message }
      StatusCode := 500
      ErrorBody := ""
      ParsedError := "" }
  | none =>
    match attempt.clientDo with
    | DoOutcome.transportError err =>
      { Response := none, Error := some err, StatusCode := 500, ErrorBody := "",
        ParsedError := "" }
    | DoOutcome.response statusCode errorBody parsedError =>
      if statusCode ≥ 400 then
        { Response := some { StatusCode := statusCode, BodyClosed := true }
          Error := none
          StatusCode := statusCode
          ErrorBody := errorBody
          ParsedError := parsedError }
      else
        { Response := some { StatusCode := statusCode, BodyClosed := true }
          Error := none
          StatusCode := statusCode
          ErrorBody := ""
          ParsedError := "" }

/-- `shouldRetry`. -/
def shouldRetry (ctx : RequestContext) (result : RequestResult) : Bool :=
  if ctx.RetryCount ≥ ctx.Group.EffectiveConfig.MaxRetries then false
  else if result.Error = none ∧ result.StatusCode < 400 then false
  else if result.StatusCode = 404 then false
  else
    match result.Error with
    | some err => if err.IsIgnorable then false else true
    | none => true

/-- The key id of the context's key, for the events; 0 before a key is selected. -/
def RequestContext.keyID (ctx : RequestContext) : Nat :=
  match ctx.APIKey with
  | some key => key.ID
  | none => 0

/-- The message both error handlers pass to `UpdateStatus`. -/
def errorMsgOf (result : RequestResult) : String :=
  match result.Error with
  | some err => if result.ParsedError = "" then err.Message else result.ParsedError
  | none => result.ParsedError

/-- The error both error handlers pass to `logRequest`. -/
def logErrorOf (result : RequestResult) : String :=
  match result.Error with
  | some err => err.Message
  | none => result.ParsedError

/-- `handleKeySelectionError`. -/
def handleKeySelectionError (ctx : RequestContext) (err : GoError) : List ExecEvent :=
  let message := "failed to select key for group " ++ ctx.Group.Name ++ " on attempt "
    ++ toString (int64Add ctx.RetryCount 1) ++ ": " ++ err.Message
  [ExecEvent.respondError 503 message,
   ExecEvent.logRequest none 503 (some message) RequestTypeFinal]

/-- `handleUpstreamURLError`. -/
def handleUpstreamURLError (_ctx : RequestContext) (err : GoError) : List ExecEvent :=
  [ExecEvent.respondError 500 ("failed to build upstream URL: " ++ err.Message)]

/-- `handleRetryableError`, up to the recursive call: the status update and the
log entry of type retry. -/
def handleRetryableError (ctx : RequestContext) (result : RequestResult) : List ExecEvent :=
  [ExecEvent.updateStatus ctx.keyID false (errorMsgOf result),
   ExecEvent.logRequest (some ctx.keyID) result.StatusCode (some (logErrorOf result))
     RequestTypeRetry]

/-- `handleFinalError`. Whether the error body is passed through as JSON or
wrapped in a structured error is one event: both answer with the upstream
status and the body. -/
def handleFinalError (ctx : RequestContext) (result : RequestResult) : List ExecEvent :=
  let events := [ExecEvent.updateStatus ctx.keyID false (errorMsgOf result),
    ExecEvent.logRequest (some ctx.keyID) result.StatusCode (some (logErrorOf result))
      RequestTypeFinal]
  match result.Error with
  | some err =>
    if err.IsIgnorable then events
    else
      events ++ [ExecEvent.respondUpstreamError result.StatusCode
        (if result.ErrorBody = "" then err.Message else result.ErrorBody)]
  | none => events ++ [ExecEvent.respondUpstreamError result.StatusCode result.ErrorBody]

/-- `handleSuccess`; the result of a successful attempt carries a response. -/
def handleSuccess (ctx : RequestContext) (result : RequestResult) : List ExecEvent :=
  match result.Response with
  | some resp =>
    [ExecEvent.respondSuccess resp.StatusCode ctx.IsStream resp.BodyClosed,
     ExecEvent.logRequest (some ctx.keyID) resp.StatusCode none RequestTypeFinal]
  | none => []

/-- `ExecuteWithRetry`, as the list of events of the run. `upstream n` is what
the collaborators answer during attempt number `n` of the request and `attempt`
is the number of the attempt being started. The retry is the recursive call
at the end of `handleRetryableError`, on a copy of the context whose
`RetryCount` is one more; it is reached only under `shouldRetry`, where
`RetryCount` is below the integer `MaxRetries`, so that the increment cannot
wrap around. -/
def ExecuteWithRetry (upstream : Nat → Attempt) (attempt : Nat) (ctx : RequestContext) :
    List ExecEvent :=
  match (upstream attempt).selectKey with
  | Except.error err => handleKeySelectionError ctx err
  | Except.ok apiKey =>
    let ctx1 := { ctx with APIKey := some apiKey }
    match (upstream attempt).buildUpstreamURL with
    | Except.error err => handleUpstreamURLError ctx1 err
    | Except.ok upstreamURL =>
      let ctx2 := { ctx1 with UpstreamURL := upstreamURL }
      let result := executeRequest (upstream attempt)
      if h : shouldRetry ctx2 result = true then
        ExecEvent.executeRequest apiKey.ID upstreamURL :: handleRetryableError ctx2 result
          ++ ExecuteWithRetry upstream (attempt + 1)
              { ctx2 with RetryCount := ctx2.RetryCount + 1 }
      else if result.Error ≠ none ∨ result.StatusCode ≥ 400 then
        ExecEvent.executeRequest apiKey.ID upstreamURL :: handleFinalError ctx2 result
      else
        ExecEvent.executeRequest apiKey.ID upstreamURL :: handleSuccess ctx2 result
termination_by (ctx.Group.EffectiveConfig.MaxRetries - ctx.RetryCount).toNat
decreasing_by
  have hlt : ctx.RetryCount < ctx.Group.EffectiveConfig.MaxRetries := by
    by_contra hge
    have hge' : ctx.RetryCount ≥ ctx.Group.EffectiveConfig.MaxRetries := by omega
    simp [shouldRetry, hge'] at h
  show (ctx.Group.EffectiveConfig.MaxRetries - (ctx.RetryCount + 1)).toNat
    < (ctx.Group.EffectiveConfig.MaxRetries - ctx.RetryCount).toNat
  omega

/-- The number of upstream attempts of a run. -/
def countAttempts (events : List ExecEvent) : Nat :=
  events.countP (fun e => match e with
    | ExecEvent.executeRequest _ _ => true
    | _ => false)

/-- The request types of the log entries of a run, in order. -/
def logTypes (events : List ExecEvent) : List String :=
  events.filterMap (fun e => match e with
    | ExecEvent.logRequest _ _ _ requestType => some requestType
    | _ => none)

/-- The table after a call on the key state service: the one the call
committed, or the table as it was when the call returned an error. -/
def tableAfter (db : DB) (outcome : Except String DB) : DB :=
  match outcome with
  | Except.ok db' => db'
  | Except.error _ => db

/-- The status the specification gives a key after a validation probe:
active if the probe is valid and the old status is pending or invalid, invalid
if the probe is not valid and the old status is not invalid, the old status
otherwise. -/
def validatedStatus (oldStatus : String) (probeValid : Bool) : String :=
  match probeValid, decide (oldStatus = "pending" ∨ oldStatus = "invalid"),
      decide (oldStatus = "invalid") with
  | true, true, _ => "active"
  | true, false, _ => oldStatus
  | false, _, false => "invalid"
  | false, _, true => oldStatus

/-- `evaluateDegradationPolicy`: the rules are sorted by priority and the first
one whose conditions hold makes the result. -/
def evaluateDegradationPolicy (lib : StdLib) (policy : Policy)
    (context : PolicyEvaluationContext) : Except String PolicyEvaluationResult :=
  match policy.GetDegradationConfig lib with
  | Except.error err => Except.error err
  | Except.ok config =>
    let rules := lib.sortSlice (fun rule => rule.Priority) config.Rules
    match rules.find? (fun rule => evaluateConditions lib rule.Conditions context) with
    | some rule =>
      Except.ok {
        PolicyID := policy.ID
        PolicyName := policy.Name
        RuleName := rule.Name
        Action := rule.Action
        MaxRetries := 0
        BackoffMs := 0
        Duration := rule.Duration
        Priority := rule.Priority
        Reason := "Matched degradation rule: " ++ rule.Name
        Matched := true }
    | none =>
      Except.ok {
        PolicyID := policy.ID
        PolicyName := policy.Name
        RuleName := ""
        Action := ""
        MaxRetries := 0
        BackoffMs := 0
        Duration := ""
        Priority := 0
        Reason := ""
        Matched := false }

/-! ## `internal/policy/policy_service.go` -/

/-- A condition on the error message. -/
def messageContains (phrase : String) : RetryCondition :=
  { Typ := "error_message", Operator := "contains", Value := phrase, Values := [] }

/-- A condition on the status code. -/
def statusCodeIn (codes : List String) : RetryCondition :=
  { Typ := "status_code", Operator := "in", Value := "", Values := codes }

/-- The `retryConfig` of `CreateDefaultPolicies`. -/
def CreateDefaultPolicies.retryConfig : RetryPolicyConfig :=
  { Rules := [
      { Name := "Rate Limit Retry"
        Priority := 1
        Conditions := [messageContains "rate limit"]
        Action := RetryActionRetry
        MaxRetries := 3
        BackoffMs := 2000 },
      { Name := "Handle Invalid Key Errors"
        Priority := 2
        Conditions := [messageContains "invalid api key"]
        Action := RetryActionInvalidate
        MaxRetries := 0
        BackoffMs := 0 },
      { Name := "Handle Insufficient Quota"
        Priority := 3
        Conditions := [messageContains "insufficient quota"]
        Action := RetryActionDisable
        MaxRetries := 0
        BackoffMs := 0 }] }

/-- The `degradationConfig` of `CreateDefaultPolicies`. -/
def CreateDefaultPolicies.degradationConfig : DegradationPolicyConfig :=
  { Rules := [
      { Name := "Disable on Critical Errors"
        Priority := 1
        Conditions := [statusCodeIn ["500", "502", "503", "504"]]
        Action := RetryActionDisable
        Duration := "5m" },
      { Name := "Invalidate on Auth Errors"
        Priority := 2
        Conditions := [statusCodeIn ["401", "403"]]
        Action := RetryActionInvalidate
        Duration := "1h" }] }

/-- The default retry policy `CreateDefaultPolicies` builds, before the store
gives it an id. -/
def CreateDefaultPolicies.retryPolicy (lib : StdLib) : Policy :=
  { ID := 0
    Name := "Default Retry Policy"
    Description := "A default policy for retrying common transient errors."
    Typ := PolicyTypeRetry
    Config := lib.jsonMarshalRetry CreateDefaultPolicies.retryConfig
    Priority := 0
    IsActive := true }

/-- The default degradation policy `CreateDefaultPolicies` builds, before the
store gives it an id. -/
def CreateDefaultPolicies.degradationPolicy (lib : StdLib) : Policy :=
  { ID := 0
    Name := "Default Degradation Policy"
    Description := "A default policy for handling critical errors that should cause a key to be temporarily disabled."
    Typ := PolicyTypeDegradation
    Config := lib.jsonMarshalDegradation CreateDefaultPolicies.degradationConfig
    Priority := 0
    IsActive := true }

/-- `CreateDefaultPolicies`: the policies it hands to the store, which creates
each one unless a policy of that name exists. -/
def CreateDefaultPolicies (lib : StdLib) : List Policy :=
  [CreateDefaultPolicies.retryPolicy lib, CreateDefaultPolicies.degradationPolicy lib]

/-! ## `strconv.ParseFloat` on decimal integer literals -/

/-- The value of a decimal digit. -/
def decimalDigit (c : Char) : Option Nat :=
  if '0' ≤ c ∧ c ≤ '9' then some (c.toNat - '0'.toNat) else none

/-- The number a string of decimal digits writes, continuing from `acc`. -/
def parseDigits : List Char → Nat → Option Nat
  | [], acc => some acc
  | c :: cs, acc =>
    match decimalDigit c with
    | some d => parseDigits cs (10 * acc + d)
    | none => none

/-- The integer a decimal integer literal writes: digits with an optional
sign. -/
def parseIntegerLiteral (s : String) : Option Int :=
  match s.data with
  | [] => none
  | c :: ds =>
    if c = '-' then
      if ds = [] then none else Option.map (fun n : Nat => -(n : Int)) (parseDigits ds 0)
    else if c = '+' then
      if ds = [] then none else Option.map (fun n : Nat => (n : Int)) (parseDigits ds 0)
    else Option.map (fun n : Nat => (n : Int)) (parseDigits (c :: ds) 0)

/-- The number of binary digits of `n`, at most `fuel`. -/
def bitLength : Nat → Nat → Nat
  | 0, _ => 0
  | fuel + 1, n => if n = 0 then 0 else bitLength fuel (n / 2) + 1

/-- The float64 nearest to a natural number, ties to the even significand: a
number up to `2 ^ 53` is a float64 itself; a greater one keeps its 53 leading
binary digits, rounded. The result is the float's value, an integer. -/
def roundNatToFloat64 (a : Nat) : Nat :=
  if a ≤ 2 ^ 53 then a
  else
    let unit := 2 ^ (bitLength a a - 53)
    let q := a / unit
    let r := a % unit
    let q := if 2 * r < unit then q else if 2 * r > unit then q + 1
      else if q % 2 = 0 then q else q + 1
    q * unit

/-- What `strconv.ParseFloat(s, 64)` returns for the decimal literal of the
integer `n`: the nearest float64, or a range error beyond the largest one. -/
def float64OfInt (n : Int) : Except String Float64 :=
  let v : Nat := roundNatToFloat64 n.natAbs
  if v ≥ 2 ^ 1024 then Except.error "value out of range"
  else if n < 0 then Except.ok (Float64.finite ((-(v : Int) : Int) : ℚ))
  else Except.ok (Float64.finite (((v : Int) : Int) : ℚ))

/-- `strconv.ParseFloat(s, 64)` restricted to decimal integer literals; any
other text is a syntax error here. -/
def parseFloatIntegerLiteral (s : String) : Except String Float64 :=
  match parseIntegerLiteral s with
  | some n => float64OfInt n
  | none => Except.error "invalid syntax"

/-- Insertion sort by an integer key: what `sort.Slice` runs on a short slice. -/
def insertionSortByKey {α : Type} (key : α → Int) (xs : List α) : List α :=
  xs.insertionSort (fun a b => key a ≤ key b)

/-- A sample retry configuration: invalidate on 401 or 403 first, then retry on
anything. -/
def sampleRetryConfig : RetryPolicyConfig :=
  { Rules := [
      { Name := "retry-any"
        Priority := 2
        Conditions := []
        Action := RetryActionRetry
        MaxRetries := 3
        BackoffMs := 0 },
      { Name := "auth"
        Priority := 1
        Conditions := [
          { Typ := "status_code"
            Operator := "in"
            Value := ""
            Values := ["401", "403"] }]
        Action := RetryActionInvalidate
        MaxRetries := 0
        BackoffMs := 0 }] }

/-- A sample model filter configuration: only models whose name contains
`gpt-4`. -/
def sampleFilterConfig : ModelFilterPolicyConfig :=
  { Typ := "include", Patterns := ["gpt-4"] }

/-- A sample library: the encoders and decoders know the sample and the default
configurations by name, a pattern matches when it occurs literally in the text,
the numbers are the decimal integer literals, and slices are sorted by
insertion. -/
def sampleLib : StdLib where
  jsonUnmarshalRetry := fun text =>
    if text = "sample-retry" then Except.ok sampleRetryConfig
    else if text = "default-retry" then Except.ok CreateDefaultPolicies.retryConfig
    else Except.error "invalid character"
  jsonUnmarshalModelFilter := fun text =>
    if text = "sample-filter" then Except.ok sampleFilterConfig
    else Except.error "invalid character"
  jsonUnmarshalDegradation := fun text =>
    if text = "default-degradation" then Except.ok CreateDefaultPolicies.degradationConfig
    else Except.error "invalid character"
  jsonMarshalRetry := fun config =>
    if config = sampleRetryConfig then "sample-retry"
    else if config = CreateDefaultPolicies.retryConfig then "default-retry"
    else "other-retry"
  jsonMarshalDegradation := fun config =>
    if config = CreateDefaultPolicies.degradationConfig then "default-degradation"
    else "other-degradation"
  regexpMatchString := fun pattern text => Except.ok (stringsContains text pattern)
  parseFloat := parseFloatIntegerLiteral
  sortSlice := fun key xs => insertionSortByKey key xs
  sortSlice_perm := fun key xs => List.perm_insertionSort (fun a b => key a ≤ key b) xs
  sortSlice_sorted := fun key xs =>
    have : IsTotal _ (fun a b => key a ≤ key b) := ⟨fun a b => le_total (key a) (key b)⟩
    have : IsTrans _ (fun a b => key a ≤ key b) := ⟨fun _ _ _ hab hbc => le_trans hab hbc⟩
    List.sorted_insertionSort (fun a b => key a ≤ key b) xs

/-- A sample retry policy, stored with the sample retry configuration. -/
def samplePolicy : Policy :=
  { ID := 7, Name := "default-retry", Description := "", Typ := PolicyTypeRetry,
    Config := "sample-retry", Priority := 0, IsActive := true }

/-- A sample model filter policy, stored with the sample filter configuration. -/
def sampleFilterPolicy : Policy :=
  { ID := 8, Name := "gpt4-only", Description := "", Typ := PolicyTypeModelFilter,
    Config := "sample-filter", Priority := 0, IsActive := true }

/-- A sample evaluation context: a 401 from upstream. -/
def sampleContext : PolicyEvaluationContext :=
  { GroupID := 1, KeyID := 1, Model := "gpt-4o", StatusCode := 401,
    ErrorMessage := "unauthorized", ErrorType := "", FailureCount := 0, RequestCount := 1 }

/-- An active policy that has a matching rule: the association and the policy
are active and `evaluateRetryPolicy` returns a matched result for it. -/
def ActiveRetryMatch (lib : StdLib) (context : PolicyEvaluationContext)
    (gp : GroupPolicy) : Prop :=
  gp.IsActive = true ∧ gp.Policy.IsActive = true ∧
    ∃ r, evaluateRetryPolicy lib gp.Policy context = Except.ok r ∧ r.Matched = true

/-- A retry policy attached to the group `groupID`. -/
def AttachedRetryPolicy (groupID : Nat) (gp : GroupPolicy) : Prop :=
  gp.GroupID = groupID ∧ gp.Policy.Typ = PolicyTypeRetry

/-- A model filter policy attached to the group `groupID`. -/
def AttachedFilterPolicy (groupID : Nat) (gp : GroupPolicy) : Prop :=
  gp.GroupID = groupID ∧ gp.Policy.Typ = PolicyTypeModelFilter

/-- An active, well-formed filter policy that rejects the model: the
association and the policy are active and `evaluateModelFilterPolicy` returns
false without an error. -/
def ActiveFilterReject (lib : StdLib) (model : String) (gp : GroupPolicy) : Prop :=
  gp.IsActive = true ∧ gp.Policy.IsActive = true ∧
    evaluateModelFilterPolicy lib gp.Policy model = (false, none)

/-- Sample associations of the sample policies with group 1. -/
def sampleGroupPolicies : List GroupPolicy :=
  [{ GroupID := 1, PolicyID := 7, Policy := samplePolicy, Priority := 5, IsActive := true },
   { GroupID := 1, PolicyID := 8, Policy := sampleFilterPolicy, Priority := 1,
     IsActive := true }]

/-- Every attempt gets a key and an upstream URL and is answered by the
upstream with status 500. -/
def AlwaysStatus500 (upstream : Nat → Attempt) : Prop :=
  ∀ n, ∃ key url body parsed,
    (upstream n).selectKey = Except.ok key ∧
    (upstream n).buildUpstreamURL = Except.ok url ∧
    (upstream n).newRequest = none ∧
    (upstream n).clientDo = DoOutcome.response 500 body parsed

/-- A sample upstream: every attempt gets the sample key and a 500. -/
def sampleUpstream500 : Nat → Attempt := fun _ =>
  { selectKey := Except.ok sampleKey
    buildUpstreamURL := Except.ok "https://upstream.example/v1/chat"
    newRequest := none
    clientDo := DoOutcome.response 500 "oops" "oops" }

/-- A sample request context: a fresh request for a group with `MaxRetries = 3`. -/
def sampleRequestContext : RequestContext :=
  { Group := { ID := 1, Name := "g", EffectiveConfig := { MaxRetries := 3, RequestTimeout := 60 } }
    IsStream := false
    RetryCount := 0
    APIKey := none
    UpstreamURL := "" }

/-- A sample row: a disabled key at backoff level 1. -/
def disabledKey : APIKey :=
  { sampleKey with Status := KeyStatusDisabled, ConsecutiveFailures := 3, BackoffLevel := 1,
                   DisabledUntil := some (100 + 2 * Minute) }

/-- A run of failures as calls on the key state service: each entry is the
time of the call and its error message. -/
def failureEvents (failures : List (Time × String)) : List KeyEvent :=
  failures.map (fun f => KeyEvent.failure f.1 f.2)

/-- The condition `status_code in {"401", "403"}` of a rule; `value` is the
unused `Value` field. -/
def authStatusCondition (value : String) : RetryCondition :=
  { Typ := "status_code", Operator := "in", Value := value, Values := ["401", "403"] }

/-- A sample group. -/
def sampleGroup : Group :=
  { ID := 1, Name := "g", EffectiveConfig := { MaxRetries := 3, RequestTimeout := 60 } }

/-! ## `internal/handler/incremental_validation_handler.go` -/

/-- Go `time.Hour`. -/
def Hour : Duration := 60 * Minute

/-- Go `time.Second`. -/
def Second : Duration := 1000000000

/-- `IncrementalValidationConfig` of the validation service. -/
structure IncrementalValidationConfig where
  TimeWindow : Duration
  IncludeStates : List String
  ExcludeRecentlyValidated : Bool
  RecentValidationWindow : Duration
  Concurrency : Int
  BatchSize : Int
  deriving DecidableEq, Repr

/-- `DefaultIncrementalValidationConfig`. -/
def DefaultIncrementalValidationConfig : IncrementalValidationConfig :=
  { TimeWindow := 24 * Hour
    IncludeStates := [KeyStatusPending, KeyStatusInvalid]
    ExcludeRecentlyValidated := true
    RecentValidationWindow := 1 * Hour
    Concurrency := 5
    BatchSize := 100 }

/-- `ValidateGroupRequest`. -/
structure ValidateGroupRequest where
  TimeWindowHours : Int
  IncludeStates : List String
  ExcludeRecentlyValidated : Bool
  RecentValidationHours : Int
  Concurrency : Int
  BatchSize : Int
  deriving DecidableEq, Repr

/-- `ValidateGroupRequest.toConfig`: the default configuration, overwritten
field by field in the order of the source. -/
def ValidateGroupRequest.toConfig (r : ValidateGroupRequest) : IncrementalValidationConfig :=
  let config := DefaultIncrementalValidationConfig
  let config :=
    if r.TimeWindowHours > 0 then
      { config with TimeWindow := int64Mul r.TimeWindowHours Hour }
    else config
  let config :=
    if r.IncludeStates.length > 0 then { config with IncludeStates := r.IncludeStates }
    else config
  let config := { config with ExcludeRecentlyValidated := r.ExcludeRecentlyValidated }
  let config :=
    if r.RecentValidationHours > 0 then
      { config with RecentValidationWindow := int64Mul r.RecentValidationHours Hour }
    else config
  let config :=
    if r.Concurrency > 0 then { config with Concurrency := r.Concurrency } else config
  let config :=
    if r.BatchSize > 0 then { config with BatchSize := r.BatchSize } else config
  config

/-- The request that leaves every field at its zero value. -/
def zeroValidateGroupRequest : ValidateGroupRequest :=
  { TimeWindowHours := 0, IncludeStates := [], ExcludeRecentlyValidated := false,
    RecentValidationHours := 0, Concurrency := 0, BatchSize := 0 }

/-! ## Building the upstream request (`internal/proxy/request_executor.go`) -/

/-- An `http.Header`: the values of each header, under its canonical key (the
server stores the headers of a request it has read under canonical keys). -/
abbrev Header := List (String × List String)

/-- `Header.Del(key)` for a key in canonical form: the entry of the key is
removed. -/
def Header.Del (h : Header) (key : String) : Header :=
  h.filter (fun entry => entry.1 != key)

/-- `Header.Set(key, value)` for a key in canonical form. -/
def Header.Set (h : Header) (key value : String) : Header :=
  h.Del key ++ [(key, [value])]

/-- `Header.Values(key)` for a key in canonical form: the values of the header,
or nothing when the request does not carry it. -/
def Header.Values (h : Header) (key : String) : Option (List String) :=
  (h.find? (fun entry => entry.1 == key)).map (fun entry => entry.2)

/-- `cleanAuthHeaders`; the three keys are literals in canonical form. -/
def cleanAuthHeaders (h : Header) : Header :=
  ((h.Del "Authorization").Del "X-Api-Key").Del "X-Goog-Api-Key"

/-- A `context.Context`, as far as the executor is concerned: whether it is
done (`ctx.Err() != nil`) and the timeout it was given, if any. -/
structure GoContext where
  Cancelled : Bool
  Timeout : Option Duration
  deriving DecidableEq, Repr

/-- The context `context.WithCancel(parent)` returns: done when the parent is. -/
def contextWithCancel (parent : GoContext) : GoContext :=
  { Cancelled := parent.Cancelled, Timeout := parent.Timeout }

/-- The context `context.WithTimeout(parent, timeout)` returns: done when the
parent is or when the timeout is not positive. -/
def contextWithTimeout (parent : GoContext) (timeout : Duration) : GoContext :=
  { Cancelled := parent.Cancelled || decide (timeout ≤ 0), Timeout := some timeout }

/-- Calling the `cancel` function that came with a context: the context is done. -/
def GoContext.cancel (c : GoContext) : GoContext :=
  { c with Cancelled := true }

/-- The client's request as the web framework hands it over: method, headers,
context and the length of the body read from it. -/
structure ClientRequest where
  Method : String
  Header : Header
  Context : GoContext
  BodyLength : Int
  deriving DecidableEq, Repr

/-- The upstream `http.Request`. -/
structure HTTPRequest where
  Method : String
  URL : String
  Header : Header
  Context : GoContext
  ContentLength : Int
  deriving DecidableEq, Repr

/-- The two hooks that rewrite the upstream request in place:
`ChannelHandler.ModifyRequest` and `utils.ApplyHeaderRules`. They are external
code; a request's context cannot be replaced in place, so whatever they return
the context is kept. -/
structure RequestHooks where
  ModifyRequest : HTTPRequest → Option APIKey → Group → HTTPRequest
  ApplyHeaderRules : HTTPRequest → HTTPRequest

/-- `createRequestContext`. -/
def createRequestContext (client : ClientRequest) (ctx : RequestContext) : GoContext :=
  if ctx.IsStream then contextWithCancel client.Context
  else
    contextWithTimeout client.Context (int64Mul ctx.Group.EffectiveConfig.RequestTimeout Second)

/-- `buildHTTPRequest`. `newRequest` is the error of
`http.NewRequestWithContext`, if any. The `defer cancel()` of the source runs
when the function returns, on either path, so the context of the request it
returns has been cancelled. -/
def buildHTTPRequest (client : ClientRequest) (hooks : RequestHooks)
    (newRequest : Option GoError) (ctx : RequestContext) : Except GoError HTTPRequest :=
  let reqCtx := createRequestContext client ctx
  match newRequest with
  | some err =>
    Except.error { err with Message := "failed to create HTTP request: " ++ err.Message }
  | none =>
    let req : HTTPRequest :=
      { Method := client.Method, URL := ctx.UpstreamURL, Header := [], Context := reqCtx,
        ContentLength := 0 }
    let req := { req with ContentLength := client.BodyLength }
    let req := { req with Header := cleanAuthHeaders client.Header }
    let req := { hooks.ModifyRequest req ctx.APIKey ctx.Group with Context := req.Context }
    let req := { hooks.ApplyHeaderRules req with Context := req.Context }
    let req :=
      if ctx.IsStream then { req with Header := req.Header.Set "X-Accel-Buffering" "no" }
      else req
    Except.ok { req with Context := req.Context.cancel }

/-- Sample hooks: the channel sets the upstream credential, no header rules. -/
def sampleHooks : RequestHooks :=
  { ModifyRequest := fun req _ _ =>
      { req with Header := req.Header.Set "Authorization" "Bearer upstream-key" }
    ApplyHeaderRules := fun req => req }

/-- A sample client request whose context is live. -/
def sampleClientRequest : ClientRequest :=
  { Method := "POST"
    Header := [("Authorization", ["Bearer proxy-key"]), ("Content-Type", ["application/json"]),
      ("X-Api-Key", ["proxy-key"])]
    Context := { Cancelled := false, Timeout := none }
    BodyLength := 42 }

/-- A sample streaming request context. -/
def sampleStreamContext : RequestContext :=
  { Group := sampleGroup, IsStream := true, RetryCount := 0, APIKey := some sampleKey,
    UpstreamURL := "https://upstream.example/v1/chat" }

/-- A sample attempt that the upstream answers with status 200. -/
def sampleAttempt200 : Attempt :=
  { selectKey := Except.ok sampleKey
    buildUpstreamURL := Except.ok "https://upstream.example/v1/chat"
    newRequest := none
    clientDo := DoOutcome.response 200 "" "" }

/-- A 401 from upstream whose message names none of the phrases the default
retry policy looks for. -/
def unauthorizedContext : PolicyEvaluationContext :=
  { GroupID := 1, KeyID := 1, Model := "", StatusCode := 401,
    ErrorMessage := "Unauthorized", ErrorType := "", FailureCount := 1, RequestCount := 0 }

/-- The number of the context a numeric condition type names. -/
def contextNumber (typ : String) (context : PolicyEvaluationContext) : Int :=
  if typ = "status_code" then context.StatusCode
  else if typ = "failure_count" then context.FailureCount
  else context.RequestCount

/-- A context whose failure count is `2 ^ 53 + 1`. -/
def hugeFailureContext : PolicyEvaluationContext :=
  { GroupID := 1, KeyID := 1, Model := "", StatusCode := 500,
    ErrorMessage := "", ErrorType := "", FailureCount := 9007199254740993, RequestCount := 0 }

/-- The condition `failure_count gt value`. -/
def failureCountAbove (value : String) : RetryCondition :=
  { Typ := "failure_count", Operator := "gt", Value := value, Values := [] }

/-- A context with five failures, as in the engine's test. -/
def sampleFailureContext : PolicyEvaluationContext :=
  { GroupID := 1, KeyID := 1, Model := "", StatusCode := 500,
    ErrorMessage := "", ErrorType := "", FailureCount := 5, RequestCount := 10 }

/-! ## `validateKeysBatch` (`internal/services/incremental_validation_service.go`)

The function starts `config.GetConcurrency()` workers, a producer and a closer,
and collects the results itself. The goroutines are a state and a step
function that a schedule drives: a step names the goroutine that moves, and,
for a validation, the clock and the outcome of the external probe. A step of
a goroutine that is blocked or has returned is not enabled. -/

/-- `IncrementalValidationResult`, without `Duration` and the time stamps. -/
structure IncrementalValidationResult where
  GroupID : Nat
  GroupName : String
  TotalKeys : Int
  ValidatedKeys : Int
  SkippedKeys : Int
  SuccessfulKeys : Int
  FailedKeys : Int
  KeyResults : List IncrementalKeyValidationResult
  deriving DecidableEq, Repr

/-- Where a worker goroutine stands: at the receive of `range keysChan`; at
the `select` with the key it received; at the send `resultsChan <- keyResult`;
or returned, its deferred `wg.Done()` run. -/
inductive WorkerState where
  | receiving
  | holding (key : APIKey)
  | sending (keyResult : IncrementalKeyValidationResult)
  | done
  deriving DecidableEq, Repr

/-- The state of one call of `validateKeysBatch`: the table, whether `ctx` is
cancelled, the capacity of the two channels, the keys the producer has not
reached, the two channels and whether they are closed, the workers, the
result being collected and whether the function has returned. -/
structure BatchState where
  db : DB
  cancelled : Bool
  capacity : Nat
  toSend : List APIKey
  keysChan : List APIKey
  keysClosed : Bool
  workers : List WorkerState
  resultsChan : List IncrementalKeyValidationResult
  resultsClosed : Bool
  result : IncrementalValidationResult
  returned : Bool
  deriving DecidableEq, Repr

/-- One move of the schedule. -/
inductive BatchStep where
  | cancel
  | producerSend
  | producerReturn
  | workerReceive (i : Nat)
  | workerValidate (i : Nat) (startTime : Time) (isValid : Bool) (err : Option String)
  | workerSend (i : Nat)
  | closerClose
  | collect
  deriving DecidableEq, Repr

/-- The caller cancels `ctx`. -/
def validateKeysBatch.cancel (s : BatchState) : Option BatchState :=
  if s.cancelled then none else some { s with cancelled := true }

/-- The producer's `select` takes `keysChan <- key`: the channel has room. -/
def validateKeysBatch.producerSend (s : BatchState) : Option BatchState :=
  if s.keysClosed then none
  else
    match s.toSend with
    | [] => none
    | key :: rest =>
      if s.keysChan.length < s.capacity then
        some { s with toSend := rest, keysChan := s.keysChan ++ [key] }
      else none

/-- The producer returns, after its last key or because its `select` takes
`<-ctx.Done()`; the deferred `close(keysChan)` runs. -/
def validateKeysBatch.producerReturn (s : BatchState) : Option BatchState :=
  if s.keysClosed then none
  else if s.toSend = [] ∨ s.cancelled = true then some { s with keysClosed := true }
  else none

/-- Worker `i` at `for key := range keysChan`: it receives the next key, or
returns when the channel is closed and empty. -/
def validateKeysBatch.workerReceive (i : Nat) (s : BatchState) : Option BatchState :=
  match s.workers[i]? with
  | some WorkerState.receiving =>
    match s.keysChan with
    | key :: rest =>
      some { s with keysChan := rest, workers := s.workers.set i (WorkerState.holding key) }
    | [] =>
      if s.keysClosed then some { s with workers := s.workers.set i WorkerState.done }
      else none
  | _ => none

/-- Worker `i` at its `select`: it returns if `ctx` is cancelled, and
otherwise runs `validateSingleKey` on its key. -/
def validateKeysBatch.workerValidate (i : Nat) (startTime : Time) (isValid : Bool)
    (err : Option String) (s : BatchState) : Option BatchState :=
  match s.workers[i]? with
  | some (WorkerState.holding key) =>
    if s.cancelled then some { s with workers := s.workers.set i WorkerState.done }
    else
      let (keyResult, db) := validateSingleKey s.db startTime key isValid err
      some { s with db := db, workers := s.workers.set i (WorkerState.sending keyResult) }
  | _ => none

/-- Worker `i` at `resultsChan <- keyResult`: the channel has room. -/
def validateKeysBatch.workerSend (i : Nat) (s : BatchState) : Option BatchState :=
  match s.workers[i]? with
  | some (WorkerState.sending keyResult) =>
    if s.resultsChan.length < s.capacity then
      some { s with
        resultsChan := s.resultsChan ++ [keyResult]
        workers := s.workers.set i WorkerState.receiving }
    else none
  | _ => none

/-- The closer: `wg.Wait()` returns once every worker has returned, and
`close(resultsChan)` follows. -/
def validateKeysBatch.closerClose (s : BatchState) : Option BatchState :=
  if s.resultsClosed then none
  else if s.workers.all (fun w => w = WorkerState.done) then
    some { s with resultsClosed := true }
  else none

/-- The body of `for keyResult := range resultsChan`. The counters are Go
`int`s that count entries of a slice, whose length is an `int`: the
increments cannot wrap. -/
def validateKeysBatch.record (result : IncrementalValidationResult)
    (keyResult : IncrementalKeyValidationResult) : IncrementalValidationResult :=
  let result := { result with
    KeyResults := result.KeyResults ++ [keyResult]
    ValidatedKeys := result.ValidatedKeys + 1 }
  if keyResult.IsValid then
    { result with SuccessfulKeys := result.SuccessfulKeys + 1 }
  else
    { result with FailedKeys := result.FailedKeys + 1 }

/-- The function itself at `for keyResult := range resultsChan`: it records
the next result, or returns when the channel is closed and empty. -/
def validateKeysBatch.collect (s : BatchState) : Option BatchState :=
  if s.returned then none
  else
    match s.resultsChan with
    | keyResult :: rest =>
      some { s with
        resultsChan := rest
        result := validateKeysBatch.record s.result keyResult }
    | [] =>
      if s.resultsClosed then some { s with returned := true }
      else none

/-- One step of `validateKeysBatch`; `none` when the step is not enabled. -/
def validateKeysBatch.step (s : BatchState) : BatchStep → Option BatchState
  | BatchStep.cancel => validateKeysBatch.cancel s
  | BatchStep.producerSend => validateKeysBatch.producerSend s
  | BatchStep.producerReturn => validateKeysBatch.producerReturn s
  | BatchStep.workerReceive i => validateKeysBatch.workerReceive i s
  | BatchStep.workerValidate i startTime isValid err =>
    validateKeysBatch.workerValidate i startTime isValid err s
  | BatchStep.workerSend i => validateKeysBatch.workerSend i s
  | BatchStep.closerClose => validateKeysBatch.closerClose s
  | BatchStep.collect => validateKeysBatch.collect s

/-- The state when the goroutines have been started: both channels are empty
with capacity `len(keys)`, and there is one worker for each `i` with
`0 <= i < config.GetConcurrency()`. -/
def validateKeysBatch.init (db : DB) (cancelled : Bool) (keys : List APIKey)
    (config : IncrementalValidationConfig) : BatchState :=
  { db := db
    cancelled := cancelled
    capacity := keys.length
    toSend := keys
    keysChan := []
    keysClosed := false
    workers := List.replicate config.Concurrency.toNat WorkerState.receiving
    resultsChan := []
    resultsClosed := false
    result := {
      GroupID := 0
      GroupName := ""
      TotalKeys := 0
      ValidatedKeys := 0
      SkippedKeys := 0
      SuccessfulKeys := 0
      FailedKeys := 0
      KeyResults := [] }
    returned := false }

/-- The state a schedule leads to; `none` when one of its steps is not
enabled. -/
def validateKeysBatch.run : BatchState → List BatchStep → Option BatchState
  | s, [] => some s
  | s, step :: rest =>
    match validateKeysBatch.step s step with
    | some s' => validateKeysBatch.run s' rest
    | none => none

/-- `validateKeysBatch` under a schedule: the result it returns, if the
schedule is one of its runs and reaches the `return`. -/
def validateKeysBatch (db : DB) (cancelled : Bool) (keys : List APIKey)
    (config : IncrementalValidationConfig) (schedule : List BatchStep) :
    Option IncrementalValidationResult :=
  match validateKeysBatch.run (validateKeysBatch.init db cancelled keys config) schedule with
  | some s => if s.returned then some s.result else none
  | none => none

/-- A disabled key whose stored backoff level is the largest 64-bit integer
less one. -/
def wrappingKey : APIKey :=
  { disabledKey with BackoffLevel := 9223372036854775806 }

/-- The row of a new key after two failed requests, at times 10 and 20. -/
def failedTwiceKey : APIKey :=
  { sampleKey with ConsecutiveFailures := 2, LastFailureAt := some 20, LastErrorMessage := "e" }

/-- The row `failedTwiceKey` after a valid probe of the incremental validator
at time 50. -/
def probedKey : APIKey :=
  { failedTwiceKey with Status := KeyStatusActive, LastValidatedAt := some 50 }

/-! # Properties -/


/-! ## Machine arithmetic -/

theorem wrapInt64_of_range (x : Int) (hlo : -(2 ^ 63) ≤ x) (hhi : x < 2 ^ 63) :
    wrapInt64 x = x := by
  unfold wrapInt64
  rw [Int.emod_eq_of_lt (by omega) (by omega)]
  omega

theorem int64Mul_30_Minute : int64Mul 30 Minute = 30 * Minute := by decide

theorem Minute_pos : (0 : Int) < Minute := by decide

/-! ## The state machine -/

/-- C1: for every status string, success flag and failure count,
`TransitionState` returns what the transition table prescribes: pending goes to
active on success, to disabled on failure with at least 3 failures, else stays
pending; active stays active on success and degrades on failure; degraded goes
to active on success, to disabled on failure with at least 3 failures, else
stays degraded; disabled goes to degraded on success and stays disabled on
failure; invalid stays invalid; any other string goes to pending. -/
theorem TransitionState_eq_transitionTable (s : String) (success : Bool) (n : Int) :
    TransitionState s success n = transitionTable s success n := by
  unfold TransitionState transitionTable shouldDisable
  by_cases h1 : s = "pending"
  · subst h1
    cases success <;> by_cases hn : n ≥ 3 <;>
      simp [hn, KeyStatusPending, KeyStatusActive, KeyStatusDegraded, KeyStatusDisabled,
        KeyStatusInvalid]
  by_cases h2 : s = "active"
  · subst h2
    cases success <;> by_cases hn : n ≥ 3 <;>
      simp [hn, KeyStatusPending, KeyStatusActive, KeyStatusDegraded, KeyStatusDisabled,
        KeyStatusInvalid]
  by_cases h3 : s = "degraded"
  · subst h3
    cases success <;> by_cases hn : n ≥ 3 <;>
      simp [hn, KeyStatusPending, KeyStatusActive, KeyStatusDegraded, KeyStatusDisabled,
        KeyStatusInvalid]
  by_cases h4 : s = "disabled"
  · subst h4
    cases success <;> by_cases hn : n ≥ 3 <;>
      simp [hn, KeyStatusPending, KeyStatusActive, KeyStatusDegraded, KeyStatusDisabled,
        KeyStatusInvalid]
  by_cases h5 : s = "invalid"
  · subst h5
    cases success <;> by_cases hn : n ≥ 3 <;>
      simp [hn, KeyStatusPending, KeyStatusActive, KeyStatusDegraded, KeyStatusDisabled,
        KeyStatusInvalid]
  cases success <;> by_cases hn : n ≥ 3 <;>
    simp [h1, h2, h3, h4, h5, hn, KeyStatusPending, KeyStatusActive, KeyStatusDegraded,
      KeyStatusDisabled, KeyStatusInvalid]

theorem CalculateBackoffDuration_of_nonpos (level : Int) (h : level ≤ 0) :
    CalculateBackoffDuration level = Minute := by
  simp [CalculateBackoffDuration, h]

theorem CalculateBackoffDuration_of_ge_five (level : Int) (h : 5 ≤ level) :
    CalculateBackoffDuration level = 30 * Minute := by
  have h0 : ¬ level ≤ 0 := by omega
  unfold CalculateBackoffDuration mathPow2
  by_cases hbig : level ≤ 1023
  · have hpow : 30 < 2 ^ level.toNat := by
      have h5 : 5 ≤ level.toNat := by omega
      calc 30 < 2 ^ 5 := by norm_num
        _ ≤ 2 ^ level.toNat := Nat.pow_le_pow_right (by norm_num) h5
    simp [h0, hbig, PowValue.gt30, hpow, PowValue.toDuration, int64Mul_30_Minute]
  · simp [h0, hbig, PowValue.gt30, PowValue.toDuration, int64Mul_30_Minute]

theorem CalculateBackoffDuration_pos (level : Int) : 0 < CalculateBackoffDuration level := by
  by_cases h0 : level ≤ 0
  · rw [CalculateBackoffDuration_of_nonpos level h0]; exact Minute_pos
  by_cases h5 : 5 ≤ level
  · rw [CalculateBackoffDuration_of_ge_five level h5]; decide
  have h1 : 1 ≤ level := by omega
  have h4 : level ≤ 4 := by omega
  interval_cases level <;> decide

/-- C2: for every integer level, `CalculateBackoffDuration level` is exactly
1 minute when `level ≤ 0` and exactly `min 30 (2 ^ level)` minutes when
`level ≥ 1`, that is 2, 4, 8 and 16 minutes for the levels 1 to 4 and
30 minutes for every level from 5 on. -/
theorem CalculateBackoffDuration_eq (level : Int) :
    CalculateBackoffDuration level
        = (if level ≤ 0 then 1 else ((min 30 (2 ^ level.toNat) : Nat) : Int)) * Minute ∧
      CalculateBackoffDuration level
        = (if level ≤ 0 then 1 else if level = 1 then 2 else if level = 2 then 4
            else if level = 3 then 8 else if level = 4 then 16 else 30) * Minute := by
  by_cases h0 : level ≤ 0
  · simp [CalculateBackoffDuration_of_nonpos level h0, h0]
  by_cases h5 : 5 ≤ level
  · have hpow : 30 ≤ 2 ^ level.toNat := by
      have h5n : 5 ≤ level.toNat := by omega
      calc 30 ≤ 2 ^ 5 := by norm_num
        _ ≤ 2 ^ level.toNat := Nat.pow_le_pow_right (by norm_num) h5n
    have e1 : level ≠ 1 := by omega
    have e2 : level ≠ 2 := by omega
    have e3 : level ≠ 3 := by omega
    have e4 : level ≠ 4 := by omega
    rw [CalculateBackoffDuration_of_ge_five level h5]
    simp [h0, e1, e2, e3, e4, Nat.min_eq_left hpow]
  have h1 : 1 ≤ level := by omega
  have h4 : level ≤ 4 := by omega
  interval_cases level <;> decide

/-! ## Queries and updates on the table -/

theorem Assignment.apply_ID (u : Assignment) (row : APIKey) : (u.apply row).ID = row.ID := by
  cases u <;> rfl

theorem applyUpdates_ID (updates : List Assignment) (row : APIKey) :
    (applyUpdates updates row).ID = row.ID := by
  unfold applyUpdates
  induction updates generalizing row with
  | nil => rfl
  | cons u us ih => simp only [List.foldl_cons]; rw [ih, Assignment.apply_ID]

theorem DB.first_ID {db : DB} {keyID : Nat} {key : APIKey} (h : db.first keyID = some key) :
    key.ID = keyID := by
  have := List.find?_some h
  simpa using this

theorem DB.first_updates (db : DB) (keyID keyID' : Nat) (updates : List Assignment) :
    (db.updates keyID updates).first keyID'
      = (db.first keyID').map
          (fun row => if row.ID = keyID then applyUpdates updates row else row) := by
  unfold DB.first DB.updates
  induction db with
  | nil => rfl
  | cons row rows ih =>
    have hID : (if row.ID = keyID then applyUpdates updates row else row).ID = row.ID := by
      split
      · exact applyUpdates_ID updates row
      · rfl
    simp only [List.map_cons, List.find?_cons, hID]
    cases hb : (row.ID == keyID')
    · exact ih
    · rfl

theorem DB.first_updates_same (db : DB) (keyID : Nat) (updates : List Assignment)
    (key : APIKey) (h : db.first keyID = some key) :
    (db.updates keyID updates).first keyID = some (applyUpdates updates key) := by
  rw [DB.first_updates, h]
  simp [DB.first_ID h]

theorem DB.first_updates_other (db : DB) (keyID keyID' : Nat) (updates : List Assignment)
    (hne : keyID' ≠ keyID) : (db.updates keyID updates).first keyID' = db.first keyID' := by
  rw [DB.first_updates]
  cases h : db.first keyID' with
  | none => rfl
  | some row =>
    have := DB.first_ID h
    simp [this, hne]

/-! ## The key state service -/

/-- C3: for every existing key, `HandleSuccess` succeeds and leaves the key's
row with `consecutiveFailures = 0`, `backoffLevel = 0`, `disabledUntil = null`,
`lastErrorMessage = ""`, `lastSuccessAt = now` and
`status = TransitionState(old status, true, old consecutiveFailures)`; the
other columns of the row are as before. -/
theorem HandleSuccess_row (db : DB) (now : Time) (keyID : Nat) (key : APIKey)
    (h : db.first keyID = some key) :
    ∃ db', HandleSuccess db now keyID = Except.ok db' ∧
      db'.first keyID = some { key with
        Status := TransitionState key.Status true key.ConsecutiveFailures
        LastSuccessAt := some now
        ConsecutiveFailures := 0
        BackoffLevel := 0
        DisabledUntil := none
        LastErrorMessage := "" } := by
  obtain rfl := DB.first_ID h
  simp only [HandleSuccess, h]
  refine ⟨_, rfl, ?_⟩
  rw [DB.first_updates_same db key.ID _ key h]
  rfl

theorem HandleSuccess_row_witness :
    ∃ db', HandleSuccess [sampleKey] 100 1 = Except.ok db' ∧
      db'.first 1 = some { sampleKey with
        Status := TransitionState sampleKey.Status true sampleKey.ConsecutiveFailures
        LastSuccessAt := some 100
        ConsecutiveFailures := 0
        BackoffLevel := 0
        DisabledUntil := none
        LastErrorMessage := "" } :=
  HandleSuccess_row [sampleKey] 100 1 sampleKey (by decide)

theorem HandleSuccess_first (db : DB) (now : Time) (keyID : Nat) (key : APIKey)
    (h : db.first keyID = some key) :
    ∃ db', HandleSuccess db now keyID = Except.ok db' ∧
      db'.first keyID = some (successRow key now) := by
  obtain rfl := DB.first_ID h
  simp only [HandleSuccess, h]
  refine ⟨_, rfl, ?_⟩
  rw [DB.first_updates_same db key.ID _ key h]
  rfl

theorem HandleFailure_first (db : DB) (now : Time) (keyID : Nat) (errorMessage : String)
    (key : APIKey) (h : db.first keyID = some key) :
    ∃ db', HandleFailure db now keyID errorMessage = Except.ok db' ∧
      db'.first keyID = some (failureRow key now errorMessage) := by
  obtain rfl := DB.first_ID h
  simp only [HandleFailure, h]
  refine ⟨_, rfl, ?_⟩
  rw [DB.first_updates_same db key.ID _ key h]
  unfold failureRow
  split <;> rfl

theorem failureRow_Status (key : APIKey) (now : Time) (errorMessage : String) :
    (failureRow key now errorMessage).Status
      = TransitionState key.Status false (int64Add key.ConsecutiveFailures 1) := by
  unfold failureRow; split <;> rfl

theorem failureRow_ConsecutiveFailures (key : APIKey) (now : Time) (errorMessage : String) :
    (failureRow key now errorMessage).ConsecutiveFailures
      = int64Add key.ConsecutiveFailures 1 := by
  unfold failureRow; split <;> rfl

theorem failureRow_of_disabled (key : APIKey) (now : Time) (errorMessage : String)
    (hd : (failureRow key now errorMessage).Status = KeyStatusDisabled) :
    (failureRow key now errorMessage).BackoffLevel = int64Add key.BackoffLevel 1 ∧
      (failureRow key now errorMessage).DisabledUntil
        = some (Time.Add now (CalculateBackoffDuration (int64Add key.BackoffLevel 1))) := by
  rw [failureRow_Status] at hd
  unfold failureRow
  rw [if_pos hd]
  exact ⟨rfl, rfl⟩

theorem failureRow_of_not_disabled (key : APIKey) (now : Time) (errorMessage : String)
    (hd : (failureRow key now errorMessage).Status ≠ KeyStatusDisabled) :
    (failureRow key now errorMessage).BackoffLevel = key.BackoffLevel ∧
      (failureRow key now errorMessage).DisabledUntil = key.DisabledUntil := by
  rw [failureRow_Status] at hd
  unfold failureRow
  rw [if_neg hd]
  exact ⟨rfl, rfl⟩

theorem int64Add_one_of_range (c : Int) (hlo : -(2 ^ 63) ≤ c) (hhi : c < 2 ^ 63 - 1) :
    int64Add c 1 = c + 1 :=
  wrapInt64_of_range (c + 1) (by omega) (by omega)

theorem lockout_after_now (now : Time) (level : Int) :
    now < Time.Add now (CalculateBackoffDuration level) := by
  have hpos : (0 : Int) < CalculateBackoffDuration level := CalculateBackoffDuration_pos level
  show (now : Int) < (now : Int) + CalculateBackoffDuration level
  linarith

/-- C4: for every existing key with consecutive failures `c`, backoff level
`b` and status `s`, `HandleFailure` succeeds and writes
`consecutiveFailures = c + 1`, `lastErrorMessage = msg`, `lastFailureAt = now`
and `status = TransitionState(s, false, c + 1)`; if that new status is disabled
it also writes `backoffLevel = b + 1` and
`disabledUntil = now + CalculateBackoffDuration(b + 1)`, and otherwise it leaves
`backoffLevel` and `disabledUntil` as they were. The sums are the Go sums on
`int64` / `int`, which are the mathematical `c + 1` and `b + 1` for every
stored value below the largest 64-bit integer. -/
theorem HandleFailure_row (db : DB) (now : Time) (keyID : Nat) (errorMessage : String)
    (key : APIKey) (h : db.first keyID = some key) :
    ∃ db' row, HandleFailure db now keyID errorMessage = Except.ok db' ∧
      db'.first keyID = some row ∧
      row.ConsecutiveFailures = int64Add key.ConsecutiveFailures 1 ∧
      row.LastErrorMessage = errorMessage ∧
      row.LastFailureAt = some now ∧
      row.Status = TransitionState key.Status false (int64Add key.ConsecutiveFailures 1) ∧
      (if row.Status = KeyStatusDisabled then
        row.BackoffLevel = int64Add key.BackoffLevel 1 ∧
          row.DisabledUntil
            = some (Time.Add now (CalculateBackoffDuration (int64Add key.BackoffLevel 1)))
      else
        row.BackoffLevel = key.BackoffLevel ∧ row.DisabledUntil = key.DisabledUntil) ∧
      (-(2 ^ 63) ≤ key.ConsecutiveFailures ∧ key.ConsecutiveFailures < 2 ^ 63 - 1 →
        int64Add key.ConsecutiveFailures 1 = key.ConsecutiveFailures + 1) ∧
      (-(2 ^ 63) ≤ key.BackoffLevel ∧ key.BackoffLevel < 2 ^ 63 - 1 →
        int64Add key.BackoffLevel 1 = key.BackoffLevel + 1) := by
  obtain ⟨db', hrun, hrow⟩ := HandleFailure_first db now keyID errorMessage key h
  refine ⟨db', failureRow key now errorMessage, hrun, hrow,
    failureRow_ConsecutiveFailures key now errorMessage, ?_, ?_,
    failureRow_Status key now errorMessage, ?_,
    fun hc => int64Add_one_of_range _ hc.1 hc.2,
    fun hb => int64Add_one_of_range _ hb.1 hb.2⟩
  · unfold failureRow; split <;> rfl
  · unfold failureRow; split <;> rfl
  · by_cases hd : (failureRow key now errorMessage).Status = KeyStatusDisabled
    · rw [if_pos hd]; exact failureRow_of_disabled key now errorMessage hd
    · rw [if_neg hd]; exact failureRow_of_not_disabled key now errorMessage hd

theorem failureRow_BackoffLevel_nonneg (key : APIKey) (now : Time) (errorMessage : String)
    (hb0 : 0 ≤ key.BackoffLevel) (hb1 : key.BackoffLevel < 2 ^ 63 - 1) :
    0 ≤ (failureRow key now errorMessage).BackoffLevel := by
  by_cases hd : (failureRow key now errorMessage).Status = KeyStatusDisabled
  · rw [(failureRow_of_disabled key now errorMessage hd).1,
      int64Add_one_of_range _ (by omega) hb1]
    omega
  · rw [(failureRow_of_not_disabled key now errorMessage hd).1]
    exact hb0

theorem successRow_BackoffLevel (key : APIKey) (now : Time) :
    (successRow key now).BackoffLevel = 0 := rfl

theorem HandleFailure_row_witness :
    ∃ db' row, HandleFailure [degradedKey2] 100 1 "boom" = Except.ok db' ∧
      db'.first 1 = some row ∧
      row.ConsecutiveFailures = int64Add degradedKey2.ConsecutiveFailures 1 ∧
      row.LastErrorMessage = "boom" ∧
      row.LastFailureAt = some 100 ∧
      row.Status
        = TransitionState degradedKey2.Status false
            (int64Add degradedKey2.ConsecutiveFailures 1) ∧
      (if row.Status = KeyStatusDisabled then
        row.BackoffLevel = int64Add degradedKey2.BackoffLevel 1 ∧
          row.DisabledUntil
            = some (Time.Add 100
                (CalculateBackoffDuration (int64Add degradedKey2.BackoffLevel 1)))
      else
        row.BackoffLevel = degradedKey2.BackoffLevel ∧
          row.DisabledUntil = degradedKey2.DisabledUntil) ∧
      (-(2 ^ 63) ≤ degradedKey2.ConsecutiveFailures ∧
          degradedKey2.ConsecutiveFailures < 2 ^ 63 - 1 →
        int64Add degradedKey2.ConsecutiveFailures 1 = degradedKey2.ConsecutiveFailures + 1) ∧
      (-(2 ^ 63) ≤ degradedKey2.BackoffLevel ∧ degradedKey2.BackoffLevel < 2 ^ 63 - 1 →
        int64Add degradedKey2.BackoffLevel 1 = degradedKey2.BackoffLevel + 1) :=
  HandleFailure_row [degradedKey2] 100 1 "boom" degradedKey2 (by decide)

theorem KeyEvent.run_failure_first (db : DB) (keyID : Nat) (now : Time) (errorMessage : String)
    (key : APIKey) (h : db.first keyID = some key) :
    ((KeyEvent.failure now errorMessage).run db keyID).first keyID
      = some (failureRow key now errorMessage) := by
  obtain ⟨db', hrun, hrow⟩ := HandleFailure_first db now keyID errorMessage key h
  simp only [KeyEvent.run, hrun]
  exact hrow

theorem KeyEvent.run_success_first (db : DB) (keyID : Nat) (now : Time)
    (key : APIKey) (h : db.first keyID = some key) :
    ((KeyEvent.success now).run db keyID).first keyID = some (successRow key now) := by
  obtain ⟨db', hrun, hrow⟩ := HandleSuccess_first db now keyID key h
  simp only [KeyEvent.run, hrun]
  exact hrow

theorem failureRow_below_threshold (key : APIKey) (now : Time) (errorMessage : String)
    (hs : key.Status = KeyStatusPending ∨ key.Status = KeyStatusDegraded)
    (hc : int64Add key.ConsecutiveFailures 1 < 3) :
    (failureRow key now errorMessage).Status = key.Status ∧
      (failureRow key now errorMessage).BackoffLevel = key.BackoffLevel := by
  have hn : ¬ int64Add key.ConsecutiveFailures 1 ≥ 3 := by omega
  have hst : (failureRow key now errorMessage).Status = key.Status := by
    rw [failureRow_Status]
    rcases hs with hs | hs <;> rw [hs] <;>
      simp [TransitionState, shouldDisable, hn, KeyStatusPending, KeyStatusActive,
        KeyStatusDegraded, KeyStatusDisabled]
  refine ⟨hst, (failureRow_of_not_disabled key now errorMessage ?_).1⟩
  rw [hst]
  rcases hs with hs | hs <;> rw [hs] <;> decide

theorem failureRow_at_threshold (key : APIKey) (now : Time) (errorMessage : String)
    (hs : key.Status = KeyStatusPending ∨ key.Status = KeyStatusDegraded)
    (hc : 3 ≤ int64Add key.ConsecutiveFailures 1) :
    (failureRow key now errorMessage).Status = KeyStatusDisabled ∧
      (failureRow key now errorMessage).BackoffLevel = int64Add key.BackoffLevel 1 := by
  have hn : int64Add key.ConsecutiveFailures 1 ≥ 3 := hc
  have hst : (failureRow key now errorMessage).Status = KeyStatusDisabled := by
    rw [failureRow_Status]
    rcases hs with hs | hs <;> rw [hs] <;>
      simp [TransitionState, shouldDisable, hn, KeyStatusPending, KeyStatusActive,
        KeyStatusDegraded, KeyStatusDisabled]
  exact ⟨hst, (failureRow_of_disabled key now errorMessage hst).1⟩

/-- C6, as the claim states it, fails: a degraded key that already has one
consecutive failure (an active key after its first failure) is disabled by the
second of three further failures, and the third raises the backoff level once
more, to the previous level plus 2. -/
theorem three_failures_backoff_counterexample :
    degradedKey.Status = KeyStatusDegraded ∧
      ((runEvents [degradedKey] 1
          [KeyEvent.failure 10 "e", KeyEvent.failure 20 "e", KeyEvent.failure 30 "e"]).first 1).map
        (fun row => (row.Status, row.BackoffLevel))
        = some (KeyStatusDisabled, degradedKey.BackoffLevel + 2) ∧
      degradedKey.BackoffLevel + 2 ≠ degradedKey.BackoffLevel + 1 := by
  decide

/-- C6, amended: for every key whose status is pending or degraded and whose
`consecutiveFailures` is 0, three successive `HandleFailure` calls with no
success in between leave the key in status disabled with three consecutive
failures and with `backoffLevel` equal to its value before the three calls
plus 1 (the Go sum). -/
theorem three_failures_disable (db : DB) (keyID : Nat) (key : APIKey)
    (t1 t2 t3 : Time) (m1 m2 m3 : String)
    (h : db.first keyID = some key)
    (hs : key.Status = KeyStatusPending ∨ key.Status = KeyStatusDegraded)
    (hc : key.ConsecutiveFailures = 0) :
    ∃ row, (runEvents db keyID
        [KeyEvent.failure t1 m1, KeyEvent.failure t2 m2, KeyEvent.failure t3 m3]).first keyID
          = some row ∧
      row.Status = KeyStatusDisabled ∧
      row.ConsecutiveFailures = 3 ∧
      row.BackoffLevel = int64Add key.BackoffLevel 1 := by
  have h1 := KeyEvent.run_failure_first db keyID t1 m1 key h
  have h2 := KeyEvent.run_failure_first _ keyID t2 m2 _ h1
  have h3 := KeyEvent.run_failure_first _ keyID t3 m3 _ h2
  have c1 : (failureRow key t1 m1).ConsecutiveFailures = 1 := by
    rw [failureRow_ConsecutiveFailures, hc]; decide
  have c2 : (failureRow (failureRow key t1 m1) t2 m2).ConsecutiveFailures = 2 := by
    rw [failureRow_ConsecutiveFailures, c1]; decide
  have c3 : (failureRow (failureRow (failureRow key t1 m1) t2 m2) t3 m3).ConsecutiveFailures
      = 3 := by
    rw [failureRow_ConsecutiveFailures, c2]; decide
  obtain ⟨s1, b1⟩ := failureRow_below_threshold key t1 m1 hs (by rw [hc]; decide)
  have hs1 : (failureRow key t1 m1).Status = KeyStatusPending ∨
      (failureRow key t1 m1).Status = KeyStatusDegraded := by rw [s1]; exact hs
  obtain ⟨s2, b2⟩ := failureRow_below_threshold (failureRow key t1 m1) t2 m2 hs1
    (by rw [c1]; decide)
  have hs2 : (failureRow (failureRow key t1 m1) t2 m2).Status = KeyStatusPending ∨
      (failureRow (failureRow key t1 m1) t2 m2).Status = KeyStatusDegraded := by
    rw [s2]; exact hs1
  obtain ⟨s3, b3⟩ := failureRow_at_threshold (failureRow (failureRow key t1 m1) t2 m2) t3 m3
    hs2 (by rw [c2]; decide)
  refine ⟨_, h3, s3, c3, ?_⟩
  rw [b3, b2, b1]

theorem three_failures_disable_witness :
    ∃ row, (runEvents [sampleKey] 1
        [KeyEvent.failure 10 "a", KeyEvent.failure 20 "b", KeyEvent.failure 30 "c"]).first 1
          = some row ∧
      row.Status = KeyStatusDisabled ∧
      row.ConsecutiveFailures = 3 ∧
      row.BackoffLevel = int64Add sampleKey.BackoffLevel 1 :=
  three_failures_disable [sampleKey] 1 sampleKey 10 20 30 "a" "b" "c" (by decide)
    (Or.inl (by decide)) (by decide)

theorem TransitionState_invalid (isSuccess : Bool) (n : Int) :
    TransitionState KeyStatusInvalid isSuccess n = KeyStatusInvalid := by
  simp [TransitionState, KeyStatusPending, KeyStatusActive, KeyStatusDegraded,
    KeyStatusDisabled, KeyStatusInvalid]

theorem failureRow_invalid (key : APIKey) (now : Time) (errorMessage : String)
    (hs : key.Status = KeyStatusInvalid) :
    (failureRow key now errorMessage).Status = KeyStatusInvalid := by
  rw [failureRow_Status, hs]
  exact TransitionState_invalid _ _

theorem successRow_invalid (key : APIKey) (now : Time)
    (hs : key.Status = KeyStatusInvalid) :
    (successRow key now).Status = KeyStatusInvalid := by
  show TransitionState key.Status true key.ConsecutiveFailures = KeyStatusInvalid
  rw [hs]
  exact TransitionState_invalid _ _

theorem runEvents_invalid (keyID : Nat) (events : List KeyEvent) :
    ∀ (db : DB) (key : APIKey), db.first keyID = some key → key.Status = KeyStatusInvalid →
      ∃ row, (runEvents db keyID events).first keyID = some row ∧
        row.Status = KeyStatusInvalid := by
  induction events with
  | nil => intro db key h hs; exact ⟨key, h, hs⟩
  | cons e es ih =>
    intro db key h hs
    cases e with
    | success now =>
      exact ih _ _ (KeyEvent.run_success_first db keyID now key h) (successRow_invalid key now hs)
    | failure now msg =>
      exact ih _ _ (KeyEvent.run_failure_first db keyID now msg key h)
        (failureRow_invalid key now msg hs)

/-- C7: for every key whose status is invalid and every finite sequence of
`HandleSuccess` and `HandleFailure` calls on it, the key's status is invalid
after every call of the sequence, that is after every initial part of it. -/
theorem invalid_stays_invalid (db : DB) (keyID : Nat) (key : APIKey)
    (events : List KeyEvent) (n : Nat)
    (h : db.first keyID = some key) (hs : key.Status = KeyStatusInvalid) :
    ∃ row, (runEvents db keyID (events.take n)).first keyID = some row ∧
      row.Status = KeyStatusInvalid :=
  runEvents_invalid keyID (events.take n) db key h hs

theorem invalid_stays_invalid_witness :
    ∃ row, (runEvents [invalidKey] 1
        ([KeyEvent.success 10, KeyEvent.failure 20 "e", KeyEvent.success 30].take 2)).first 1
          = some row ∧
      row.Status = KeyStatusInvalid :=
  invalid_stays_invalid [invalidKey] 1 invalidKey
    [KeyEvent.success 10, KeyEvent.failure 20 "e", KeyEvent.success 30] 2
    (by decide) (by decide)

/-! ## Manual overrides, direct status writes and the validator -/

theorem ManuallyInvalidateKey_first (db : DB) (now : Time) (keyID : Nat) (reason : String)
    (key : APIKey) (h : db.first keyID = some key) :
    ∃ db', ManuallyInvalidateKey db now keyID reason = Except.ok db' ∧
      db'.first keyID = some { key with
        Status := KeyStatusInvalid
        LastErrorMessage := "Manually invalidated: " ++ reason
        LastFailureAt := some now } := by
  refine ⟨_, rfl, ?_⟩
  rw [DB.first_updates_same db keyID _ key h]
  rfl

theorem ManuallyDisableKey_first (db : DB) (now : Time) (keyID : Nat) (reason : String)
    (key : APIKey) (h : db.first keyID = some key) :
    ∃ db', ManuallyDisableKey db now keyID reason = Except.ok db' ∧
      db'.first keyID = some { key with
        Status := KeyStatusDisabled
        DisabledUntil := some (Time.Add now (int64Mul 30 Minute))
        LastErrorMessage := "Manually disabled: " ++ reason
        LastFailureAt := some now } := by
  refine ⟨_, rfl, ?_⟩
  rw [DB.first_updates_same db keyID _ key h]
  rfl

theorem ManuallyEnableKey_first (db : DB) (keyID : Nat) (key : APIKey)
    (h : db.first keyID = some key) :
    ∃ db', ManuallyEnableKey db keyID = Except.ok db' ∧
      db'.first keyID = some { key with
        Status := KeyStatusDegraded
        DisabledUntil := none
        ConsecutiveFailures := 0
        BackoffLevel := 0
        LastErrorMessage := "" } := by
  refine ⟨_, rfl, ?_⟩
  rw [DB.first_updates_same db keyID _ key h]
  rfl

theorem UpdateKeyStatus_first (db : DB) (keyID : Nat) (newStatus : String) (key : APIKey)
    (h : db.first keyID = some key) (hvalid : IsValidState newStatus = true) :
    ∃ db', UpdateKeyStatus db keyID newStatus = Except.ok db' ∧
      db'.first keyID = some { key with Status := newStatus } := by
  simp only [UpdateKeyStatus, hvalid, Bool.not_true, Bool.false_eq_true, if_false]
  refine ⟨_, rfl, ?_⟩
  rw [DB.first_updates_same db keyID _ key h]
  rfl

theorem validateSingleKey_first (db : DB) (startTime : Time) (snapshot : APIKey)
    (isValid : Bool) (err : Option String) (key : APIKey)
    (h : db.first snapshot.ID = some key) :
    (validateSingleKey db startTime snapshot isValid err).2.first snapshot.ID
      = some { key with
          LastValidatedAt := some startTime
          Status :=
            if isValid then
              if snapshot.Status = KeyStatusPending ∨ snapshot.Status = KeyStatusInvalid then
                KeyStatusActive
              else key.Status
            else
              if snapshot.Status ≠ KeyStatusInvalid then KeyStatusInvalid
              else key.Status } := by
  unfold validateSingleKey
  cases isValid
  · by_cases hs : snapshot.Status = KeyStatusInvalid
    · simp only [hs, Bool.false_eq_true, if_false, ne_eq, not_true_eq_false]
      rw [DB.first_updates_same db snapshot.ID _ key h]
      rfl
    · simp only [hs, Bool.false_eq_true, if_false, ne_eq, not_false_eq_true, if_true]
      rw [DB.first_updates_same db snapshot.ID _ key h]
      rfl
  · by_cases hs : snapshot.Status = KeyStatusPending ∨ snapshot.Status = KeyStatusInvalid
    · simp only [hs, if_true]
      rw [DB.first_updates_same db snapshot.ID _ key h]
      rfl
    · simp only [hs, if_true, if_false]
      rw [DB.first_updates_same db snapshot.ID _ key h]
      rfl

theorem TransitionState_failure_ne_active (s : String) (n : Int) :
    TransitionState s false n ≠ KeyStatusActive := by
  unfold TransitionState shouldDisable
  simp only [Bool.false_eq_true, if_false]
  split_ifs <;> decide

theorem invalid_ne_active : KeyStatusInvalid ≠ KeyStatusActive := by decide

theorem disabled_ne_active : KeyStatusDisabled ≠ KeyStatusActive := by decide

theorem degraded_ne_active : KeyStatusDegraded ≠ KeyStatusActive := by decide

theorem manual_lockout_after_now (now : Time) : now < Time.Add now (int64Mul 30 Minute) := by
  have hpos : (0 : Int) < int64Mul 30 Minute := by decide
  show (now : Int) < (now : Int) + int64Mul 30 Minute
  linarith

/-- The two operations that write the status column alone: `UpdateKeyStatus`
to active on a degraded key with one consecutive failure, and a valid probe in
`validateSingleKey` on a pending key with two consecutive failures, both leave
an active row whose `consecutiveFailures` is not 0, although the row satisfied
the predicate before. -/
theorem ActiveHasNoFailures_counterexample :
    ActiveHasNoFailures degradedKey ∧
      (UpdateKeyStatus [degradedKey] 1 "active").toOption.bind (fun db => db.first 1)
        = some { degradedKey with Status := KeyStatusActive } ∧
      ¬ ActiveHasNoFailures { degradedKey with Status := KeyStatusActive } ∧
      ActiveHasNoFailures pendingKey2 ∧
      (validateSingleKey [pendingKey2] 50 pendingKey2 true none).2.first 1
        = some { pendingKey2 with Status := KeyStatusActive, LastValidatedAt := some 50 } ∧
      ¬ ActiveHasNoFailures
        { pendingKey2 with Status := KeyStatusActive, LastValidatedAt := some 50 } := by
  decide

/-- Where the predicate "status = active implies consecutiveFailures = 0" does
hold: `HandleSuccess`, `HandleFailure`, `ManuallyInvalidateKey`,
`ManuallyDisableKey` and `ManuallyEnableKey` preserve it on every row;
`UpdateKeyStatus` and `validateSingleKey`, which write the status without
touching `consecutiveFailures`, preserve it only on the rows for which the
status they write is not active or the key's `consecutiveFailures` is 0. -/
theorem ActiveHasNoFailures_preserved (db : DB) (now : Time) (keyID : Nat) (key : APIKey)
    (errorMessage reason : String)
    (h : db.first keyID = some key) (hinv : ActiveHasNoFailures key) :
    (∃ db' row, HandleSuccess db now keyID = Except.ok db' ∧
        db'.first keyID = some row ∧ ActiveHasNoFailures row) ∧
    (∃ db' row, HandleFailure db now keyID errorMessage = Except.ok db' ∧
        db'.first keyID = some row ∧ ActiveHasNoFailures row) ∧
    (∃ db' row, ManuallyInvalidateKey db now keyID reason = Except.ok db' ∧
        db'.first keyID = some row ∧ ActiveHasNoFailures row) ∧
    (∃ db' row, ManuallyDisableKey db now keyID reason = Except.ok db' ∧
        db'.first keyID = some row ∧ ActiveHasNoFailures row) ∧
    (∃ db' row, ManuallyEnableKey db keyID = Except.ok db' ∧
        db'.first keyID = some row ∧ ActiveHasNoFailures row) ∧
    (∀ newStatus : String, IsValidState newStatus = true →
      newStatus ≠ KeyStatusActive ∨ key.ConsecutiveFailures = 0 →
      ∃ db' row, UpdateKeyStatus db keyID newStatus = Except.ok db' ∧
        db'.first keyID = some row ∧ ActiveHasNoFailures row) ∧
    (∀ (snapshot : APIKey) (isValid : Bool) (err : Option String), snapshot.ID = keyID →
      ¬ (isValid = true ∧
          (snapshot.Status = KeyStatusPending ∨ snapshot.Status = KeyStatusInvalid)) ∨
        key.ConsecutiveFailures = 0 →
      ∃ row, (validateSingleKey db now snapshot isValid err).2.first keyID = some row ∧
        ActiveHasNoFailures row) := by
  refine ⟨?_, ?_, ?_, ?_, ?_, ?_, ?_⟩
  · obtain ⟨db', hrun, hrow⟩ := HandleSuccess_first db now keyID key h
    exact ⟨db', _, hrun, hrow, fun _ => rfl⟩
  · obtain ⟨db', hrun, hrow⟩ := HandleFailure_first db now keyID errorMessage key h
    refine ⟨db', _, hrun, hrow, fun hact => ?_⟩
    rw [failureRow_Status] at hact
    exact absurd hact (TransitionState_failure_ne_active _ _)
  · obtain ⟨db', hrun, hrow⟩ := ManuallyInvalidateKey_first db now keyID reason key h
    exact ⟨db', _, hrun, hrow, fun hact => absurd hact invalid_ne_active⟩
  · obtain ⟨db', hrun, hrow⟩ := ManuallyDisableKey_first db now keyID reason key h
    exact ⟨db', _, hrun, hrow, fun hact => absurd hact disabled_ne_active⟩
  · obtain ⟨db', hrun, hrow⟩ := ManuallyEnableKey_first db keyID key h
    exact ⟨db', _, hrun, hrow, fun _ => rfl⟩
  · intro newStatus hvalid hcond
    obtain ⟨db', hrun, hrow⟩ := UpdateKeyStatus_first db keyID newStatus key h hvalid
    refine ⟨db', _, hrun, hrow, fun hact => ?_⟩
    rcases hcond with hne | hzero
    · exact absurd hact hne
    · exact hzero
  · intro snapshot isValid err hid hcond
    subst hid
    refine ⟨_, validateSingleKey_first db now snapshot isValid err key h, fun hact => ?_⟩
    show key.ConsecutiveFailures = 0
    have hact' : (if isValid = true then
          if snapshot.Status = KeyStatusPending ∨ snapshot.Status = KeyStatusInvalid then
            KeyStatusActive
          else key.Status
        else
          if snapshot.Status ≠ KeyStatusInvalid then KeyStatusInvalid
          else key.Status) = KeyStatusActive := hact
    rcases hcond with hno | hzero
    · cases isValid
      · simp only [Bool.false_eq_true, if_false] at hact'
        split_ifs at hact' with hs
        · exact absurd hact' (by decide)
        · exact hinv hact'
      · simp only [if_true] at hact'
        split_ifs at hact' with hs
        · exact absurd ⟨rfl, hs⟩ hno
        · exact hinv hact'
    · exact hzero

theorem ActiveHasNoFailures_preserved_witness :
    (∃ db' row, HandleSuccess [degradedKey] 100 1 = Except.ok db' ∧
        db'.first 1 = some row ∧ ActiveHasNoFailures row) ∧
    (∃ db' row, HandleFailure [degradedKey] 100 1 "boom" = Except.ok db' ∧
        db'.first 1 = some row ∧ ActiveHasNoFailures row) ∧
    (∃ db' row, ManuallyInvalidateKey [degradedKey] 100 1 "leaked" = Except.ok db' ∧
        db'.first 1 = some row ∧ ActiveHasNoFailures row) ∧
    (∃ db' row, ManuallyDisableKey [degradedKey] 100 1 "leaked" = Except.ok db' ∧
        db'.first 1 = some row ∧ ActiveHasNoFailures row) ∧
    (∃ db' row, ManuallyEnableKey [degradedKey] 1 = Except.ok db' ∧
        db'.first 1 = some row ∧ ActiveHasNoFailures row) ∧
    (∀ newStatus : String, IsValidState newStatus = true →
      newStatus ≠ KeyStatusActive ∨ degradedKey.ConsecutiveFailures = 0 →
      ∃ db' row, UpdateKeyStatus [degradedKey] 1 newStatus = Except.ok db' ∧
        db'.first 1 = some row ∧ ActiveHasNoFailures row) ∧
    (∀ (snapshot : APIKey) (isValid : Bool) (err : Option String), snapshot.ID = 1 →
      ¬ (isValid = true ∧
          (snapshot.Status = KeyStatusPending ∨ snapshot.Status = KeyStatusInvalid)) ∨
        degradedKey.ConsecutiveFailures = 0 →
      ∃ row, (validateSingleKey [degradedKey] 100 snapshot isValid err).2.first 1 = some row ∧
        ActiveHasNoFailures row) :=
  ActiveHasNoFailures_preserved [degradedKey] 100 1 degradedKey "boom" "leaked"
    (by decide) (by decide)

/-- C8 fails on the code, at `validateSingleKey`: a new key that has failed two
requests is pending with two consecutive failures; a valid probe of the
incremental validator makes it active and writes `last_validated_at` and the
status only, so the row is active with `consecutiveFailures = 2`, where
`HandleSuccess` on the same row writes active with the counter reset to 0. Two
further failures then disable the probed key, while they leave a key that
became active through `HandleSuccess` degraded. -/
theorem validateSingleKey_active_keeps_failures :
    (runEvents [sampleKey] 1 [KeyEvent.failure 10 "e", KeyEvent.failure 20 "e"]).first 1
        = some failedTwiceKey ∧
      failedTwiceKey.Status = KeyStatusPending ∧
      ActiveHasNoFailures failedTwiceKey ∧
      (validateSingleKey [failedTwiceKey] 50 failedTwiceKey true none).2.first 1
        = some probedKey ∧
      probedKey.Status = KeyStatusActive ∧
      probedKey.ConsecutiveFailures = 2 ∧
      ¬ ActiveHasNoFailures probedKey ∧
      (HandleSuccess [failedTwiceKey] 50 1).toOption.bind (fun db => db.first 1)
        = some (successRow failedTwiceKey 50) ∧
      (successRow failedTwiceKey 50).Status = KeyStatusActive ∧
      (successRow failedTwiceKey 50).ConsecutiveFailures = 0 ∧
      ((runEvents [probedKey] 1
          [KeyEvent.failure 60 "e", KeyEvent.failure 70 "e"]).first 1).map
        (fun row => (row.Status, row.ConsecutiveFailures, row.BackoffLevel))
        = some (KeyStatusDisabled, 4, 1) ∧
      ((runEvents [successRow failedTwiceKey 50] 1
          [KeyEvent.failure 60 "e", KeyEvent.failure 70 "e"]).first 1).map
        (fun row => (row.Status, row.ConsecutiveFailures, row.BackoffLevel))
        = some (KeyStatusDegraded, 2, 0) := by
  decide

/-- C9, as the claim states it, fails for `UpdateKeyStatus`: moving an active
key whose `disabledUntil` is null into status disabled leaves `disabledUntil`
null. -/
theorem disabled_has_lockout_counterexample :
    (UpdateKeyStatus [activeKey] 1 "disabled").toOption.bind (fun db => db.first 1)
        = some { activeKey with Status := KeyStatusDisabled } ∧
      ({ activeKey with Status := KeyStatusDisabled } : APIKey).DisabledUntil = none := by
  decide

/-- C9, amended: `HandleFailure`, when it moves a key into status disabled, and
`ManuallyDisableKey` leave the key with a non-null `disabledUntil` that is later
than the time of the operation; `UpdateKeyStatus` with `newStatus = "disabled"`
writes the status alone and leaves `disabledUntil` as it was. -/
theorem disabled_has_lockout (db : DB) (now : Time) (keyID : Nat) (key : APIKey)
    (errorMessage reason : String) (h : db.first keyID = some key) :
    (∃ db' row, HandleFailure db now keyID errorMessage = Except.ok db' ∧
        db'.first keyID = some row ∧
        (row.Status = KeyStatusDisabled → ∃ t, row.DisabledUntil = some t ∧ now < t)) ∧
    (∃ db' row, ManuallyDisableKey db now keyID reason = Except.ok db' ∧
        db'.first keyID = some row ∧ row.Status = KeyStatusDisabled ∧
        ∃ t, row.DisabledUntil = some t ∧ now < t) ∧
    (∃ db' row, UpdateKeyStatus db keyID KeyStatusDisabled = Except.ok db' ∧
        db'.first keyID = some row ∧ row.Status = KeyStatusDisabled ∧
        row.DisabledUntil = key.DisabledUntil) := by
  refine ⟨?_, ?_, ?_⟩
  · obtain ⟨db', hrun, hrow⟩ := HandleFailure_first db now keyID errorMessage key h
    refine ⟨db', _, hrun, hrow, fun hdis => ?_⟩
    exact ⟨_, (failureRow_of_disabled key now errorMessage hdis).2, lockout_after_now now _⟩
  · obtain ⟨db', hrun, hrow⟩ := ManuallyDisableKey_first db now keyID reason key h
    exact ⟨db', _, hrun, hrow, rfl, _, rfl, manual_lockout_after_now now⟩
  · obtain ⟨db', hrun, hrow⟩ :=
      UpdateKeyStatus_first db keyID KeyStatusDisabled key h (by decide)
    exact ⟨db', _, hrun, hrow, rfl, rfl⟩

theorem disabled_has_lockout_witness :
    (∃ db' row, HandleFailure [degradedKey2] 100 1 "boom" = Except.ok db' ∧
        db'.first 1 = some row ∧
        (row.Status = KeyStatusDisabled → ∃ t, row.DisabledUntil = some t ∧ (100 : Time) < t)) ∧
    (∃ db' row, ManuallyDisableKey [degradedKey2] 100 1 "maintenance" = Except.ok db' ∧
        db'.first 1 = some row ∧ row.Status = KeyStatusDisabled ∧
        ∃ t, row.DisabledUntil = some t ∧ (100 : Time) < t) ∧
    (∃ db' row, UpdateKeyStatus [degradedKey2] 1 KeyStatusDisabled = Except.ok db' ∧
        db'.first 1 = some row ∧ row.Status = KeyStatusDisabled ∧
        row.DisabledUntil = degradedKey2.DisabledUntil) :=
  disabled_has_lockout [degradedKey2] 100 1 degradedKey2 "boom" "maintenance" (by decide)

/-- C10: for every key, whatever its previous state, `ManuallyEnableKey`
succeeds and leaves `status = degraded` (never active),
`consecutiveFailures = 0`, `backoffLevel = 0`, `disabledUntil = null` and
`lastErrorMessage = ""`; it does not set `lastSuccessAt`, which like every
other column keeps its value. -/
theorem ManuallyEnableKey_row (db : DB) (keyID : Nat) (key : APIKey)
    (h : db.first keyID = some key) :
    ∃ db' row, ManuallyEnableKey db keyID = Except.ok db' ∧
      db'.first keyID = some row ∧
      row = { key with
        Status := KeyStatusDegraded
        DisabledUntil := none
        ConsecutiveFailures := 0
        BackoffLevel := 0
        LastErrorMessage := "" } ∧
      row.Status = KeyStatusDegraded ∧ row.Status ≠ KeyStatusActive ∧
      row.ConsecutiveFailures = 0 ∧ row.BackoffLevel = 0 ∧
      row.DisabledUntil = none ∧ row.LastErrorMessage = "" ∧
      row.LastSuccessAt = key.LastSuccessAt := by
  obtain ⟨db', hrun, hrow⟩ := ManuallyEnableKey_first db keyID key h
  exact ⟨db', _, hrun, hrow, rfl, rfl, degraded_ne_active, rfl, rfl, rfl, rfl, rfl⟩

theorem ManuallyEnableKey_row_witness :
    ∃ db' row, ManuallyEnableKey [failureRow degradedKey2 100 "boom"] 1 = Except.ok db' ∧
      db'.first 1 = some row ∧
      row = { failureRow degradedKey2 100 "boom" with
        Status := KeyStatusDegraded
        DisabledUntil := none
        ConsecutiveFailures := 0
        BackoffLevel := 0
        LastErrorMessage := "" } ∧
      row.Status = KeyStatusDegraded ∧ row.Status ≠ KeyStatusActive ∧
      row.ConsecutiveFailures = 0 ∧ row.BackoffLevel = 0 ∧
      row.DisabledUntil = none ∧ row.LastErrorMessage = "" ∧
      row.LastSuccessAt = (failureRow degradedKey2 100 "boom").LastSuccessAt :=
  ManuallyEnableKey_row [failureRow degradedKey2 100 "boom"] 1
    (failureRow degradedKey2 100 "boom") (by decide)

/-- C11: for every key and reason, `ManuallyDisableKey` succeeds and sets
`status = disabled`, `disabledUntil = now + 30 minutes` and
`lastErrorMessage = "Manually disabled: " + reason`, and leaves `backoffLevel`
and `consecutiveFailures` unchanged. -/
theorem ManuallyDisableKey_row (db : DB) (now : Time) (keyID : Nat) (reason : String)
    (key : APIKey) (h : db.first keyID = some key) :
    ∃ db' row, ManuallyDisableKey db now keyID reason = Except.ok db' ∧
      db'.first keyID = some row ∧
      row.Status = KeyStatusDisabled ∧
      row.DisabledUntil = some (now + 30 * Minute) ∧
      row.LastErrorMessage = "Manually disabled: " ++ reason ∧
      row.BackoffLevel = key.BackoffLevel ∧
      row.ConsecutiveFailures = key.ConsecutiveFailures := by
  obtain ⟨db', hrun, hrow⟩ := ManuallyDisableKey_first db now keyID reason key h
  refine ⟨db', _, hrun, hrow, rfl, ?_, rfl, rfl, rfl⟩
  show some (Time.Add now (int64Mul 30 Minute)) = some (now + 30 * Minute)
  rw [int64Mul_30_Minute]
  rfl

theorem ManuallyDisableKey_row_witness :
    ∃ db' row, ManuallyDisableKey [degradedKey] 100 1 "maintenance" = Except.ok db' ∧
      db'.first 1 = some row ∧
      row.Status = KeyStatusDisabled ∧
      row.DisabledUntil = some (100 + 30 * Minute) ∧
      row.LastErrorMessage = "Manually disabled: " ++ "maintenance" ∧
      row.BackoffLevel = degradedKey.BackoffLevel ∧
      row.ConsecutiveFailures = degradedKey.ConsecutiveFailures :=
  ManuallyDisableKey_row [degradedKey] 100 1 "maintenance" degradedKey (by decide)

theorem IsValidState_iff (status : String) :
    IsValidState status = true ↔
      status ∈ [KeyStatusPending, KeyStatusActive, KeyStatusDegraded, KeyStatusDisabled,
        KeyStatusInvalid] := by
  simp [IsValidState, GetValidStates]

/-- C12: for every key id and string `newStatus`, `UpdateKeyStatus` returns an
error if and only if `newStatus` is not one of pending, active, degraded,
disabled, invalid; on that error the table is as before, no row changed; and on
success the new table is the old one with the status column of the rows with
that key id set to `newStatus` and nothing else changed. -/
theorem UpdateKeyStatus_error_iff (db : DB) (keyID : Nat) (newStatus : String) :
    ((∃ e, UpdateKeyStatus db keyID newStatus = Except.error e) ↔
        newStatus ∉ [KeyStatusPending, KeyStatusActive, KeyStatusDegraded,
          KeyStatusDisabled, KeyStatusInvalid]) ∧
      (newStatus ∉ [KeyStatusPending, KeyStatusActive, KeyStatusDegraded,
          KeyStatusDisabled, KeyStatusInvalid] →
        tableAfter db (UpdateKeyStatus db keyID newStatus) = db) ∧
      (newStatus ∈ [KeyStatusPending, KeyStatusActive, KeyStatusDegraded,
          KeyStatusDisabled, KeyStatusInvalid] →
        UpdateKeyStatus db keyID newStatus
          = Except.ok (db.map (fun row =>
              if row.ID = keyID then { row with Status := newStatus } else row))) := by
  by_cases hv : IsValidState newStatus = true
  · have hmem := (IsValidState_iff newStatus).1 hv
    have hrun : UpdateKeyStatus db keyID newStatus
        = Except.ok (db.map (fun row =>
            if row.ID = keyID then { row with Status := newStatus } else row)) := by
      simp only [UpdateKeyStatus, hv, Bool.not_true, Bool.false_eq_true, if_false]
      rfl
    refine ⟨⟨?_, fun hn => absurd hmem hn⟩, fun hn => absurd hmem hn, fun _ => hrun⟩
    rintro ⟨e, he⟩
    rw [hrun] at he
    cases he
  · have hmem : newStatus ∉ [KeyStatusPending, KeyStatusActive, KeyStatusDegraded,
        KeyStatusDisabled, KeyStatusInvalid] := fun hm => hv ((IsValidState_iff newStatus).2 hm)
    have hf : IsValidState newStatus = false := by
      cases hb : IsValidState newStatus
      · rfl
      · exact absurd hb hv
    have hrun : UpdateKeyStatus db keyID newStatus
        = Except.error ("invalid status: " ++ newStatus) := by
      simp [UpdateKeyStatus, hf]
    refine ⟨⟨fun _ => hmem, fun _ => ⟨_, hrun⟩⟩, fun _ => ?_, fun hm => absurd hm hmem⟩
    rw [hrun]
    rfl

theorem EvaluateRetryPolicies_error_no_result (lib : StdLib) (store : PolicyStore)
    (groupID : Nat) (context : PolicyEvaluationContext)
    (herr : (EvaluateRetryPolicies lib store groupID context).2 ≠ none) :
    (EvaluateRetryPolicies lib store groupID context).1 = none := by
  unfold EvaluateRetryPolicies at herr ⊢
  cases hq : GetGroupPoliciesByType store groupID PolicyTypeRetry with
  | error e => rfl
  | ok policies => rw [hq] at herr; exact absurd rfl herr

/-- C13: for every key, group and error message, `HandleKeyFailure` makes
exactly one call on the key state service: `ManuallyInvalidateKey(key.ID,
result.Reason)` when the retry-policy result is matched with action
"invalidate"; `ManuallyDisableKey(key.ID, result.Reason)` when it is matched
with action "disable"; and `HandleFailure(key.ID, errorMessage)` in every other
case: matched with any other action, not matched, or no result, which is what
the policy engine returns together with an error. -/
theorem HandleKeyFailure_calls
    (policyEngine : Nat → PolicyEvaluationContext →
      Option PolicyEvaluationResult × Option String)
    (apiKey : APIKey) (group : Group) (errorMessage : String) :
    (HandleKeyFailure policyEngine apiKey group errorMessage).length = 1 ∧
      HandleKeyFailure policyEngine apiKey group errorMessage
        = [match (policyEngine group.ID
              (HandleKeyFailure.context apiKey group errorMessage)).1 with
          | some result =>
            if result.Matched = true ∧ result.Action = "invalidate" then
              ServiceCall.ManuallyInvalidateKey apiKey.ID result.Reason
            else if result.Matched = true ∧ result.Action = "disable" then
              ServiceCall.ManuallyDisableKey apiKey.ID result.Reason
            else ServiceCall.HandleFailure apiKey.ID errorMessage
          | none => ServiceCall.HandleFailure apiKey.ID errorMessage] ∧
      (∀ (lib : StdLib) (store : PolicyStore),
        (EvaluateRetryPolicies lib store group.ID
            (HandleKeyFailure.context apiKey group errorMessage)).2 ≠ none →
        HandleKeyFailure (EvaluateRetryPolicies lib store) apiKey group errorMessage
          = [ServiceCall.HandleFailure apiKey.ID errorMessage]) := by
  have hmain : ∀ engine : Nat → PolicyEvaluationContext →
        Option PolicyEvaluationResult × Option String,
      HandleKeyFailure engine apiKey group errorMessage
        = [match (engine group.ID (HandleKeyFailure.context apiKey group errorMessage)).1 with
          | some result =>
            if result.Matched = true ∧ result.Action = "invalidate" then
              ServiceCall.ManuallyInvalidateKey apiKey.ID result.Reason
            else if result.Matched = true ∧ result.Action = "disable" then
              ServiceCall.ManuallyDisableKey apiKey.ID result.Reason
            else ServiceCall.HandleFailure apiKey.ID errorMessage
          | none => ServiceCall.HandleFailure apiKey.ID errorMessage] := by
    intro engine
    simp only [HandleKeyFailure]
    generalize engine group.ID (HandleKeyFailure.context apiKey group errorMessage) = out
    obtain ⟨retryResult, err⟩ := out
    cases retryResult with
    | none => rfl
    | some result =>
      by_cases hm : result.Matched = true
      · by_cases hi : result.Action = "invalidate"
        · simp [hm, hi, RetryActionInvalidate]
        · by_cases hd : result.Action = "disable"
          · simp [hm, hd, RetryActionInvalidate, RetryActionDisable]
          · simp [hm, hi, hd, RetryActionInvalidate, RetryActionDisable]
      · simp [hm]
  refine ⟨?_, hmain policyEngine, fun lib store herr => ?_⟩
  · rw [hmain policyEngine]; rfl
  · rw [hmain (EvaluateRetryPolicies lib store),
      EvaluateRetryPolicies_error_no_result lib store group.ID _ herr]

theorem shouldRetry_lt_iff (ctx : RequestContext) (result : RequestResult) :
    shouldRetry ctx result = true ↔
      ctx.RetryCount < ctx.Group.EffectiveConfig.MaxRetries ∧
      (result.Error ≠ none ∨ result.StatusCode ≥ 400) ∧
      result.StatusCode ≠ 404 ∧
      (∀ err, result.Error = some err → err.IsIgnorable = false) := by
  unfold shouldRetry
  cases herr : result.Error with
  | none =>
    by_cases h1 : ctx.RetryCount ≥ ctx.Group.EffectiveConfig.MaxRetries
    · have h1' : ¬ ctx.RetryCount < ctx.Group.EffectiveConfig.MaxRetries := by omega
      simp [h1, h1']
    · have h1' : ctx.RetryCount < ctx.Group.EffectiveConfig.MaxRetries := by omega
      by_cases h2 : result.StatusCode < 400
      · have h2' : ¬ result.StatusCode ≥ 400 := by omega
        simp [h1, h2, h2']
      · have h2' : result.StatusCode ≥ 400 := by omega
        by_cases h3 : result.StatusCode = 404
        · simp [h1, h3]
        · simp [h1, h1', h2, h2', h3]
  | some err =>
    by_cases h1 : ctx.RetryCount ≥ ctx.Group.EffectiveConfig.MaxRetries
    · have h1' : ¬ ctx.RetryCount < ctx.Group.EffectiveConfig.MaxRetries := by omega
      simp [h1, h1']
    · have h1' : ctx.RetryCount < ctx.Group.EffectiveConfig.MaxRetries := by omega
      by_cases h3 : result.StatusCode = 404
      · simp [h1, h3]
      · cases hig : err.IsIgnorable
        · simp [h1, h1', h3, hig]
        · simp [h1, h1', h3, hig]

/-- C18: for every request context and attempt result, `shouldRetry` returns
true if and only if `retryCount < maxRetries`, and the attempt failed (a
transport error is present or the status code is at least 400), and the status
code is not 404, and the transport error, if any, is not an ignorable
client-side error. -/
theorem shouldRetry_iff (ctx : RequestContext) (result : RequestResult) :
    shouldRetry ctx result = true ↔
      ctx.RetryCount < ctx.Group.EffectiveConfig.MaxRetries ∧
      (result.Error ≠ none ∨ result.StatusCode ≥ 400) ∧
      result.StatusCode ≠ 404 ∧
      (∀ err, result.Error = some err → err.IsIgnorable = false) :=
  shouldRetry_lt_iff ctx result

/-- C20: for every key with old status `s` and every probe outcome,
`validateSingleKey` reports and writes the new status, which is active if the
probe is valid and `s` is pending or invalid, invalid if the probe is not valid
and `s` is not invalid, and `s` unchanged in all other cases; and it always
writes `lastValidatedAt` = the validation start time. -/
theorem validateSingleKey_status (db : DB) (startTime : Time) (key : APIKey)
    (isValid : Bool) (err : Option String) (h : db.first key.ID = some key) :
    (validateSingleKey db startTime key isValid err).1.NewStatus
        = validatedStatus key.Status isValid ∧
      (validateSingleKey db startTime key isValid err).1.OldStatus = key.Status ∧
      ∃ row, (validateSingleKey db startTime key isValid err).2.first key.ID = some row ∧
        row.Status = validatedStatus key.Status isValid ∧
        row.LastValidatedAt = some startTime := by
  have hrow := validateSingleKey_first db startTime key isValid err key h
  refine ⟨?_, ?_, _, hrow, ?_, rfl⟩
  · unfold validateSingleKey validatedStatus
    cases isValid
    · by_cases hs : key.Status = KeyStatusInvalid
      · simp [hs]
      · simp [hs]
    · by_cases hs : key.Status = KeyStatusPending ∨ key.Status = KeyStatusInvalid
      · simp [hs]
      · simp [hs]
  · unfold validateSingleKey
    cases isValid
    · by_cases hs : key.Status = KeyStatusInvalid
      · simp [hs]
      · simp [hs]
    · by_cases hs : key.Status = KeyStatusPending ∨ key.Status = KeyStatusInvalid
      · simp [hs]
      · simp [hs]
  · show (if isValid = true then
          if key.Status = KeyStatusPending ∨ key.Status = KeyStatusInvalid then KeyStatusActive
          else key.Status
        else
          if key.Status ≠ KeyStatusInvalid then KeyStatusInvalid
          else key.Status) = validatedStatus key.Status isValid
    unfold validatedStatus
    cases isValid
    · by_cases hs : key.Status = KeyStatusInvalid
      · simp [hs]
      · simp [hs]
    · by_cases hs : key.Status = KeyStatusPending ∨ key.Status = KeyStatusInvalid
      · simp [hs]
      · simp [hs]

theorem validateSingleKey_status_witness :
    (validateSingleKey [invalidKey] 50 invalidKey true none).1.NewStatus
        = validatedStatus invalidKey.Status true ∧
      (validateSingleKey [invalidKey] 50 invalidKey true none).1.OldStatus
        = invalidKey.Status ∧
      ∃ row, (validateSingleKey [invalidKey] 50 invalidKey true none).2.first invalidKey.ID
          = some row ∧
        row.Status = validatedStatus invalidKey.Status true ∧
        row.LastValidatedAt = some 50 :=
  validateSingleKey_status [invalidKey] 50 invalidKey true none (by decide)

/-! ## The policy engine -/

theorem evaluateConditions_eq_all (lib : StdLib) (conditions : List RetryCondition)
    (context : PolicyEvaluationContext) :
    evaluateConditions lib conditions context
      = conditions.all (fun condition => evaluateCondition lib condition context) := by
  unfold evaluateConditions
  cases conditions with
  | nil => rfl
  | cons c cs => simp

theorem find?_sorted_by_key {α : Type} (key : α → Int) (p : α → Bool) :
    ∀ (xs : List α) (x : α), xs.Pairwise (fun a b => key a ≤ key b) →
      xs.find? p = some x → ∀ y ∈ xs, key y < key x → p y = false := by
  intro xs
  induction xs with
  | nil => intro x _ hfind; cases hfind
  | cons a rest ih =>
    intro x hsorted hfind y hy hlt
    rw [List.pairwise_cons] at hsorted
    rw [List.find?_cons] at hfind
    cases hpa : p a with
    | true =>
      rw [hpa] at hfind
      injection hfind with hax
      subst hax
      rcases List.mem_cons.1 hy with hya | hyr
      · subst hya; omega
      · have := hsorted.1 y hyr
        omega
    | false =>
      rw [hpa] at hfind
      rcases List.mem_cons.1 hy with hya | hyr
      · subst hya; exact hpa
      · exact ih x hsorted.2 hfind y hyr hlt

theorem evaluateRetryPolicy_rule (lib : StdLib) (policy : Policy)
    (config : RetryPolicyConfig) (context : PolicyEvaluationContext)
    (hcfg : policy.GetRetryConfig lib = Except.ok config) :
    ∃ result, evaluateRetryPolicy lib policy context = Except.ok result ∧
      (result.Matched = true ↔
        ∃ rule ∈ config.Rules,
          rule.Conditions.all (fun c => evaluateCondition lib c context) = true) ∧
      (result.Matched = true →
        ∃ rule ∈ config.Rules,
          rule.Conditions.all (fun c => evaluateCondition lib c context) = true ∧
          result.RuleName = rule.Name ∧ result.Action = rule.Action ∧
          result.MaxRetries = rule.MaxRetries ∧ result.BackoffMs = rule.BackoffMs ∧
          result.Priority = rule.Priority ∧
          result.Reason = "Matched rule: " ++ rule.Name ∧
          ∀ other ∈ config.Rules, other.Priority < rule.Priority →
            other.Conditions.all (fun c => evaluateCondition lib c context) = false) ∧
      (∀ rule ∈ config.Rules, rule.Conditions = [] → result.Matched = true) := by
  have hperm := lib.sortSlice_perm (fun rule : RetryRule => rule.Priority) config.Rules
  have hsorted := lib.sortSlice_sorted (fun rule : RetryRule => rule.Priority) config.Rules
  unfold evaluateRetryPolicy
  simp only [hcfg]
  cases hfind : (lib.sortSlice (fun rule : RetryRule => rule.Priority) config.Rules).find?
      (fun rule => evaluateConditions lib rule.Conditions context) with
  | none =>
    have hnone : ∀ rule ∈ config.Rules,
        rule.Conditions.all (fun c => evaluateCondition lib c context) = false := by
      intro rule hmem
      have := List.find?_eq_none.1 hfind rule (hperm.mem_iff.2 hmem)
      rw [evaluateConditions_eq_all] at this
      simpa using this
    refine ⟨_, rfl, ⟨fun h => by simp at h, ?_⟩, fun h => by simp at h, ?_⟩
    · rintro ⟨rule, hmem, hall⟩
      rw [hnone rule hmem] at hall
      cases hall
    · intro rule hmem hempty
      have := hnone rule hmem
      rw [hempty] at this
      cases this
  | some rule =>
    have hmem : rule ∈ config.Rules := hperm.mem_iff.1 (List.mem_of_find?_eq_some hfind)
    have hall : rule.Conditions.all (fun c => evaluateCondition lib c context) = true := by
      have := List.find?_some hfind
      rw [evaluateConditions_eq_all] at this
      exact this
    refine ⟨_, rfl, ⟨fun _ => ⟨rule, hmem, hall⟩, fun _ => rfl⟩, fun _ => ?_, fun _ _ _ => rfl⟩
    refine ⟨rule, hmem, hall, rfl, rfl, rfl, rfl, rfl, rfl, ?_⟩
    intro other hother hlt
    have := find?_sorted_by_key (fun rule : RetryRule => rule.Priority)
      (fun rule => evaluateConditions lib rule.Conditions context) _ rule hsorted hfind
      other (hperm.mem_iff.2 hother) hlt
    simpa only [evaluateConditions_eq_all] using this

/-- C14: for every retry policy config and evaluation context,
`evaluateRetryPolicy` returns a matched result if and only if some rule has all
of its conditions true for the context (a rule with no conditions always
matches); when matched, the result is made from a rule of the config whose
conditions all hold, and no rule with strictly lower priority has all its
conditions hold. -/
theorem evaluateRetryPolicy_selects (lib : StdLib) (policy : Policy)
    (config : RetryPolicyConfig) (context : PolicyEvaluationContext)
    (hcfg : policy.GetRetryConfig lib = Except.ok config) :
    ∃ result, evaluateRetryPolicy lib policy context = Except.ok result ∧
      (result.Matched = true ↔
        ∃ rule ∈ config.Rules,
          rule.Conditions.all (fun c => evaluateCondition lib c context) = true) ∧
      (result.Matched = true →
        ∃ rule ∈ config.Rules,
          rule.Conditions.all (fun c => evaluateCondition lib c context) = true ∧
          result.RuleName = rule.Name ∧ result.Action = rule.Action ∧
          result.MaxRetries = rule.MaxRetries ∧ result.BackoffMs = rule.BackoffMs ∧
          result.Priority = rule.Priority ∧
          result.Reason = "Matched rule: " ++ rule.Name ∧
          ∀ other ∈ config.Rules, other.Priority < rule.Priority →
            other.Conditions.all (fun c => evaluateCondition lib c context) = false) ∧
      (∀ rule ∈ config.Rules, rule.Conditions = [] → result.Matched = true) :=
  evaluateRetryPolicy_rule lib policy config context hcfg

theorem evaluateRetryPolicy_selects_witness :
    ∃ result, evaluateRetryPolicy sampleLib samplePolicy sampleContext = Except.ok result ∧
      (result.Matched = true ↔
        ∃ rule ∈ sampleRetryConfig.Rules,
          rule.Conditions.all (fun c => evaluateCondition sampleLib c sampleContext) = true) ∧
      (result.Matched = true →
        ∃ rule ∈ sampleRetryConfig.Rules,
          rule.Conditions.all (fun c => evaluateCondition sampleLib c sampleContext) = true ∧
          result.RuleName = rule.Name ∧ result.Action = rule.Action ∧
          result.MaxRetries = rule.MaxRetries ∧ result.BackoffMs = rule.BackoffMs ∧
          result.Priority = rule.Priority ∧
          result.Reason = "Matched rule: " ++ rule.Name ∧
          ∀ other ∈ sampleRetryConfig.Rules, other.Priority < rule.Priority →
            other.Conditions.all (fun c => evaluateCondition sampleLib c sampleContext)
              = false) ∧
      (∀ rule ∈ sampleRetryConfig.Rules, rule.Conditions = [] → result.Matched = true) :=
  evaluateRetryPolicy_selects sampleLib samplePolicy sampleRetryConfig sampleContext rfl

theorem inactive_guard (a b : Bool) (h : ¬ (a = true ∧ b = true)) : (!a || !b) = true := by
  cases a <;> cases b <;> simp_all

theorem mem_GetGroupPoliciesByType (rows : List GroupPolicy) (groupID : Nat)
    (policyType : String) (policies : List GroupPolicy)
    (h : GetGroupPoliciesByType (Except.ok rows) groupID policyType = Except.ok policies)
    (gp : GroupPolicy) :
    gp ∈ policies ↔ gp ∈ rows ∧ gp.GroupID = groupID ∧ gp.IsActive = true ∧
      gp.Policy.Typ = policyType ∧ gp.Policy.IsActive = true := by
  simp only [GetGroupPoliciesByType] at h
  injection h with h
  subst h
  simp [List.mem_filter, and_assoc]

theorem EvaluateRetryPolicies_loop_spec (lib : StdLib) (context : PolicyEvaluationContext) :
    ∀ policies : List GroupPolicy,
      policies.Pairwise (fun a b => a.Priority ≤ b.Priority) →
      (∀ result, EvaluateRetryPolicies.loop lib context policies = some result →
        ∃ gp ∈ policies, ActiveRetryMatch lib context gp ∧
          (∃ r, evaluateRetryPolicy lib gp.Policy context = Except.ok r ∧ r.Matched = true ∧
            result = { r with Priority := gp.Priority }) ∧
          ∀ gp' ∈ policies, ActiveRetryMatch lib context gp' → gp.Priority ≤ gp'.Priority) ∧
      (EvaluateRetryPolicies.loop lib context policies = none ↔
        ∀ gp ∈ policies, ¬ ActiveRetryMatch lib context gp) := by
  intro policies
  induction policies with
  | nil =>
    intro _
    exact ⟨fun result h => by simp [EvaluateRetryPolicies.loop] at h,
      by simp [EvaluateRetryPolicies.loop]⟩
  | cons gp rest ih =>
    intro hsorted
    rw [List.pairwise_cons] at hsorted
    obtain ⟨ihsome, ihnone⟩ := ih hsorted.2
    by_cases hact : gp.IsActive = true ∧ gp.Policy.IsActive = true
    · cases heval : evaluateRetryPolicy lib gp.Policy context with
      | error e =>
        have hno : ¬ ActiveRetryMatch lib context gp := by
          rintro ⟨_, _, r, hr, _⟩
          rw [heval] at hr
          cases hr
        have hloop : EvaluateRetryPolicies.loop lib context (gp :: rest)
            = EvaluateRetryPolicies.loop lib context rest := by
          simp [EvaluateRetryPolicies.loop, hact.1, hact.2, heval]
        rw [hloop]
        refine ⟨fun result h => ?_, ?_⟩
        · obtain ⟨g, hg, hm, hr, hmin⟩ := ihsome result h
          refine ⟨g, List.mem_cons_of_mem _ hg, hm, hr, fun gp' hgp' hm' => ?_⟩
          rcases List.mem_cons.1 hgp' with heq | hmem
          · subst heq; exact absurd hm' hno
          · exact hmin gp' hmem hm'
        · rw [ihnone]
          constructor
          · intro hall gp' hgp'
            rcases List.mem_cons.1 hgp' with heq | hmem
            · subst heq; exact hno
            · exact hall gp' hmem
          · intro hall gp' hmem
            exact hall gp' (List.mem_cons_of_mem _ hmem)
      | ok r =>
        by_cases hmatched : r.Matched = true
        · have hloop : EvaluateRetryPolicies.loop lib context (gp :: rest)
              = some { r with Priority := gp.Priority } := by
            simp [EvaluateRetryPolicies.loop, hact.1, hact.2, heval, hmatched]
          have hyes : ActiveRetryMatch lib context gp := ⟨hact.1, hact.2, r, heval, hmatched⟩
          rw [hloop]
          refine ⟨fun result h => ?_, ?_⟩
          · injection h with h
            refine ⟨gp, List.mem_cons_self _ _, hyes, ⟨r, heval, hmatched, h.symm⟩,
              fun gp' hgp' _ => ?_⟩
            rcases List.mem_cons.1 hgp' with heq | hmem
            · subst heq; exact le_refl _
            · exact hsorted.1 gp' hmem
          · constructor
            · intro h; cases h
            · intro hall
              exact absurd hyes (hall gp (List.mem_cons_self _ _))
        · have hno : ¬ ActiveRetryMatch lib context gp := by
            rintro ⟨_, _, r', hr', hm'⟩
            rw [heval] at hr'
            injection hr' with hr'
            subst hr'
            exact hmatched hm'
          have hloop : EvaluateRetryPolicies.loop lib context (gp :: rest)
              = EvaluateRetryPolicies.loop lib context rest := by
            simp [EvaluateRetryPolicies.loop, hact.1, hact.2, heval, hmatched]
          rw [hloop]
          refine ⟨fun result h => ?_, ?_⟩
          · obtain ⟨g, hg, hm, hr, hmin⟩ := ihsome result h
            refine ⟨g, List.mem_cons_of_mem _ hg, hm, hr, fun gp' hgp' hm' => ?_⟩
            rcases List.mem_cons.1 hgp' with heq | hmem
            · subst heq; exact absurd hm' hno
            · exact hmin gp' hmem hm'
          · rw [ihnone]
            constructor
            · intro hall gp' hgp'
              rcases List.mem_cons.1 hgp' with heq | hmem
              · subst heq; exact hno
              · exact hall gp' hmem
            · intro hall gp' hmem
              exact hall gp' (List.mem_cons_of_mem _ hmem)
    · have hno : ¬ ActiveRetryMatch lib context gp := fun hm => hact ⟨hm.1, hm.2.1⟩
      have hloop : EvaluateRetryPolicies.loop lib context (gp :: rest)
          = EvaluateRetryPolicies.loop lib context rest := by
        have hor : (!gp.IsActive || !gp.Policy.IsActive) = true :=
          inactive_guard gp.IsActive gp.Policy.IsActive hact
        simp [EvaluateRetryPolicies.loop, hor]
      rw [hloop]
      refine ⟨fun result h => ?_, ?_⟩
      · obtain ⟨g, hg, hm, hr, hmin⟩ := ihsome result h
        refine ⟨g, List.mem_cons_of_mem _ hg, hm, hr, fun gp' hgp' hm' => ?_⟩
        rcases List.mem_cons.1 hgp' with heq | hmem
        · subst heq; exact absurd hm' hno
        · exact hmin gp' hmem hm'
      · rw [ihnone]
        constructor
        · intro hall gp' hgp'
          rcases List.mem_cons.1 hgp' with heq | hmem
          · subst heq; exact hno
          · exact hall gp' hmem
        · intro hall gp' hmem
          exact hall gp' (List.mem_cons_of_mem _ hmem)

/-- C15: for every list of retry policies attached to a group and every
context, `EvaluateRetryPolicies` returns the matched result of an active policy
with the lowest association priority among the active policies that have a
matching rule, with the result's `Priority` set to that association priority;
when no active policy has a matching rule it returns no result (nil, no
error). -/
theorem EvaluateRetryPolicies_lowest_priority (lib : StdLib) (rows : List GroupPolicy)
    (groupID : Nat) (context : PolicyEvaluationContext) :
    (EvaluateRetryPolicies lib (Except.ok rows) groupID context).2 = none ∧
      (∀ result, (EvaluateRetryPolicies lib (Except.ok rows) groupID context).1 = some result →
        ∃ gp ∈ rows, AttachedRetryPolicy groupID gp ∧ ActiveRetryMatch lib context gp ∧
          (∃ r, evaluateRetryPolicy lib gp.Policy context = Except.ok r ∧ r.Matched = true ∧
            result = { r with Priority := gp.Priority }) ∧
          result.Priority = gp.Priority ∧
          ∀ gp' ∈ rows, AttachedRetryPolicy groupID gp' → ActiveRetryMatch lib context gp' →
            gp.Priority ≤ gp'.Priority) ∧
      ((EvaluateRetryPolicies lib (Except.ok rows) groupID context).1 = none ↔
        ∀ gp ∈ rows, AttachedRetryPolicy groupID gp → ¬ ActiveRetryMatch lib context gp) := by
  obtain ⟨policies, hq⟩ : ∃ policies,
      GetGroupPoliciesByType (Except.ok rows) groupID PolicyTypeRetry = Except.ok policies :=
    ⟨_, rfl⟩
  have hmem := mem_GetGroupPoliciesByType rows groupID PolicyTypeRetry policies hq
  have hperm := lib.sortSlice_perm (fun gp : GroupPolicy => gp.Priority) policies
  have hsorted := lib.sortSlice_sorted (fun gp : GroupPolicy => gp.Priority) policies
  obtain ⟨hsome, hnone⟩ := EvaluateRetryPolicies_loop_spec lib context _ hsorted
  have hrun : EvaluateRetryPolicies lib (Except.ok rows) groupID context
      = (EvaluateRetryPolicies.loop lib context
          (lib.sortSlice (fun gp : GroupPolicy => gp.Priority) policies), none) := by
    simp only [EvaluateRetryPolicies, hq]
  rw [hrun]
  refine ⟨rfl, fun result hres => ?_, ?_⟩
  · obtain ⟨gp, hgp, hm, ⟨r, hr, hmatched, hresult⟩, hmin⟩ := hsome result hres
    have hin := (hmem gp).1 (hperm.mem_iff.1 hgp)
    refine ⟨gp, hin.1, ⟨hin.2.1, hin.2.2.2.1⟩, hm, ⟨r, hr, hmatched, hresult⟩, ?_, ?_⟩
    · rw [hresult]
    · intro gp' hgp' hatt hm'
      exact hmin gp' (hperm.mem_iff.2 ((hmem gp').2 ⟨hgp', hatt.1, hm'.1, hatt.2, hm'.2.1⟩)) hm'
  · show EvaluateRetryPolicies.loop lib context _ = none ↔ _
    rw [hnone]
    constructor
    · intro hall gp hgp hatt hm
      exact hall gp (hperm.mem_iff.2 ((hmem gp).2 ⟨hgp, hatt.1, hm.1, hatt.2, hm.2.1⟩)) hm
    · intro hall gp hgp
      have hin := (hmem gp).1 (hperm.mem_iff.1 hgp)
      exact hall gp hin.1 ⟨hin.2.1, hin.2.2.2.1⟩

theorem evaluateModelFilterPolicy_loop_of_match (lib : StdLib)
    (config : ModelFilterPolicyConfig) (model : String) :
    ∀ patterns : List String,
      (∃ pattern ∈ patterns, lib.regexpMatchString pattern model = Except.ok true) →
      evaluateModelFilterPolicy.loop lib config model patterns = (config.Typ == "include") := by
  intro patterns
  induction patterns with
  | nil => rintro ⟨pattern, hmem, _⟩; cases hmem
  | cons p rest ih =>
    rintro ⟨pattern, hmem, hmatch⟩
    cases hp : lib.regexpMatchString p model with
    | error e =>
      simp only [evaluateModelFilterPolicy.loop, hp]
      rcases List.mem_cons.1 hmem with heq | hrest
      · subst heq; rw [hp] at hmatch; cases hmatch
      · exact ih ⟨pattern, hrest, hmatch⟩
    | ok matched =>
      cases matched with
      | true => simp [evaluateModelFilterPolicy.loop, hp]
      | false =>
        simp only [evaluateModelFilterPolicy.loop, hp, Bool.false_eq_true, if_false]
        rcases List.mem_cons.1 hmem with heq | hrest
        · subst heq; rw [hp] at hmatch; cases hmatch
        · exact ih ⟨pattern, hrest, hmatch⟩

theorem evaluateModelFilterPolicy_loop_of_no_match (lib : StdLib)
    (config : ModelFilterPolicyConfig) (model : String) :
    ∀ patterns : List String,
      (∀ pattern ∈ patterns, lib.regexpMatchString pattern model ≠ Except.ok true) →
      evaluateModelFilterPolicy.loop lib config model patterns = (config.Typ != "include") := by
  intro patterns
  induction patterns with
  | nil => intro _; rfl
  | cons p rest ih =>
    intro hall
    have hrest := ih (fun pattern hmem => hall pattern (List.mem_cons_of_mem _ hmem))
    cases hp : lib.regexpMatchString p model with
    | error e => simp only [evaluateModelFilterPolicy.loop, hp]; exact hrest
    | ok matched =>
      cases matched with
      | true => exact absurd hp (hall p (List.mem_cons_self _ _))
      | false =>
        simp only [evaluateModelFilterPolicy.loop, hp, Bool.false_eq_true, if_false]
        exact hrest

/-- C16: for every model filter policy config and model name,
`evaluateModelFilterPolicy` returns `type == "include"` when at least one valid
pattern of the list matches the model, and `type != "include"` when no pattern
matches; so an include-mode policy denies unmatched models and an exclude-mode
policy allows them. -/
theorem evaluateModelFilterPolicy_verdict (lib : StdLib) (policy : Policy)
    (config : ModelFilterPolicyConfig) (model : String)
    (hcfg : policy.GetModelFilterConfig lib = Except.ok config) :
    ((∃ pattern ∈ config.Patterns, lib.regexpMatchString pattern model = Except.ok true) →
        evaluateModelFilterPolicy lib policy model = (config.Typ == "include", none)) ∧
      ((∀ pattern ∈ config.Patterns, lib.regexpMatchString pattern model ≠ Except.ok true) →
        evaluateModelFilterPolicy lib policy model = (config.Typ != "include", none)) ∧
      ((∀ pattern ∈ config.Patterns, lib.regexpMatchString pattern model ≠ Except.ok true) →
        config.Typ = "include" →
        evaluateModelFilterPolicy lib policy model = (false, none)) ∧
      ((∀ pattern ∈ config.Patterns, lib.regexpMatchString pattern model ≠ Except.ok true) →
        config.Typ = "exclude" →
        evaluateModelFilterPolicy lib policy model = (true, none)) := by
  have hrun : evaluateModelFilterPolicy lib policy model
      = (evaluateModelFilterPolicy.loop lib config model config.Patterns, none) := by
    simp only [evaluateModelFilterPolicy, hcfg]
  rw [hrun]
  refine ⟨fun h => ?_, fun h => ?_, fun h hinc => ?_, fun h hexc => ?_⟩
  · rw [evaluateModelFilterPolicy_loop_of_match lib config model _ h]
  · rw [evaluateModelFilterPolicy_loop_of_no_match lib config model _ h]
  · rw [evaluateModelFilterPolicy_loop_of_no_match lib config model _ h, hinc]
    rfl
  · rw [evaluateModelFilterPolicy_loop_of_no_match lib config model _ h, hexc]
    rfl

theorem evaluateModelFilterPolicy_verdict_witness :
    ((∃ pattern ∈ sampleFilterConfig.Patterns,
          sampleLib.regexpMatchString pattern "claude" = Except.ok true) →
        evaluateModelFilterPolicy sampleLib sampleFilterPolicy "claude"
          = (sampleFilterConfig.Typ == "include", none)) ∧
      ((∀ pattern ∈ sampleFilterConfig.Patterns,
          sampleLib.regexpMatchString pattern "claude" ≠ Except.ok true) →
        evaluateModelFilterPolicy sampleLib sampleFilterPolicy "claude"
          = (sampleFilterConfig.Typ != "include", none)) ∧
      ((∀ pattern ∈ sampleFilterConfig.Patterns,
          sampleLib.regexpMatchString pattern "claude" ≠ Except.ok true) →
        sampleFilterConfig.Typ = "include" →
        evaluateModelFilterPolicy sampleLib sampleFilterPolicy "claude" = (false, none)) ∧
      ((∀ pattern ∈ sampleFilterConfig.Patterns,
          sampleLib.regexpMatchString pattern "claude" ≠ Except.ok true) →
        sampleFilterConfig.Typ = "exclude" →
        evaluateModelFilterPolicy sampleLib sampleFilterPolicy "claude" = (true, none)) :=
  evaluateModelFilterPolicy_verdict sampleLib sampleFilterPolicy sampleFilterConfig "claude" rfl

theorem EvaluateModelFilterPolicies_loop_spec (lib : StdLib) (model : String) :
    ∀ policies : List GroupPolicy,
      EvaluateModelFilterPolicies.loop lib model policies = true ↔
        ∀ gp ∈ policies, ¬ ActiveFilterReject lib model gp := by
  intro policies
  induction policies with
  | nil => simp [EvaluateModelFilterPolicies.loop]
  | cons gp rest ih =>
    have hstep : ∀ (hno : ¬ ActiveFilterReject lib model gp),
        ((∀ g ∈ rest, ¬ ActiveFilterReject lib model g) ↔
          ∀ g ∈ gp :: rest, ¬ ActiveFilterReject lib model g) := by
      intro hno
      constructor
      · intro hall g hg
        rcases List.mem_cons.1 hg with heq | hmem
        · subst heq; exact hno
        · exact hall g hmem
      · intro hall g hmem
        exact hall g (List.mem_cons_of_mem _ hmem)
    by_cases hact : gp.IsActive = true ∧ gp.Policy.IsActive = true
    · rcases heval : evaluateModelFilterPolicy lib gp.Policy model with ⟨allowed, err⟩
      cases err with
      | some e =>
        have hno : ¬ ActiveFilterReject lib model gp := by
          rintro ⟨_, _, hr⟩
          rw [heval] at hr
          cases hr
        have hloop : EvaluateModelFilterPolicies.loop lib model (gp :: rest)
            = EvaluateModelFilterPolicies.loop lib model rest := by
          simp [EvaluateModelFilterPolicies.loop, hact.1, hact.2, heval]
        rw [hloop, ih]
        exact hstep hno
      | none =>
        cases allowed with
        | true =>
          have hno : ¬ ActiveFilterReject lib model gp := by
            rintro ⟨_, _, hr⟩
            rw [heval] at hr
            cases hr
          have hloop : EvaluateModelFilterPolicies.loop lib model (gp :: rest)
              = EvaluateModelFilterPolicies.loop lib model rest := by
            simp [EvaluateModelFilterPolicies.loop, hact.1, hact.2, heval]
          rw [hloop, ih]
          exact hstep hno
        | false =>
          have hloop : EvaluateModelFilterPolicies.loop lib model (gp :: rest) = false := by
            simp [EvaluateModelFilterPolicies.loop, hact.1, hact.2, heval]
          rw [hloop]
          constructor
          · intro h; cases h
          · intro hall
            exact absurd ⟨hact.1, hact.2, heval⟩ (hall gp (List.mem_cons_self _ _))
    · have hno : ¬ ActiveFilterReject lib model gp := fun hm => hact ⟨hm.1, hm.2.1⟩
      have hloop : EvaluateModelFilterPolicies.loop lib model (gp :: rest)
          = EvaluateModelFilterPolicies.loop lib model rest := by
        have hor : (!gp.IsActive || !gp.Policy.IsActive) = true :=
          inactive_guard gp.IsActive gp.Policy.IsActive hact
        simp [EvaluateModelFilterPolicies.loop, hor]
      rw [hloop, ih]
      exact hstep hno

/-- C17: for every set of model filter policies attached to a group and every
model name, `EvaluateModelFilterPolicies` returns true, without an error, if
and only if every active, well-formed filter policy allows the model, that is
none of them rejects it; in particular it returns true when the group has no
filter policy and false as soon as one policy rejects. -/
theorem EvaluateModelFilterPolicies_all (lib : StdLib) (rows : List GroupPolicy)
    (groupID : Nat) (model : String) :
    (EvaluateModelFilterPolicies lib (Except.ok rows) groupID model).2 = none ∧
      ((EvaluateModelFilterPolicies lib (Except.ok rows) groupID model).1 = true ↔
        ∀ gp ∈ rows, AttachedFilterPolicy groupID gp → ¬ ActiveFilterReject lib model gp) ∧
      ((∀ gp ∈ rows, ¬ AttachedFilterPolicy groupID gp) →
        (EvaluateModelFilterPolicies lib (Except.ok rows) groupID model).1 = true) ∧
      ((∃ gp ∈ rows, AttachedFilterPolicy groupID gp ∧ ActiveFilterReject lib model gp) →
        (EvaluateModelFilterPolicies lib (Except.ok rows) groupID model).1 = false) := by
  obtain ⟨policies, hq⟩ : ∃ policies,
      GetGroupPoliciesByType (Except.ok rows) groupID PolicyTypeModelFilter
        = Except.ok policies := ⟨_, rfl⟩
  have hmem := mem_GetGroupPoliciesByType rows groupID PolicyTypeModelFilter policies hq
  have hperm := lib.sortSlice_perm (fun gp : GroupPolicy => gp.Priority) policies
  have hrun : EvaluateModelFilterPolicies lib (Except.ok rows) groupID model
      = (EvaluateModelFilterPolicies.loop lib model
          (lib.sortSlice (fun gp : GroupPolicy => gp.Priority) policies), none) := by
    simp only [EvaluateModelFilterPolicies, hq]
  have hiff : (EvaluateModelFilterPolicies lib (Except.ok rows) groupID model).1 = true ↔
      ∀ gp ∈ rows, AttachedFilterPolicy groupID gp → ¬ ActiveFilterReject lib model gp := by
    rw [hrun]
    show EvaluateModelFilterPolicies.loop lib model _ = true ↔ _
    rw [EvaluateModelFilterPolicies_loop_spec]
    constructor
    · intro hall gp hgp hatt hrej
      exact hall gp
        (hperm.mem_iff.2 ((hmem gp).2 ⟨hgp, hatt.1, hrej.1, hatt.2, hrej.2.1⟩)) hrej
    · intro hall gp hgp
      have hin := (hmem gp).1 (hperm.mem_iff.1 hgp)
      exact hall gp hin.1 ⟨hin.2.1, hin.2.2.2.1⟩
  refine ⟨by rw [hrun], hiff, fun hnone => ?_, ?_⟩
  · exact hiff.2 (fun gp hgp hatt => absurd hatt (hnone gp hgp))
  · rintro ⟨gp, hgp, hatt, hrej⟩
    cases hres : (EvaluateModelFilterPolicies lib (Except.ok rows) groupID model).1 with
    | false => rfl
    | true => exact absurd hrej (hiff.1 hres gp hgp hatt)

/-! ## The request executor -/

theorem countAttempts_cons_execute (keyID : Nat) (url : String) (events : List ExecEvent) :
    countAttempts (ExecEvent.executeRequest keyID url :: events) = countAttempts events + 1 := by
  simp [countAttempts]

theorem countAttempts_append (xs ys : List ExecEvent) :
    countAttempts (xs ++ ys) = countAttempts xs + countAttempts ys := by
  simp [countAttempts]

theorem countAttempts_handleRetryableError (ctx : RequestContext) (result : RequestResult) :
    countAttempts (handleRetryableError ctx result) = 0 := by
  simp [countAttempts, handleRetryableError]

theorem countAttempts_handleFinalError (ctx : RequestContext) (result : RequestResult) :
    countAttempts (handleFinalError ctx result) = 0 := by
  unfold handleFinalError
  cases result.Error with
  | none => simp [countAttempts]
  | some err => cases hig : err.IsIgnorable <;> simp [countAttempts, hig]

theorem countAttempts_handleSuccess (ctx : RequestContext) (result : RequestResult) :
    countAttempts (handleSuccess ctx result) = 0 := by
  unfold handleSuccess
  cases result.Response <;> simp [countAttempts]

theorem logTypes_cons_execute (keyID : Nat) (url : String) (events : List ExecEvent) :
    logTypes (ExecEvent.executeRequest keyID url :: events) = logTypes events := by
  simp [logTypes]

theorem logTypes_append (xs ys : List ExecEvent) :
    logTypes (xs ++ ys) = logTypes xs ++ logTypes ys := by
  simp [logTypes]

theorem logTypes_handleRetryableError (ctx : RequestContext) (result : RequestResult) :
    logTypes (handleRetryableError ctx result) = [RequestTypeRetry] := by
  simp [logTypes, handleRetryableError]

theorem logTypes_handleFinalError (ctx : RequestContext) (result : RequestResult) :
    logTypes (handleFinalError ctx result) = [RequestTypeFinal] := by
  unfold handleFinalError
  cases result.Error with
  | none => simp [logTypes]
  | some err => cases hig : err.IsIgnorable <;> simp [logTypes, hig]

theorem logTypes_handleSuccess_no_retry (ctx : RequestContext) (result : RequestResult) :
    RequestTypeRetry ∉ logTypes (handleSuccess ctx result) := by
  unfold handleSuccess
  cases result.Response <;> simp [logTypes, RequestTypeRetry, RequestTypeFinal]

theorem shouldRetry_lt (ctx : RequestContext) (result : RequestResult)
    (h : shouldRetry ctx result = true) :
    ctx.RetryCount < ctx.Group.EffectiveConfig.MaxRetries :=
  ((shouldRetry_lt_iff ctx result).1 h).1

theorem ExecuteWithRetry_retry (upstream : Nat → Attempt) (attempt : Nat)
    (ctx : RequestContext) (apiKey : APIKey) (upstreamURL : String)
    (hkey : (upstream attempt).selectKey = Except.ok apiKey)
    (hurl : (upstream attempt).buildUpstreamURL = Except.ok upstreamURL)
    (hretry : shouldRetry { ctx with APIKey := some apiKey, UpstreamURL := upstreamURL }
      (executeRequest (upstream attempt)) = true) :
    ExecuteWithRetry upstream attempt ctx
      = ExecEvent.executeRequest apiKey.ID upstreamURL
          :: (handleRetryableError { ctx with APIKey := some apiKey, UpstreamURL := upstreamURL }
              (executeRequest (upstream attempt))
            ++ ExecuteWithRetry upstream (attempt + 1)
              { ctx with APIKey := some apiKey, UpstreamURL := upstreamURL,
                         RetryCount := ctx.RetryCount + 1 }) := by
  rw [ExecuteWithRetry]
  simp only [hkey, hurl]
  rw [dif_pos hretry, List.cons_append]

theorem ExecuteWithRetry_no_retry (upstream : Nat → Attempt) (attempt : Nat)
    (ctx : RequestContext) (apiKey : APIKey) (upstreamURL : String)
    (hkey : (upstream attempt).selectKey = Except.ok apiKey)
    (hurl : (upstream attempt).buildUpstreamURL = Except.ok upstreamURL)
    (hretry : ¬ shouldRetry { ctx with APIKey := some apiKey, UpstreamURL := upstreamURL }
      (executeRequest (upstream attempt)) = true) :
    ExecuteWithRetry upstream attempt ctx
      = ExecEvent.executeRequest apiKey.ID upstreamURL
          :: (if (executeRequest (upstream attempt)).Error ≠ none ∨
                (executeRequest (upstream attempt)).StatusCode ≥ 400 then
              handleFinalError { ctx with APIKey := some apiKey, UpstreamURL := upstreamURL }
                (executeRequest (upstream attempt))
            else
              handleSuccess { ctx with APIKey := some apiKey, UpstreamURL := upstreamURL }
                (executeRequest (upstream attempt))) := by
  rw [ExecuteWithRetry]
  simp only [hkey, hurl]
  rw [dif_neg hretry]
  split <;> rfl

theorem countAttempts_ExecuteWithRetry (upstream : Nat → Attempt) :
    ∀ (k attempt : Nat) (ctx : RequestContext),
      (ctx.Group.EffectiveConfig.MaxRetries - ctx.RetryCount).toNat = k →
      countAttempts (ExecuteWithRetry upstream attempt ctx) ≤ k + 1 := by
  intro k
  induction k with
  | zero =>
    intro attempt ctx hk
    cases hkey : (upstream attempt).selectKey with
    | error err =>
      rw [ExecuteWithRetry]
      simp [hkey, countAttempts, handleKeySelectionError]
    | ok apiKey =>
      cases hurl : (upstream attempt).buildUpstreamURL with
      | error err =>
        rw [ExecuteWithRetry]
        simp [hkey, hurl, countAttempts, handleUpstreamURLError]
      | ok upstreamURL =>
        have hno : ¬ shouldRetry { ctx with APIKey := some apiKey, UpstreamURL := upstreamURL }
            (executeRequest (upstream attempt)) = true := by
          intro hretry
          have := shouldRetry_lt _ _ hretry
          simp only at this
          omega
        rw [ExecuteWithRetry_no_retry upstream attempt ctx apiKey upstreamURL hkey hurl hno,
          countAttempts_cons_execute]
        split
        · rw [countAttempts_handleFinalError]
        · rw [countAttempts_handleSuccess]
  | succ k ih =>
    intro attempt ctx hk
    cases hkey : (upstream attempt).selectKey with
    | error err =>
      rw [ExecuteWithRetry]
      simp [hkey, countAttempts, handleKeySelectionError]
    | ok apiKey =>
      cases hurl : (upstream attempt).buildUpstreamURL with
      | error err =>
        rw [ExecuteWithRetry]
        simp [hkey, hurl, countAttempts, handleUpstreamURLError]
      | ok upstreamURL =>
        by_cases hretry : shouldRetry
            { ctx with APIKey := some apiKey, UpstreamURL := upstreamURL }
            (executeRequest (upstream attempt)) = true
        · rw [ExecuteWithRetry_retry upstream attempt ctx apiKey upstreamURL hkey hurl hretry,
            countAttempts_cons_execute, countAttempts_append,
            countAttempts_handleRetryableError]
          have hrec := ih (attempt + 1)
            { ctx with APIKey := some apiKey, UpstreamURL := upstreamURL,
                       RetryCount := ctx.RetryCount + 1 }
            (by simp only; omega)
          omega
        · rw [ExecuteWithRetry_no_retry upstream attempt ctx apiKey upstreamURL hkey hurl
              hretry, countAttempts_cons_execute]
          split
          · rw [countAttempts_handleFinalError]; omega
          · rw [countAttempts_handleSuccess]; omega

theorem logTypes_ExecuteWithRetry_500 (upstream : Nat → Attempt) (h500 : AlwaysStatus500 upstream) :
    ∀ (k attempt : Nat) (ctx : RequestContext),
      (ctx.Group.EffectiveConfig.MaxRetries - ctx.RetryCount).toNat = k →
      logTypes (ExecuteWithRetry upstream attempt ctx)
        = List.replicate k RequestTypeRetry ++ [RequestTypeFinal] := by
  intro k
  induction k with
  | zero =>
    intro attempt ctx hk
    obtain ⟨key, url, body, parsed, hkey, hurl, hnew, hdo⟩ := h500 attempt
    have hres : executeRequest (upstream attempt)
        = { Response := some { StatusCode := 500, BodyClosed := true }, Error := none,
            StatusCode := 500, ErrorBody := body, ParsedError := parsed } := by
      simp [executeRequest, hnew, hdo]
    have hno : ¬ shouldRetry { ctx with APIKey := some key, UpstreamURL := url }
        (executeRequest (upstream attempt)) = true := by
      intro hretry
      have := shouldRetry_lt _ _ hretry
      simp only at this
      omega
    rw [ExecuteWithRetry_no_retry upstream attempt ctx key url hkey hurl hno,
      logTypes_cons_execute, hres]
    simp [logTypes_handleFinalError]
  | succ k ih =>
    intro attempt ctx hk
    obtain ⟨key, url, body, parsed, hkey, hurl, hnew, hdo⟩ := h500 attempt
    have hres : executeRequest (upstream attempt)
        = { Response := some { StatusCode := 500, BodyClosed := true }, Error := none,
            StatusCode := 500, ErrorBody := body, ParsedError := parsed } := by
      simp [executeRequest, hnew, hdo]
    have hretry : shouldRetry { ctx with APIKey := some key, UpstreamURL := url }
        (executeRequest (upstream attempt)) = true := by
      rw [hres, shouldRetry_lt_iff]
      refine ⟨?_, Or.inr ?_, ?_, fun err he => by cases he⟩
      · simp only
        omega
      · show (500 : Int) ≥ 400
        decide
      · show (500 : Int) ≠ 404
        decide
    rw [ExecuteWithRetry_retry upstream attempt ctx key url hkey hurl hretry,
      logTypes_cons_execute, logTypes_append, logTypes_handleRetryableError,
      ih (attempt + 1) _ (by simp only; omega)]
    rfl

theorem ExecuteWithRetry_exhausted (upstream : Nat → Attempt) (attempt : Nat)
    (ctx : RequestContext)
    (hmax : ctx.RetryCount ≥ ctx.Group.EffectiveConfig.MaxRetries) :
    RequestTypeRetry ∉ logTypes (ExecuteWithRetry upstream attempt ctx) := by
  cases hkey : (upstream attempt).selectKey with
  | error err =>
    rw [ExecuteWithRetry]
    simp [hkey, logTypes, handleKeySelectionError, RequestTypeRetry, RequestTypeFinal]
  | ok apiKey =>
    cases hurl : (upstream attempt).buildUpstreamURL with
    | error err =>
      rw [ExecuteWithRetry]
      simp [hkey, hurl, logTypes, handleUpstreamURLError]
    | ok upstreamURL =>
      have hno : ¬ shouldRetry { ctx with APIKey := some apiKey, UpstreamURL := upstreamURL }
          (executeRequest (upstream attempt)) = true := by
        intro hretry
        have := shouldRetry_lt _ _ hretry
        simp only at this
        omega
      rw [ExecuteWithRetry_no_retry upstream attempt ctx apiKey upstreamURL hkey hurl hno,
        logTypes_cons_execute]
      split
      · rw [logTypes_handleFinalError]
        simp [RequestTypeRetry, RequestTypeFinal]
      · exact logTypes_handleSuccess_no_retry _ _

/-- C19: for every group configuration and every sequence of upstream
outcomes, `ExecuteWithRetry` terminates (it is a total function, by recursion
on `maxRetries - retryCount`), and started with `retryCount = 0` it makes at
most `max(maxRetries, 0) + 1` upstream attempts: each retry re-enters with
`retryCount` increased by exactly 1, for the next attempt, and no retry happens
once `retryCount >= maxRetries`; so with `maxRetries = 3` and every attempt
answered with status 500 the log has exactly three entries of type retry
followed by one entry of type final. -/
theorem ExecuteWithRetry_bounded (upstream : Nat → Attempt) (attempt : Nat)
    (ctx : RequestContext) :
    (ctx.RetryCount = 0 →
        countAttempts (ExecuteWithRetry upstream attempt ctx)
          ≤ (max ctx.Group.EffectiveConfig.MaxRetries 0).toNat + 1) ∧
      (∀ (apiKey : APIKey) (upstreamURL : String),
        (upstream attempt).selectKey = Except.ok apiKey →
        (upstream attempt).buildUpstreamURL = Except.ok upstreamURL →
        shouldRetry { ctx with APIKey := some apiKey, UpstreamURL := upstreamURL }
          (executeRequest (upstream attempt)) = true →
        ExecuteWithRetry upstream attempt ctx
            = ExecEvent.executeRequest apiKey.ID upstreamURL
              :: (handleRetryableError
                    { ctx with APIKey := some apiKey, UpstreamURL := upstreamURL }
                    (executeRequest (upstream attempt))
                ++ ExecuteWithRetry upstream (attempt + 1)
                    { ctx with APIKey := some apiKey, UpstreamURL := upstreamURL,
                               RetryCount := ctx.RetryCount + 1 }) ∧
          (-(2 ^ 63) ≤ ctx.RetryCount → ctx.Group.EffectiveConfig.MaxRetries < 2 ^ 63 →
            int64Add ctx.RetryCount 1 = ctx.RetryCount + 1)) ∧
      (ctx.RetryCount ≥ ctx.Group.EffectiveConfig.MaxRetries →
        countAttempts (ExecuteWithRetry upstream attempt ctx) ≤ 1 ∧
          RequestTypeRetry ∉ logTypes (ExecuteWithRetry upstream attempt ctx)) ∧
      (AlwaysStatus500 upstream → ctx.RetryCount = 0 →
        ctx.Group.EffectiveConfig.MaxRetries = 3 →
        logTypes (ExecuteWithRetry upstream attempt ctx)
          = [RequestTypeRetry, RequestTypeRetry, RequestTypeRetry, RequestTypeFinal]) := by
  refine ⟨fun h0 => ?_, fun apiKey upstreamURL hkey hurl hretry => ⟨?_, fun hlo hhi => ?_⟩,
    fun hmax => ⟨?_, ?_⟩, fun h500 h0 h3 => ?_⟩
  · have := countAttempts_ExecuteWithRetry upstream _ attempt ctx rfl
    rw [h0] at this
    have hk : (ctx.Group.EffectiveConfig.MaxRetries - 0).toNat
        = (max ctx.Group.EffectiveConfig.MaxRetries 0).toNat := by
      rcases le_total ctx.Group.EffectiveConfig.MaxRetries 0 with hle | hle
      · rw [max_eq_right hle]; omega
      · rw [max_eq_left hle]; omega
    rw [hk] at this
    exact this
  · exact ExecuteWithRetry_retry upstream attempt ctx apiKey upstreamURL hkey hurl hretry
  · have hlt := shouldRetry_lt _ _ hretry
    simp only at hlt
    exact int64Add_one_of_range _ hlo (by omega)
  · have := countAttempts_ExecuteWithRetry upstream 0 attempt ctx (by omega)
    exact this
  · exact ExecuteWithRetry_exhausted upstream attempt ctx hmax
  · exact logTypes_ExecuteWithRetry_500 upstream h500 3 attempt ctx (by rw [h0, h3]; rfl)

theorem AlwaysStatus500_sampleUpstream500 : AlwaysStatus500 sampleUpstream500 :=
  fun _ => ⟨sampleKey, _, _, _, rfl, rfl, rfl, rfl⟩

theorem ExecuteWithRetry_bounded_witness :
    countAttempts (ExecuteWithRetry sampleUpstream500 0 sampleRequestContext) ≤ 4 ∧
      logTypes (ExecuteWithRetry sampleUpstream500 0 sampleRequestContext)
        = [RequestTypeRetry, RequestTypeRetry, RequestTypeRetry, RequestTypeFinal] :=
  ⟨(ExecuteWithRetry_bounded sampleUpstream500 0 sampleRequestContext).1 rfl,
    (ExecuteWithRetry_bounded sampleUpstream500 0 sampleRequestContext).2.2.2
      AlwaysStatus500_sampleUpstream500 rfl rfl⟩

theorem EvaluateRetryPolicies_lowest_priority_witness :
    (EvaluateRetryPolicies sampleLib (Except.ok sampleGroupPolicies) 1 sampleContext).2 = none ∧
      ((EvaluateRetryPolicies sampleLib (Except.ok sampleGroupPolicies) 1 sampleContext).1 = none ↔
        ∀ gp ∈ sampleGroupPolicies, AttachedRetryPolicy 1 gp →
          ¬ ActiveRetryMatch sampleLib sampleContext gp) :=
  ⟨(EvaluateRetryPolicies_lowest_priority sampleLib sampleGroupPolicies 1 sampleContext).1,
    (EvaluateRetryPolicies_lowest_priority sampleLib sampleGroupPolicies 1 sampleContext).2.2⟩

theorem EvaluateModelFilterPolicies_all_witness :
    (EvaluateModelFilterPolicies sampleLib (Except.ok sampleGroupPolicies) 1 "claude").2 = none ∧
      ((EvaluateModelFilterPolicies sampleLib (Except.ok sampleGroupPolicies) 1 "claude").1 = true ↔
        ∀ gp ∈ sampleGroupPolicies, AttachedFilterPolicy 1 gp →
          ¬ ActiveFilterReject sampleLib "claude" gp) :=
  ⟨(EvaluateModelFilterPolicies_all sampleLib sampleGroupPolicies 1 "claude").1,
    (EvaluateModelFilterPolicies_all sampleLib sampleGroupPolicies 1 "claude").2.1⟩

/-! ## Frame and escalation of `HandleFailure` -/

theorem HandleFailure_other (db db' : DB) (now : Time) (keyID other : Nat)
    (errorMessage : String) (key : APIKey) (h : db.first keyID = some key)
    (hrun : HandleFailure db now keyID errorMessage = Except.ok db') (hne : other ≠ keyID) :
    db'.first other = db.first other := by
  obtain rfl := DB.first_ID h
  simp only [HandleFailure, h] at hrun
  injection hrun with hdb
  subst hdb
  exact DB.first_updates_other db key.ID other _ hne

theorem failureRow_frame (key : APIKey) (now : Time) (errorMessage : String) :
    failureRow key now errorMessage
      = { key with
          Status := (failureRow key now errorMessage).Status
          ConsecutiveFailures := (failureRow key now errorMessage).ConsecutiveFailures
          LastFailureAt := (failureRow key now errorMessage).LastFailureAt
          LastErrorMessage := (failureRow key now errorMessage).LastErrorMessage
          BackoffLevel := (failureRow key now errorMessage).BackoffLevel
          DisabledUntil := (failureRow key now errorMessage).DisabledUntil } := by
  unfold failureRow
  split <;> rfl

/-- C24: for every existing key, `HandleFailure` leaves the key's total
`failureCount` and `requestCount` unchanged: the row it leaves is the old row
except for `consecutiveFailures`, `status`, `lastFailureAt`, `lastErrorMessage`,
`backoffLevel` and `disabledUntil`, of which the last two are written only when
the new status is disabled; the rows of the other keys are as before. -/
theorem HandleFailure_frame (db : DB) (now : Time) (keyID : Nat) (errorMessage : String)
    (key : APIKey) (h : db.first keyID = some key) :
    ∃ db' row, HandleFailure db now keyID errorMessage = Except.ok db' ∧
      db'.first keyID = some row ∧
      row.FailureCount = key.FailureCount ∧
      row.RequestCount = key.RequestCount ∧
      row = { key with
          Status := row.Status
          ConsecutiveFailures := row.ConsecutiveFailures
          LastFailureAt := row.LastFailureAt
          LastErrorMessage := row.LastErrorMessage
          BackoffLevel := row.BackoffLevel
          DisabledUntil := row.DisabledUntil } ∧
      (row.Status ≠ KeyStatusDisabled →
        row.BackoffLevel = key.BackoffLevel ∧ row.DisabledUntil = key.DisabledUntil) ∧
      (∀ other, other ≠ keyID → db'.first other = db.first other) := by
  obtain ⟨db', hrun, hrow⟩ := HandleFailure_first db now keyID errorMessage key h
  refine ⟨db', _, hrun, hrow, ?_, ?_, failureRow_frame key now errorMessage,
    failureRow_of_not_disabled key now errorMessage,
    fun other hne => HandleFailure_other db db' now keyID other errorMessage key h hrun hne⟩
  · unfold failureRow; split <;> rfl
  · unfold failureRow; split <;> rfl

theorem HandleFailure_frame_witness :
    ∃ db' row, HandleFailure [activeKey] 100 1 "boom" = Except.ok db' ∧
      db'.first 1 = some row ∧
      row.FailureCount = activeKey.FailureCount ∧
      row.RequestCount = activeKey.RequestCount ∧
      row = { activeKey with
          Status := row.Status
          ConsecutiveFailures := row.ConsecutiveFailures
          LastFailureAt := row.LastFailureAt
          LastErrorMessage := row.LastErrorMessage
          BackoffLevel := row.BackoffLevel
          DisabledUntil := row.DisabledUntil } ∧
      (row.Status ≠ KeyStatusDisabled →
        row.BackoffLevel = activeKey.BackoffLevel ∧
          row.DisabledUntil = activeKey.DisabledUntil) ∧
      (∀ other, other ≠ 1 → db'.first other = DB.first [activeKey] other) :=
  HandleFailure_frame [activeKey] 100 1 "boom" activeKey (by decide)

theorem CalculateBackoffDuration_le_cap (level : Int) :
    CalculateBackoffDuration level ≤ 30 * Minute := by
  by_cases h0 : level ≤ 0
  · rw [CalculateBackoffDuration_of_nonpos level h0]; decide
  by_cases h5 : 5 ≤ level
  · rw [CalculateBackoffDuration_of_ge_five level h5]
  have h1 : 1 ≤ level := by omega
  have h4 : level ≤ 4 := by omega
  interval_cases level <;> decide

theorem CalculateBackoffDuration_mono (l1 l2 : Int) (h : l1 ≤ l2) :
    CalculateBackoffDuration l1 ≤ CalculateBackoffDuration l2 := by
  by_cases h5 : 5 ≤ l2
  · rw [CalculateBackoffDuration_of_ge_five l2 h5]
    exact CalculateBackoffDuration_le_cap l1
  by_cases h0 : l1 ≤ 0
  · rw [CalculateBackoffDuration_of_nonpos l1 h0]
    by_cases h0' : l2 ≤ 0
    · rw [CalculateBackoffDuration_of_nonpos l2 h0']
    · have h1 : 1 ≤ l2 := by omega
      have h4 : l2 ≤ 4 := by omega
      interval_cases l2 <;> decide
  · have a1 : 1 ≤ l1 := by omega
    have a4 : l1 ≤ 4 := by omega
    have b1 : 1 ≤ l2 := by omega
    have b4 : l2 ≤ 4 := by omega
    interval_cases l1 <;> interval_cases l2 <;> first | omega | decide

theorem failureRow_of_disabled_key (key : APIKey) (now : Time) (errorMessage : String)
    (hs : key.Status = KeyStatusDisabled) :
    (failureRow key now errorMessage).Status = KeyStatusDisabled ∧
      (failureRow key now errorMessage).BackoffLevel = int64Add key.BackoffLevel 1 ∧
      (failureRow key now errorMessage).DisabledUntil
        = some (Time.Add now (CalculateBackoffDuration (int64Add key.BackoffLevel 1))) := by
  have hst : (failureRow key now errorMessage).Status = KeyStatusDisabled := by
    rw [failureRow_Status, hs]
    simp [TransitionState, KeyStatusPending, KeyStatusActive, KeyStatusDegraded,
      KeyStatusDisabled]
  exact ⟨hst, failureRow_of_disabled key now errorMessage hst⟩

theorem runEvents_failures_disabled (keyID : Nat) :
    ∀ (failures : List (Time × String)) (db : DB) (key : APIKey),
      db.first keyID = some key → key.Status = KeyStatusDisabled →
      -(2 ^ 63) ≤ key.BackoffLevel → key.BackoffLevel + failures.length < 2 ^ 63 →
      ∃ row, (runEvents db keyID (failureEvents failures)).first keyID = some row ∧
        row.Status = KeyStatusDisabled ∧
        row.BackoffLevel = key.BackoffLevel + failures.length ∧
        (∀ now msg, failures.getLast? = some (now, msg) →
          row.DisabledUntil = some (Time.Add now
            (CalculateBackoffDuration (key.BackoffLevel + failures.length)))) := by
  intro failures
  induction failures with
  | nil =>
    intro db key h hs _ _
    refine ⟨key, h, hs, by simp, fun now msg hl => by simp at hl⟩
  | cons f rest ih =>
    intro db key h hs hlo hhi
    obtain ⟨now, msg⟩ := f
    have hlen : ((now, msg) :: rest).length = rest.length + 1 := rfl
    rw [hlen] at hhi
    push_cast at hhi
    have hstep := KeyEvent.run_failure_first db keyID now msg key h
    obtain ⟨hst, hlevel, huntil⟩ := failureRow_of_disabled_key key now msg hs
    have hadd : int64Add key.BackoffLevel 1 = key.BackoffLevel + 1 :=
      int64Add_one_of_range _ hlo (by omega)
    rw [hadd] at hlevel huntil
    obtain ⟨row, hrow, hrs, hrl, hru⟩ := ih _ (failureRow key now msg) hstep hst
      (by rw [hlevel]; omega) (by rw [hlevel]; omega)
    refine ⟨row, hrow, hrs, ?_, ?_⟩
    · rw [hrl, hlevel, hlen]; push_cast; omega
    · intro now' msg' hlast
      have hsum : key.BackoffLevel + (((now, msg) :: rest).length : Int)
          = key.BackoffLevel + 1 + (rest.length : Int) := by
        rw [hlen]; push_cast; omega
      rw [hsum]
      cases rest with
      | nil =>
        simp at hlast
        obtain ⟨h1, h2⟩ := hlast
        subst h1
        have hrow' : (runEvents (KeyEvent.run db keyID (KeyEvent.failure now msg)) keyID
            (failureEvents [])).first keyID = some (failureRow key now msg) := hstep
        rw [hrow'] at hrow
        injection hrow with hrow
        subst hrow
        simpa using huntil
      | cons g rest' =>
        have hlast' : (g :: rest').getLast? = some (now', msg') := by
          simpa [List.getLast?_cons_cons] using hlast
        have := hru now' msg' hlast'
        rw [hlevel] at this
        exact this

/-- C29, as the claim states it for every key and any run, fails where the Go
sum wraps around: a disabled key whose level is the largest 64-bit integer
less one is locked out for 30 minutes by a first failure, at the largest
level; a second failure stores the smallest 64-bit integer, which is not the
level plus 1, and locks the key out for 1 minute only. -/
theorem disabled_failures_wrap_counterexample :
    wrappingKey.Status = KeyStatusDisabled ∧
      ((runEvents [wrappingKey] 1 (failureEvents [(200, "a")])).first 1).map
        (fun row => (row.Status, row.BackoffLevel, row.DisabledUntil))
        = some (KeyStatusDisabled, 9223372036854775807, some (200 + 30 * Minute)) ∧
      ((runEvents [wrappingKey] 1 (failureEvents [(200, "a"), (300, "b")])).first 1).map
        (fun row => (row.Status, row.BackoffLevel, row.DisabledUntil))
        = some (KeyStatusDisabled, -9223372036854775808, some (300 + 1 * Minute)) ∧
      (-9223372036854775808 : Int) ≠ 9223372036854775807 + 1 ∧
      CalculateBackoffDuration (-9223372036854775808)
        < CalculateBackoffDuration 9223372036854775807 := by
  decide

/-- C29, amended: for every key whose status is already disabled, each further
`HandleFailure` keeps it disabled, increases `backoffLevel` by exactly 1 and
resets `disabledUntil` to `now + CalculateBackoffDuration(new level)`, so that
after a run of failures the level has grown by the length of the run and the
lockout is the one of the last failure; the lockout duration is non-decreasing
in the level and never exceeds 30 minutes. This holds as long as the levels of
the run are 64-bit integers: the level before the run is at least the smallest
one and the level after it at most the largest one. -/
theorem disabled_failures_escalate (db : DB) (keyID : Nat) (key : APIKey)
    (failures : List (Time × String))
    (h : db.first keyID = some key) (hs : key.Status = KeyStatusDisabled)
    (hlo : -(2 ^ 63) ≤ key.BackoffLevel)
    (hhi : key.BackoffLevel + failures.length < 2 ^ 63) :
    (∃ row, (runEvents db keyID (failureEvents failures)).first keyID = some row ∧
        row.Status = KeyStatusDisabled ∧
        row.BackoffLevel = key.BackoffLevel + failures.length ∧
        (∀ now msg, failures.getLast? = some (now, msg) →
          row.DisabledUntil = some (Time.Add now
            (CalculateBackoffDuration (key.BackoffLevel + failures.length))))) ∧
      (∀ l1 l2 : Int, l1 ≤ l2 → CalculateBackoffDuration l1 ≤ CalculateBackoffDuration l2) ∧
      (∀ level : Int, CalculateBackoffDuration level ≤ 30 * Minute) :=
  ⟨runEvents_failures_disabled keyID failures db key h hs hlo hhi,
    CalculateBackoffDuration_mono, CalculateBackoffDuration_le_cap⟩

theorem disabled_failures_escalate_witness :
    (∃ row, (runEvents [disabledKey] 1
          (failureEvents [(200, "a"), (300, "b")])).first 1 = some row ∧
        row.Status = KeyStatusDisabled ∧
        row.BackoffLevel = disabledKey.BackoffLevel + [((200 : Time), "a"), (300, "b")].length ∧
        (∀ now msg, [((200 : Time), "a"), (300, "b")].getLast? = some (now, msg) →
          row.DisabledUntil = some (Time.Add now
            (CalculateBackoffDuration
              (disabledKey.BackoffLevel + [((200 : Time), "a"), (300, "b")].length))))) ∧
      (∀ l1 l2 : Int, l1 ≤ l2 → CalculateBackoffDuration l1 ≤ CalculateBackoffDuration l2) ∧
      (∀ level : Int, CalculateBackoffDuration level ≤ 30 * Minute) :=
  disabled_failures_escalate [disabledKey] 1 disabledKey [(200, "a"), (300, "b")]
    (by decide) (by decide) (by decide) (by decide)

/-! ## The context of the failure path -/

theorem strconvItoa_zero : strconvItoa 0 = "0" := by decide

theorem evaluateCondition_authStatus_zero (lib : StdLib) (value : String)
    (context : PolicyEvaluationContext) (h0 : context.StatusCode = 0) :
    evaluateCondition lib (authStatusCondition value) context = false := by
  simp [evaluateCondition, authStatusCondition, h0, strconvItoa_zero]

/-- C28: for every apiKey, group and error message, the evaluation context
that `HandleKeyFailure` passes to `EvaluateRetryPolicies` has `StatusCode = 0`,
`Model = ""` and `ErrorType = ""`; only `errorMessage`, `keyId`, `groupId`,
`failureCount` and `requestCount` are filled. Hence a retry rule whose only
condition is `status_code in {"401", "403"}` never matches on this path,
whatever status the upstream returned. -/
theorem HandleKeyFailure_context_has_no_status (lib : StdLib) (apiKey : APIKey)
    (group : Group) (errorMessage : String) :
    (∀ engine1 engine2 : Nat → PolicyEvaluationContext →
        Option PolicyEvaluationResult × Option String,
      engine1 group.ID (HandleKeyFailure.context apiKey group errorMessage)
        = engine2 group.ID (HandleKeyFailure.context apiKey group errorMessage) →
      HandleKeyFailure engine1 apiKey group errorMessage
        = HandleKeyFailure engine2 apiKey group errorMessage) ∧
      HandleKeyFailure.context apiKey group errorMessage
        = { GroupID := group.ID, KeyID := apiKey.ID, Model := "", StatusCode := 0,
            ErrorMessage := errorMessage, ErrorType := "",
            FailureCount := apiKey.FailureCount, RequestCount := apiKey.RequestCount } ∧
      (∀ value : String,
        evaluateCondition lib (authStatusCondition value)
          (HandleKeyFailure.context apiKey group errorMessage) = false) ∧
      (∀ (rule : RetryRule) (value : String), rule.Conditions = [authStatusCondition value] →
        evaluateConditions lib rule.Conditions
          (HandleKeyFailure.context apiKey group errorMessage) = false) := by
  refine ⟨fun engine1 engine2 hagree => ?_, rfl, fun value => ?_, fun rule value hrule => ?_⟩
  · simp only [HandleKeyFailure, hagree]
  · exact evaluateCondition_authStatus_zero lib value _ rfl
  · rw [hrule, evaluateConditions_eq_all]
    have hc := evaluateCondition_authStatus_zero lib value
      (HandleKeyFailure.context apiKey group errorMessage) rfl
    simp [hc]

/-! ## The validation request -/

/-- C21, as the claim states it, fails for the boolean field: a request that
leaves every field at its zero value gets `ExcludeRecentlyValidated = false`,
not the default true, since `toConfig` copies the field of the request
unconditionally. -/
theorem toConfig_zero_request_counterexample :
    zeroValidateGroupRequest.ExcludeRecentlyValidated = false ∧
      DefaultIncrementalValidationConfig.ExcludeRecentlyValidated = true ∧
      zeroValidateGroupRequest.toConfig.ExcludeRecentlyValidated = false := by
  decide

theorem int64Mul_Hour_of_range (hours : Int) (h0 : 0 < hours) (h1 : hours ≤ 168) :
    int64Mul hours Hour = hours * Hour := by
  unfold int64Mul
  apply wrapInt64_of_range
  · have : (0 : Int) ≤ hours * Hour := by
      have hh : (0 : Int) < Hour := by decide
      positivity
    omega
  · have hh : Hour = 3600000000000 := by decide
    rw [hh]
    omega

/-- C21, amended: for every `ValidateGroupRequest`, `toConfig` yields a config
in which each of the fields time window, include states, recent window,
concurrency and batch size takes the documented default (24h, [pending,
invalid], 1h, 5, 100) when the request leaves it at its zero value and the
request's value when the request sets it to a positive / non-empty value;
exclude-recently-validated is always the value of the request, false when the
request leaves it out. -/
theorem toConfig_fields (r : ValidateGroupRequest) :
    r.toConfig.TimeWindow
        = (if r.TimeWindowHours > 0 then int64Mul r.TimeWindowHours Hour else 24 * Hour) ∧
      r.toConfig.IncludeStates
        = (if r.IncludeStates ≠ [] then r.IncludeStates
            else [KeyStatusPending, KeyStatusInvalid]) ∧
      r.toConfig.ExcludeRecentlyValidated = r.ExcludeRecentlyValidated ∧
      r.toConfig.RecentValidationWindow
        = (if r.RecentValidationHours > 0 then int64Mul r.RecentValidationHours Hour
            else 1 * Hour) ∧
      r.toConfig.Concurrency = (if r.Concurrency > 0 then r.Concurrency else 5) ∧
      r.toConfig.BatchSize = (if r.BatchSize > 0 then r.BatchSize else 100) ∧
      (0 < r.TimeWindowHours ∧ r.TimeWindowHours ≤ 168 →
        r.toConfig.TimeWindow = r.TimeWindowHours * Hour) ∧
      (0 < r.RecentValidationHours ∧ r.RecentValidationHours ≤ 24 →
        r.toConfig.RecentValidationWindow = r.RecentValidationHours * Hour) := by
  have hlen : r.IncludeStates.length > 0 ↔ r.IncludeStates ≠ [] := by
    cases r.IncludeStates <;> simp
  have e1 : r.toConfig.TimeWindow
      = (if r.TimeWindowHours > 0 then int64Mul r.TimeWindowHours Hour else 24 * Hour) := by
    unfold ValidateGroupRequest.toConfig
    by_cases h1 : r.TimeWindowHours > 0 <;> by_cases h2 : r.IncludeStates.length > 0 <;>
      by_cases h3 : r.RecentValidationHours > 0 <;> by_cases h4 : r.Concurrency > 0 <;>
      by_cases h5 : r.BatchSize > 0 <;>
      simp [h1, h2, h3, h4, h5, DefaultIncrementalValidationConfig]
  have e4 : r.toConfig.RecentValidationWindow
      = (if r.RecentValidationHours > 0 then int64Mul r.RecentValidationHours Hour
          else 1 * Hour) := by
    unfold ValidateGroupRequest.toConfig
    by_cases h1 : r.TimeWindowHours > 0 <;> by_cases h2 : r.IncludeStates.length > 0 <;>
      by_cases h3 : r.RecentValidationHours > 0 <;> by_cases h4 : r.Concurrency > 0 <;>
      by_cases h5 : r.BatchSize > 0 <;>
      simp [h1, h2, h3, h4, h5, DefaultIncrementalValidationConfig]
  refine ⟨e1, ?_, ?_, e4, ?_, ?_, fun hr => ?_, fun hr => ?_⟩
  · unfold ValidateGroupRequest.toConfig
    by_cases h1 : r.TimeWindowHours > 0 <;> by_cases h2 : r.IncludeStates.length > 0 <;>
      by_cases h3 : r.RecentValidationHours > 0 <;> by_cases h4 : r.Concurrency > 0 <;>
      by_cases h5 : r.BatchSize > 0 <;>
      simp [h1, h2, h3, h4, h5, DefaultIncrementalValidationConfig, hlen.1, hlen.2] <;>
      simp_all
  · unfold ValidateGroupRequest.toConfig
    by_cases h1 : r.TimeWindowHours > 0 <;> by_cases h2 : r.IncludeStates.length > 0 <;>
      by_cases h3 : r.RecentValidationHours > 0 <;> by_cases h4 : r.Concurrency > 0 <;>
      by_cases h5 : r.BatchSize > 0 <;>
      simp [h1, h2, h3, h4, h5, DefaultIncrementalValidationConfig]
  · unfold ValidateGroupRequest.toConfig
    by_cases h1 : r.TimeWindowHours > 0 <;> by_cases h2 : r.IncludeStates.length > 0 <;>
      by_cases h3 : r.RecentValidationHours > 0 <;> by_cases h4 : r.Concurrency > 0 <;>
      by_cases h5 : r.BatchSize > 0 <;>
      simp [h1, h2, h3, h4, h5, DefaultIncrementalValidationConfig]
  · unfold ValidateGroupRequest.toConfig
    by_cases h1 : r.TimeWindowHours > 0 <;> by_cases h2 : r.IncludeStates.length > 0 <;>
      by_cases h3 : r.RecentValidationHours > 0 <;> by_cases h4 : r.Concurrency > 0 <;>
      by_cases h5 : r.BatchSize > 0 <;>
      simp [h1, h2, h3, h4, h5, DefaultIncrementalValidationConfig]
  · rw [e1, if_pos hr.1, int64Mul_Hour_of_range _ hr.1 hr.2]
  · rw [e4, if_pos hr.1, int64Mul_Hour_of_range _ hr.1 (by omega)]

/-! ## The headers of the upstream request -/

theorem Header.Values_Del_self (h : Header) (key : String) :
    (h.Del key).Values key = none := by
  unfold Header.Values Header.Del
  rw [Option.map_eq_none', List.find?_eq_none]
  intro entry hmem
  have := (List.mem_filter.1 hmem).2
  simpa using this

theorem Header.Values_Del_other (h : Header) (key other : String) (hne : other ≠ key) :
    (h.Del key).Values other = h.Values other := by
  unfold Header.Values Header.Del
  congr 1
  induction h with
  | nil => rfl
  | cons entry rest ih =>
    by_cases hk : entry.1 = key
    · have hother : (entry.1 == other) = false := by
        simp only [beq_eq_false_iff_ne, ne_eq]
        intro heq
        exact hne (heq ▸ hk)
      have hfilter : List.filter (fun e : String × List String => e.1 != key) (entry :: rest)
          = List.filter (fun e : String × List String => e.1 != key) rest := by
        simp [List.filter_cons, hk]
      rw [hfilter, List.find?_cons, hother]
      exact ih
    · simp only [List.filter_cons, bne_iff_ne, ne_eq, hk, not_false_eq_true, if_true,
        List.find?_cons]
      cases hb : (entry.1 == other)
      · exact ih
      · rfl

/-- C23: for every header map of a client request, after `cleanAuthHeaders`
the upstream request carries no `Authorization`, `X-Api-Key` or
`X-Goog-Api-Key` header, and every other header keeps exactly the values it
had, in the order it had among the others. -/
theorem cleanAuthHeaders_strips (h : Header) :
    (cleanAuthHeaders h).Values "Authorization" = none ∧
      (cleanAuthHeaders h).Values "X-Api-Key" = none ∧
      (cleanAuthHeaders h).Values "X-Goog-Api-Key" = none ∧
      (∀ key : String, key ∉ ["Authorization", "X-Api-Key", "X-Goog-Api-Key"] →
        (cleanAuthHeaders h).Values key = h.Values key) ∧
      cleanAuthHeaders h
        = h.filter (fun entry =>
            decide (entry.1 ∉ ["Authorization", "X-Api-Key", "X-Goog-Api-Key"])) := by
  refine ⟨?_, ?_, ?_, fun key hkey => ?_, ?_⟩
  · unfold cleanAuthHeaders
    rw [Header.Values_Del_other _ _ _ (by decide), Header.Values_Del_other _ _ _ (by decide),
      Header.Values_Del_self]
  · unfold cleanAuthHeaders
    rw [Header.Values_Del_other _ _ _ (by decide), Header.Values_Del_self]
  · unfold cleanAuthHeaders
    rw [Header.Values_Del_self]
  · have h1 : key ≠ "Authorization" := fun he => hkey (by simp [he])
    have h2 : key ≠ "X-Api-Key" := fun he => hkey (by simp [he])
    have h3 : key ≠ "X-Goog-Api-Key" := fun he => hkey (by simp [he])
    unfold cleanAuthHeaders
    rw [Header.Values_Del_other _ _ _ h3, Header.Values_Del_other _ _ _ h2,
      Header.Values_Del_other _ _ _ h1]
  · unfold cleanAuthHeaders Header.Del
    rw [List.filter_filter, List.filter_filter]
    congr 1
    funext entry
    by_cases a1 : entry.1 = "Authorization" <;> by_cases a2 : entry.1 = "X-Api-Key" <;>
      by_cases a3 : entry.1 = "X-Goog-Api-Key" <;> simp [a1, a2, a3]

/-! ## Contexts and bodies (`buildHTTPRequest`, `executeRequest`) -/

theorem buildHTTPRequest_context_cancelled (client : ClientRequest) (hooks : RequestHooks)
    (ctx : RequestContext) :
    ∃ req, buildHTTPRequest client hooks none ctx = Except.ok req ∧
      req.Context.Cancelled = true := by
  simp only [buildHTTPRequest]
  split <;> exact ⟨_, rfl, rfl⟩

/-- C26 fails on the code: for a streaming request of a client whose own
context is live, the request `buildHTTPRequest` returns carries a context that
is already cancelled, by the deferred `cancel()` of `buildHTTPRequest` itself. -/
theorem buildHTTPRequest_stream_cancelled :
    sampleStreamContext.IsStream = true ∧
      sampleClientRequest.Context.Cancelled = false ∧
      (createRequestContext sampleClientRequest sampleStreamContext).Cancelled = false ∧
      (createRequestContext sampleClientRequest sampleStreamContext).Timeout = none ∧
      (match buildHTTPRequest sampleClientRequest sampleHooks none sampleStreamContext with
        | Except.ok req => req.Context.Cancelled
        | Except.error _ => false) = true := by
  decide

theorem executeRequest_body_closed (attempt : Attempt) (statusCode : Int)
    (errorBody parsedError : String)
    (hnew : attempt.newRequest = none)
    (hdo : attempt.clientDo = DoOutcome.response statusCode errorBody parsedError) :
    (executeRequest attempt).Response
      = some { StatusCode := statusCode, BodyClosed := true } := by
  unfold executeRequest
  simp only [hnew, hdo]
  split <;> rfl

/-- C27 fails on the code: for an attempt the upstream answers with status 200,
the response `executeRequest` returns has its body closed already, by the
deferred `resp.Body.Close()` of `executeRequest`, and that is the body
`handleSuccess` streams or buffers to the client. -/
theorem handleSuccess_body_closed :
    (executeRequest sampleAttempt200).StatusCode = 200 ∧
      (executeRequest sampleAttempt200).Error = none ∧
      (executeRequest sampleAttempt200).Response
        = some { StatusCode := 200, BodyClosed := true } ∧
      handleSuccess sampleStreamContext (executeRequest sampleAttempt200)
        = [ExecEvent.respondSuccess 200 true true,
           ExecEvent.logRequest (some 1) 200 none RequestTypeFinal] := by
  decide

/-! ## The default policies -/

theorem evaluateDegradationPolicy_rule (lib : StdLib) (policy : Policy)
    (config : DegradationPolicyConfig) (context : PolicyEvaluationContext)
    (hcfg : policy.GetDegradationConfig lib = Except.ok config) :
    ∃ result, evaluateDegradationPolicy lib policy context = Except.ok result ∧
      (result.Matched = true ↔
        ∃ rule ∈ config.Rules,
          rule.Conditions.all (fun c => evaluateCondition lib c context) = true) ∧
      (result.Matched = true →
        ∃ rule ∈ config.Rules,
          rule.Conditions.all (fun c => evaluateCondition lib c context) = true ∧
          result.RuleName = rule.Name ∧ result.Action = rule.Action ∧
          result.Duration = rule.Duration ∧ result.Priority = rule.Priority ∧
          ∀ other ∈ config.Rules, other.Priority < rule.Priority →
            other.Conditions.all (fun c => evaluateCondition lib c context) = false) := by
  have hperm := lib.sortSlice_perm (fun rule : DegradationRule => rule.Priority) config.Rules
  have hsorted := lib.sortSlice_sorted (fun rule : DegradationRule => rule.Priority) config.Rules
  unfold evaluateDegradationPolicy
  simp only [hcfg]
  cases hfind : (lib.sortSlice (fun rule : DegradationRule => rule.Priority) config.Rules).find?
      (fun rule => evaluateConditions lib rule.Conditions context) with
  | none =>
    have hnone : ∀ rule ∈ config.Rules,
        rule.Conditions.all (fun c => evaluateCondition lib c context) = false := by
      intro rule hmem
      have := List.find?_eq_none.1 hfind rule (hperm.mem_iff.2 hmem)
      rw [evaluateConditions_eq_all] at this
      simpa using this
    refine ⟨_, rfl, ⟨fun h => by simp at h, ?_⟩, fun h => by simp at h⟩
    rintro ⟨rule, hmem, hall⟩
    rw [hnone rule hmem] at hall
    cases hall
  | some rule =>
    have hmem : rule ∈ config.Rules := hperm.mem_iff.1 (List.mem_of_find?_eq_some hfind)
    have hall : rule.Conditions.all (fun c => evaluateCondition lib c context) = true := by
      have := List.find?_some hfind
      rw [evaluateConditions_eq_all] at this
      exact this
    refine ⟨_, rfl, ⟨fun _ => ⟨rule, hmem, hall⟩, fun _ => rfl⟩, fun _ => ?_⟩
    refine ⟨rule, hmem, hall, rfl, rfl, rfl, rfl, ?_⟩
    intro other hother hlt
    have := find?_sorted_by_key (fun rule : DegradationRule => rule.Priority)
      (fun rule => evaluateConditions lib rule.Conditions context) _ rule hsorted hfind
      other (hperm.mem_iff.2 hother) hlt
    simpa only [evaluateConditions_eq_all] using this

theorem strconvItoa_401 : strconvItoa 401 = "401" := by decide

theorem strconvItoa_403 : strconvItoa 403 = "403" := by decide

theorem evaluateCondition_messageContains (lib : StdLib) (phrase : String)
    (context : PolicyEvaluationContext) :
    evaluateCondition lib (messageContains phrase) context
      = stringsContains context.ErrorMessage phrase := by
  simp [evaluateCondition, messageContains]

theorem evaluateCondition_statusCodeIn (lib : StdLib) (codes : List String)
    (context : PolicyEvaluationContext) :
    evaluateCondition lib (statusCodeIn codes) context
      = codes.any (fun value => strconvItoa context.StatusCode == value) := by
  simp [evaluateCondition, statusCodeIn]

/-- C22, counterexample: a 401 whose message is "Unauthorized" matches no rule
of the default retry policy, whose rules test the error message only. -/
theorem default_retry_policy_counterexample :
    unauthorizedContext.StatusCode = 401 ∧
      ∃ result,
        evaluateRetryPolicy sampleLib (CreateDefaultPolicies.retryPolicy sampleLib)
          unauthorizedContext = Except.ok result ∧
        result.Matched = false ∧ result.Action = "" := by
  refine ⟨rfl, _, rfl, ?_⟩
  decide

/-- C22, amended: for every failure context whose status code is 401 or 403,
the default degradation policy of `CreateDefaultPolicies` evaluates to a
matched result whose action is invalidate. The default retry policy tests the
error message only: it gives a matched result exactly when the message
contains "rate limit", "invalid api key" or "insufficient quota", and a
matched result whose action is invalidate exactly when the message contains
"invalid api key" and not "rate limit". The JSON encoding of the two default
configurations is taken to decode to them. -/
theorem default_policies_on_auth_status (lib : StdLib) (context : PolicyEvaluationContext)
    (hretry : lib.jsonUnmarshalRetry (lib.jsonMarshalRetry CreateDefaultPolicies.retryConfig)
      = Except.ok CreateDefaultPolicies.retryConfig)
    (hdegradation :
      lib.jsonUnmarshalDegradation
          (lib.jsonMarshalDegradation CreateDefaultPolicies.degradationConfig)
        = Except.ok CreateDefaultPolicies.degradationConfig)
    (hstatus : context.StatusCode = 401 ∨ context.StatusCode = 403) :
    (∃ result,
        evaluateDegradationPolicy lib (CreateDefaultPolicies.degradationPolicy lib) context
          = Except.ok result ∧
        result.Matched = true ∧ result.Action = RetryActionInvalidate ∧
        result.RuleName = "Invalidate on Auth Errors") ∧
    (∃ result,
        evaluateRetryPolicy lib (CreateDefaultPolicies.retryPolicy lib) context
          = Except.ok result ∧
        (result.Matched = true ↔
          stringsContains context.ErrorMessage "rate limit" = true ∨
          stringsContains context.ErrorMessage "invalid api key" = true ∨
          stringsContains context.ErrorMessage "insufficient quota" = true) ∧
        (result.Matched = true ∧ result.Action = RetryActionInvalidate ↔
          stringsContains context.ErrorMessage "invalid api key" = true ∧
          stringsContains context.ErrorMessage "rate limit" = false)) := by
  constructor
  · have hcfg : (CreateDefaultPolicies.degradationPolicy lib).GetDegradationConfig lib
        = Except.ok CreateDefaultPolicies.degradationConfig := by
      simp [Policy.GetDegradationConfig, CreateDefaultPolicies.degradationPolicy, hdegradation]
    obtain ⟨result, hres, hiff, hsel⟩ :=
      evaluateDegradationPolicy_rule lib _ _ context hcfg
    have hauth : evaluateCondition lib (statusCodeIn ["401", "403"]) context = true := by
      rw [evaluateCondition_statusCodeIn]
      rcases hstatus with h | h <;> rw [h]
      · rw [strconvItoa_401]; decide
      · rw [strconvItoa_403]; decide
    have hcritical :
        evaluateCondition lib (statusCodeIn ["500", "502", "503", "504"]) context = false := by
      rw [evaluateCondition_statusCodeIn]
      rcases hstatus with h | h <;> rw [h]
      · rw [strconvItoa_401]; decide
      · rw [strconvItoa_403]; decide
    have hmatched : result.Matched = true := by
      rw [hiff]
      simp [CreateDefaultPolicies.degradationConfig, hauth]
    refine ⟨result, hres, hmatched, ?_⟩
    obtain ⟨rule, hmem, hall, hname, haction, -, -, -⟩ := hsel hmatched
    simp only [CreateDefaultPolicies.degradationConfig, List.mem_cons, List.mem_singleton,
      List.not_mem_nil, or_false] at hmem
    rcases hmem with rfl | rfl
    · simp [hcritical] at hall
    · exact ⟨haction, hname⟩
  · have hcfg : (CreateDefaultPolicies.retryPolicy lib).GetRetryConfig lib
        = Except.ok CreateDefaultPolicies.retryConfig := by
      simp [Policy.GetRetryConfig, CreateDefaultPolicies.retryPolicy, hretry]
    obtain ⟨result, hres, hiff, hsel, -⟩ :=
      evaluateRetryPolicy_rule lib _ _ context hcfg
    refine ⟨result, hres, ?_, ?_⟩
    · rw [hiff]
      simp [CreateDefaultPolicies.retryConfig, evaluateCondition_messageContains]
    · constructor
      · rintro ⟨hmatched, hact⟩
        obtain ⟨rule, hmem, hall, -, haction, -, -, -, -, hlow⟩ := hsel hmatched
        simp only [CreateDefaultPolicies.retryConfig, List.mem_cons, List.mem_singleton,
          List.not_mem_nil, or_false] at hmem
        rcases hmem with rfl | rfl | rfl
        · rw [hact] at haction; exact absurd haction (by decide)
        · have h1 := hlow _ (List.mem_cons_self _ _) (by decide)
          simp [evaluateCondition_messageContains] at hall h1
          exact ⟨hall, h1⟩
        · rw [hact] at haction; exact absurd haction (by decide)
      · rintro ⟨hinv, hrate⟩
        have hmatched : result.Matched = true := by
          rw [hiff]
          simp [CreateDefaultPolicies.retryConfig, evaluateCondition_messageContains, hinv]
        refine ⟨hmatched, ?_⟩
        obtain ⟨rule, hmem, hall, -, haction, -, -, -, -, hlow⟩ := hsel hmatched
        simp only [CreateDefaultPolicies.retryConfig, List.mem_cons, List.mem_singleton,
          List.not_mem_nil, or_false] at hmem
        rcases hmem with rfl | rfl | rfl
        · simp [evaluateCondition_messageContains, hrate] at hall
        · exact haction
        · have h2 := hlow
            { Name := "Handle Invalid Key Errors"
              Priority := 2
              Conditions := [messageContains "invalid api key"]
              Action := RetryActionInvalidate
              MaxRetries := 0
              BackoffMs := 0 }
            (by simp [CreateDefaultPolicies.retryConfig]) (by decide)
          simp [evaluateCondition_messageContains, hinv] at h2

theorem default_policies_on_auth_status_witness :
    (∃ result,
        evaluateDegradationPolicy sampleLib (CreateDefaultPolicies.degradationPolicy sampleLib)
          unauthorizedContext = Except.ok result ∧
        result.Matched = true ∧ result.Action = RetryActionInvalidate ∧
        result.RuleName = "Invalidate on Auth Errors") ∧
    (∃ result,
        evaluateRetryPolicy sampleLib (CreateDefaultPolicies.retryPolicy sampleLib)
          unauthorizedContext = Except.ok result ∧
        (result.Matched = true ↔
          stringsContains unauthorizedContext.ErrorMessage "rate limit" = true ∨
          stringsContains unauthorizedContext.ErrorMessage "invalid api key" = true ∨
          stringsContains unauthorizedContext.ErrorMessage "insufficient quota" = true) ∧
        (result.Matched = true ∧ result.Action = RetryActionInvalidate ↔
          stringsContains unauthorizedContext.ErrorMessage "invalid api key" = true ∧
          stringsContains unauthorizedContext.ErrorMessage "rate limit" = false)) :=
  default_policies_on_auth_status sampleLib unauthorizedContext (by rfl) (by rfl)
    (Or.inl (by rfl))

/-! ## Numeric conditions -/

theorem decimalDigit_digitChar (d : Nat) (h : d < 10) :
    decimalDigit (Nat.digitChar d) = some d := by
  interval_cases d <;> decide

theorem parseDigits_toDigitsCore :
    ∀ (fuel n : Nat) (ds : List Char), n < fuel →
      parseDigits (Nat.toDigitsCore 10 fuel n ds) 0 = parseDigits ds n := by
  intro fuel
  induction fuel with
  | zero => intro n ds h; omega
  | succ fuel ih =>
    intro n ds h
    have hd : decimalDigit (Nat.digitChar (n % 10)) = some (n % 10) :=
      decimalDigit_digitChar _ (Nat.mod_lt _ (by decide))
    unfold Nat.toDigitsCore
    simp only
    split
    · next h0 =>
      have hn : n % 10 = n := by omega
      rw [hn] at hd
      simp only [parseDigits, hn, hd, Nat.mul_zero, Nat.zero_add]
    · next h0 =>
      rw [ih (n / 10) _ (by omega)]
      simp only [parseDigits, hd]
      congr 1
      omega

theorem parseDigits_repr (n : Nat) : parseDigits (Nat.repr n).data 0 = some n := by
  show parseDigits (Nat.toDigitsCore 10 (n + 1) n []) 0 = some n
  rw [parseDigits_toDigitsCore _ _ _ (Nat.lt_succ_self n)]
  rfl

theorem decimalDigit_ne_sign (c : Char) (d : Nat) (h : decimalDigit c = some d) :
    c ≠ '-' ∧ c ≠ '+' := by
  have hminus : decimalDigit '-' = none := by decide
  have hplus : decimalDigit '+' = none := by decide
  constructor
  · rintro rfl
    rw [hminus] at h
    cases h
  · rintro rfl
    rw [hplus] at h
    cases h

theorem parseIntegerLiteral_repr (n : Nat) :
    parseIntegerLiteral (Nat.repr n) = some (n : Int) := by
  have hparse := parseDigits_repr n
  unfold parseIntegerLiteral
  cases hdata : (Nat.repr n).data with
  | nil =>
    rw [hdata] at hparse
    have h0 : n = 0 := by
      simp [parseDigits] at hparse
      omega
    subst h0
    exact absurd hdata (by decide)
  | cons c cs =>
    rw [hdata] at hparse
    have hc : ∃ d, decimalDigit c = some d := by
      unfold parseDigits at hparse
      cases hd : decimalDigit c with
      | none => rw [hd] at hparse; cases hparse
      | some d => exact ⟨d, rfl⟩
    obtain ⟨d, hd⟩ := hc
    obtain ⟨h1, h2⟩ := decimalDigit_ne_sign c d hd
    simp only [h1, h2, if_false, hparse, Option.map_some']

theorem parseIntegerLiteral_strconvItoa (n : Int) :
    parseIntegerLiteral (strconvItoa n) = some n := by
  cases n with
  | ofNat m => exact parseIntegerLiteral_repr m
  | negSucc m =>
    have hparse := parseDigits_repr (m + 1)
    have hne : (Nat.repr (m + 1)).data ≠ [] := by
      intro h
      rw [h] at hparse
      simp [parseDigits] at hparse
    show parseIntegerLiteral ("-" ++ Nat.repr (m + 1)) = some (Int.negSucc m)
    unfold parseIntegerLiteral
    have hdata : ("-" ++ Nat.repr (m + 1)).data = '-' :: (Nat.repr (m + 1)).data := by
      rw [String.data_append]
      rfl
    rw [hdata]
    simp only [if_true, hne, if_false, hparse, Option.map_some']
    rfl
set_option exponentiation.threshold 2000 in
theorem float64OfInt_of_small (n : Int) (h : n.natAbs ≤ 2 ^ 53) :
    float64OfInt n = Except.ok (Float64.finite (n : ℚ)) := by
  have hround : roundNatToFloat64 n.natAbs = n.natAbs := by
    unfold roundNatToFloat64
    rw [if_pos h]
  have hrange : ¬ (n.natAbs ≥ 2 ^ 1024) := by
    have : (2 : Nat) ^ 53 < 2 ^ 1024 := Nat.pow_lt_pow_right (by decide) (by decide)
    omega
  unfold float64OfInt
  simp only [hround, hrange, if_false]
  by_cases hneg : n < 0
  · rw [if_pos hneg]
    have : (-(n.natAbs : Int) : Int) = n := by omega
    rw [this]
  · rw [if_neg hneg]
    have : ((n.natAbs : Int) : Int) = n := by omega
    rw [this]

theorem Float64_lt_finite (a b : Int) :
    Float64.lt (Float64.finite (a : ℚ)) (Float64.finite (b : ℚ)) = decide (a < b) := by
  simp [Float64.lt]

theorem Float64_le_finite (a b : Int) :
    Float64.le (Float64.finite (a : ℚ)) (Float64.finite (b : ℚ)) = decide (a ≤ b) := by
  simp [Float64.le]

theorem contextNumber_status_code (context : PolicyEvaluationContext) :
    contextNumber "status_code" context = context.StatusCode := by
  simp [contextNumber]

theorem contextNumber_failure_count (context : PolicyEvaluationContext) :
    contextNumber "failure_count" context = context.FailureCount := by
  simp [contextNumber]

theorem contextNumber_request_count (context : PolicyEvaluationContext) :
    contextNumber "request_count" context = context.RequestCount := by
  simp [contextNumber]

theorem sampleLib_parseFloat (s : String) (n : Int)
    (h : parseIntegerLiteral s = some n) : sampleLib.parseFloat s = float64OfInt n := by
  show parseFloatIntegerLiteral s = float64OfInt n
  unfold parseFloatIntegerLiteral
  rw [h]

/-- C25, amended: for a condition of type status_code, failure_count or
request_count with operator gt, lt, gte or lte whose value is a decimal
integer literal `v`, `evaluateCondition` returns exactly the integer
comparison between the context's number and `v`, provided both numbers are at
most `2 ^ 53` in absolute value, the range in which every integer is a float64.
`strconv.ParseFloat` is taken to return the nearest float64 of a decimal
integer literal. -/
theorem evaluateCondition_numeric (lib : StdLib) (condition : RetryCondition)
    (context : PolicyEvaluationContext) (v : Int)
    (hlib : ∀ s n, parseIntegerLiteral s = some n → lib.parseFloat s = float64OfInt n)
    (htype : condition.Typ = "status_code" ∨ condition.Typ = "failure_count" ∨
      condition.Typ = "request_count")
    (hvalue : parseIntegerLiteral condition.Value = some v)
    (hv : v.natAbs ≤ 2 ^ 53)
    (hn : (contextNumber condition.Typ context).natAbs ≤ 2 ^ 53) :
    (condition.Operator = "gt" →
      evaluateCondition lib condition context
        = decide (contextNumber condition.Typ context > v)) ∧
    (condition.Operator = "lt" →
      evaluateCondition lib condition context
        = decide (contextNumber condition.Typ context < v)) ∧
    (condition.Operator = "gte" →
      evaluateCondition lib condition context
        = decide (contextNumber condition.Typ context ≥ v)) ∧
    (condition.Operator = "lte" →
      evaluateCondition lib condition context
        = decide (contextNumber condition.Typ context ≤ v)) := by
  have hexpected : lib.parseFloat condition.Value = Except.ok (Float64.finite (v : ℚ)) := by
    rw [hlib _ _ hvalue, float64OfInt_of_small v hv]
  have hactual : lib.parseFloat (strconvItoa (contextNumber condition.Typ context))
      = Except.ok (Float64.finite ((contextNumber condition.Typ context : Int) : ℚ)) := by
    rw [hlib _ _ (parseIntegerLiteral_strconvItoa _), float64OfInt_of_small _ hn]
  rcases htype with h | h | h <;>
    rw [h] at hactual hn ⊢
  · rw [contextNumber_status_code] at hactual ⊢
    refine ⟨fun hop => ?_, fun hop => ?_, fun hop => ?_, fun hop => ?_⟩ <;>
      simp [evaluateCondition, h, hop, hactual, hexpected, Float64.gt, Float64.ge,
        Float64_lt_finite, Float64_le_finite]
  · rw [contextNumber_failure_count] at hactual ⊢
    refine ⟨fun hop => ?_, fun hop => ?_, fun hop => ?_, fun hop => ?_⟩ <;>
      simp [evaluateCondition, h, hop, hactual, hexpected, Float64.gt, Float64.ge,
        Float64_lt_finite, Float64_le_finite]
  · rw [contextNumber_request_count] at hactual ⊢
    refine ⟨fun hop => ?_, fun hop => ?_, fun hop => ?_, fun hop => ?_⟩ <;>
      simp [evaluateCondition, h, hop, hactual, hexpected, Float64.gt, Float64.ge,
        Float64_lt_finite, Float64_le_finite]

theorem evaluateCondition_numeric_witness :
    (∀ s n, parseIntegerLiteral s = some n → sampleLib.parseFloat s = float64OfInt n) ∧
    parseIntegerLiteral (failureCountAbove "3").Value = some 3 ∧
    ((failureCountAbove "3").Operator = "gt" →
      evaluateCondition sampleLib (failureCountAbove "3") sampleFailureContext
        = decide (contextNumber (failureCountAbove "3").Typ sampleFailureContext > 3)) ∧
    ((failureCountAbove "3").Operator = "lt" →
      evaluateCondition sampleLib (failureCountAbove "3") sampleFailureContext
        = decide (contextNumber (failureCountAbove "3").Typ sampleFailureContext < 3)) ∧
    ((failureCountAbove "3").Operator = "gte" →
      evaluateCondition sampleLib (failureCountAbove "3") sampleFailureContext
        = decide (contextNumber (failureCountAbove "3").Typ sampleFailureContext ≥ 3)) ∧
    ((failureCountAbove "3").Operator = "lte" →
      evaluateCondition sampleLib (failureCountAbove "3") sampleFailureContext
        = decide (contextNumber (failureCountAbove "3").Typ sampleFailureContext ≤ 3)) :=
  ⟨sampleLib_parseFloat, by decide,
    evaluateCondition_numeric sampleLib (failureCountAbove "3") sampleFailureContext 3
      sampleLib_parseFloat (Or.inr (Or.inl rfl)) (by decide) (by decide) (by decide)⟩

set_option exponentiation.threshold 2000 in
/-- C25, counterexample: a failure count of `2 ^ 53 + 1` is greater than
`2 ^ 53`, yet the condition `failure_count gt 9007199254740992` is false for
it: both sides parse to the float64 `2 ^ 53`. -/
theorem evaluateCondition_numeric_counterexample :
    parseIntegerLiteral (failureCountAbove "9007199254740992").Value
        = some 9007199254740992 ∧
      contextNumber (failureCountAbove "9007199254740992").Typ hugeFailureContext
        = 9007199254740993 ∧
      evaluateCondition sampleLib (failureCountAbove "9007199254740992") hugeFailureContext
        = false ∧
      decide ((9007199254740993 : Int) > 9007199254740992) = true := by
  decide

/-! ## `validateKeysBatch` -/

end GptLoad
